import Mathlib

/-!
# Style-transfer post-processing: shape, padding and layout arithmetic

A shallow embedding of the network builder of the style-transfer sample
(`acl_utils/tflite_parser.cpp`, `acl_utils/acl_network.cpp`,
`acl_utils/tensor_utils.cpp`, `acl_pipeline.cpp`) together with the properties
its specification states about it.

Conventions of the embedding:

* a `uint32_t` is a natural number below `2 ^ 32`; every arithmetic step of
  the source is written with `u32_add`, `u32_sub`, `u32_mul`, which reduce
  modulo `2 ^ 32` exactly as unsigned C++ arithmetic does;
* a `float` is the rational number it denotes; `f32_round` is IEEE-754
  binary32 round-to-nearest-even on the normal range, which is the only
  range the size arithmetic can reach;
* reference parameters that a C++ function only writes are returned as a
  tuple;
* undefined behaviour of the source (an index outside a vector, a null
  pointer, an overflowing `int` counter, a division by zero, a read behind the
  end of an array) is a separate outcome, `none` or `Outcome.undefined`, never
  a value;
* the arithmetic functions and the methods of the container are total
  functions; where the behaviour of the source is not defined for all
  arguments, a predicate (`calculate_conv_output_size_defined`,
  `set_tensor_values_defined`, `ACLNetwork.add_conv2d_defined`, ...) states
  when it is, and the importer has the outcome `Outcome.undefined` where that
  predicate fails;
* memory that is copied byte by byte is a function from byte offsets to bytes.
-/

namespace StyleTransfer

/-! ## Machine integers -/

/-- Number of values of a `uint32_t`. -/
def U32 : Nat := 4294967296

/-- Unsigned 32-bit addition. -/
def u32_add (a b : Nat) : Nat := (a + b) % U32

/-- Unsigned 32-bit subtraction (wraps below zero). -/
def u32_sub (a b : Nat) : Nat := (a % U32 + U32 - b % U32) % U32

/-- Unsigned 32-bit multiplication. -/
def u32_mul (a b : Nat) : Nat := (a * b) % U32

/-- Conversion of a wider unsigned value (`size_t`) to `uint32_t`. -/
def to_u32 (n : Nat) : Nat := n % U32

/-! ## Single-precision floats -/

/-- Rounding of a rational to the nearest integer, ties to the even one. -/
def round_half_even (x : ℚ) : ℤ :=
  if x - ⌊x⌋ < 1 / 2 then ⌊x⌋
  else if 1 / 2 < x - ⌊x⌋ then ⌊x⌋ + 1
  else if ⌊x⌋ % 2 = 0 then ⌊x⌋ else ⌊x⌋ + 1

/-- The binary32 value nearest to `x` (round to nearest, ties to even): the
significand keeps 24 bits, so the unit in the last place of a number in
`[2^e, 2^(e+1))` is `2^(e-23)`.  Overflow to infinity and subnormal numbers
are not modelled; conversions of 32-bit integers and quotients of two such
conversions stay within `[2^-32, 2^32]`, inside the normal range. -/
def f32_round (x : ℚ) : ℚ :=
  if x = 0 then 0
  else (round_half_even (x / (2 : ℚ) ^ (Int.log 2 |x| - 23)) : ℚ) * (2 : ℚ) ^ (Int.log 2 |x| - 23)

/-! ## `tflite_parser.cpp`: padding -/

/-- Modelled from the spec: the padding policy `tflite::Padding` of the model
schema (`tflite_schema.h`, a generated header that is not part of the
sources).  The spec names two policies, "same" and "valid". -/
inductive Padding where
  | SAME
  | VALID
  deriving DecidableEq, Repr

/-- The function `calculate_padding` of `tflite_parser.cpp`.  The two output
parameters `padding_front`, `padding_back` are returned as a pair.  The
division is the unsigned division of the source (`stride = 0` is undefined
behaviour there; Lean gives `0`, and the importer's calls go through
`calculate_padding_call`, which has no value in that case). -/
def calculate_padding (input_size kernel_size stride dilation : Nat)
    (padding : Padding) : Nat × Nat :=
  if padding = Padding.SAME then
    let output_size := u32_sub (u32_add input_size stride) 1 / stride
    let dilated_size := u32_add kernel_size (u32_mul (u32_sub dilation 1) (u32_sub kernel_size 1))
    let temp := u32_add (u32_mul (u32_sub output_size 1) stride) dilated_size
    if temp > input_size then
      let padding_front := u32_sub temp input_size / 2
      let padding_back := u32_sub (u32_sub temp input_size) padding_front
      (padding_front, padding_back)
    else (0, 0)
  else (0, 0)

/-- The "same" padding of the specification, word for word:
`effective_output = ceil(I / S)`, `dilated_kernel = K + (D-1)*(K-1)`,
`needed = (effective_output - 1)*S + dilated_kernel`; if `needed > I` then
`pad_front = (needed - I) / 2` and `pad_back = (needed - I) - pad_front`,
else both are `0`. -/
def same_padding_spec (I K S D : Nat) : Nat × Nat :=
  let effective_output := ⌈(I : ℚ) / (S : ℚ)⌉₊
  let dilated_kernel := K + (D - 1) * (K - 1)
  let needed := (effective_output - 1) * S + dilated_kernel
  if needed > I then ((needed - I) / 2, (needed - I) - (needed - I) / 2) else (0, 0)

/-- The intermediate values of `calculate_padding` fit in 32 bits: the
rounded-up quotient's numerator, the dilation factor, the dilated kernel size
and the padded extent. -/
def padding_fits (I K S D : Nat) : Prop :=
  I + S - 1 < U32 ∧ D < U32 ∧ K + (D - 1) * (K - 1) < U32 ∧
    ((I + S - 1) / S - 1) * S + (K + (D - 1) * (K - 1)) < U32

instance (I K S D : Nat) : Decidable (padding_fits I K S D) := by
  unfold padding_fits; infer_instance

/-! ## `acl_network.cpp`: output sizes -/

/-- The function `calculate_conv_output_size` of `acl_network.cpp`:
`std::ceil((float)(input_size + 2 * pad - dilation * (kernel_size - 1)) / (float)(stride))`
converted back to `uint32_t`.  The numerator is computed in `uint32_t`, both
operands are converted to `float`, the division is a `float` division.
For `stride = 0`, and for a quotient of `2^32` or more, the conversion of the
source is undefined behaviour; the model then yields the value of the
expression below, and `calculate_conv_output_size_defined` excludes the case. -/
def calculate_conv_output_size (input_size kernel_size pad stride dilation : Nat) : Nat :=
  let numerator :=
    u32_sub (u32_add input_size (u32_mul 2 pad)) (u32_mul dilation (u32_sub kernel_size 1))
  let quotient := f32_round (f32_round (numerator : ℚ) / f32_round (stride : ℚ))
  Int.toNat ⌈quotient⌉ % U32

/-- The function `calculate_deconv_output_size` of `acl_network.cpp`:
`(input_size - 1) * stride - 2 * pad + kernel_size` in `uint32_t`. -/
def calculate_deconv_output_size (input_size kernel_size pad stride : Nat) : Nat :=
  u32_add (u32_sub (u32_mul (u32_sub input_size 1) stride) (u32_mul 2 pad)) kernel_size

/-! ## `acl_network.cpp`: the operation graph container -/

/-- Modelled from the spec: element types of a tensor of the external compute
runtime ("8-bit quantized or 32-bit float"); `arm_compute::DataType` is
declared in the runtime's headers, which are not part of the sources. -/
inductive DataType where
  | F32
  | QASYMM8
  deriving DecidableEq, Repr

/-- Modelled from the spec: the activation functions of the external compute
runtime that the sources name (`arm_compute::ActivationLayerInfo`). -/
inductive ActivationFunction where
  | IDENTITY
  | RELU
  | LINEAR
  deriving DecidableEq, Repr

/-- Modelled from the spec: the rounding mode handed to the runtime with the
padding and strides (`arm_compute::DimensionRoundingType`). -/
inductive DimensionRoundingType where
  | FLOOR
  | CEIL
  deriving DecidableEq, Repr

/-- Modelled from the spec: the arguments of the `arm_compute::PadStrideInfo`
constructor, in the order the sources pass them. -/
structure PadStrideInfo where
  stride_x : Nat
  stride_y : Nat
  pad_left : Nat
  pad_right : Nat
  pad_top : Nat
  pad_bottom : Nat
  round_type : DimensionRoundingType
  deriving DecidableEq, Repr

/-- Shape and element type of a tensor; fixed at creation.  The shape lists
the dimensions in the runtime's order: channels, width, height, batch. -/
structure TensorInfo where
  shape : List Nat
  data_type : DataType
  deriving DecidableEq, Repr

/-- Dimension `i` of a shape (`TensorShape::operator[]`); a dimension beyond
the rank reads as `1`, as the batch dimension always is here. -/
def TensorInfo.dim (info : TensorInfo) (i : Nat) : Nat := info.shape.getD i 1

/-- Identity of a tensor: a tensor owned by the container is its position in
the container's `tensors` vector, any other tensor (such as the caller's
input/output tensor) is external. -/
inductive TensorId where
  | external (n : Nat)
  | owned (index : Nat)
  deriving DecidableEq, Repr

/-- A reference `arm_compute::CLTensor&`: which tensor, and its immutable info. -/
structure TensorRef where
  id : TensorId
  info : TensorInfo
  deriving DecidableEq, Repr

/-- A tensor owned by the container: its info, whether its backing memory has
been allocated, and the elements last copied into it by `set_tensor_values`,
row after row. -/
structure CLTensor where
  info : TensorInfo
  allocated : Bool
  values : List ℚ
  deriving DecidableEq, Repr

/-- A configured operation (`arm_compute::IFunction`): the runtime class that
was instantiated and the arguments of its `configure` call. -/
inductive IFunction where
  | CLArithmeticAddition (input_a input_b output : TensorRef) (activation : ActivationFunction)
  | CLActivationLayer (input output : TensorRef) (activation : ActivationFunction) (a b : ℚ)
  | CLPadLayer (input output : TensorRef) (padding_list : List (Nat × Nat))
  | CLConvolutionLayer (input kernel bias output : TensorRef) (pad_stride_info : PadStrideInfo)
      (dilation : Nat × Nat) (activation : ActivationFunction)
  | CLDepthwiseConvolutionLayer (input kernel bias output : TensorRef)
      (pad_stride_info : PadStrideInfo) (depth_multiplier : Nat)
      (activation : ActivationFunction) (dilation : Nat × Nat)
  | CLDeconvolutionLayer (input kernel bias output : TensorRef) (pad_stride_info : PadStrideInfo)
  | CLDequantizationLayer (input output : TensorRef)
  | CLQuantizationLayer (input output : TensorRef)
  | CLElementwisePower (input1 input2 output : TensorRef) (activation : ActivationFunction)
      (a b : ℚ)
  deriving DecidableEq, Repr

/-- The class `ACLNetwork`: the owned tensors and the operations in insertion
order.  `log` collects the messages the methods write with `LOGE`. -/
structure ACLNetwork where
  tensors : List CLTensor
  functions : List IFunction
  log : List String
  deriving DecidableEq, Repr

/-- The method `ACLNetwork::create_tensor`: a new `F32` tensor with the given
dimensions is appended to `tensors`; the reference to it is returned. -/
def ACLNetwork.create_tensor (net : ACLNetwork) (dims : List Nat) : ACLNetwork × TensorRef :=
  let info : TensorInfo := ⟨dims, DataType.F32⟩
  (⟨net.tensors ++ [⟨info, false, []⟩], net.functions, net.log⟩,
    ⟨TensorId.owned net.tensors.length, info⟩)

/-- The call `tensor.allocator()->allocate()` on a tensor of the container. -/
def ACLNetwork.allocate (net : ACLNetwork) (t : TensorRef) : ACLNetwork :=
  match t.id with
  | TensorId.owned i =>
    ⟨net.tensors.modify (fun c => ⟨c.info, true, c.values⟩) i, net.functions, net.log⟩
  | TensorId.external _ => net

/-- A loop `for (unsigned int i = 0; i < n; ++i)` over a state. -/
def for_unsigned {σ : Type} (n : Nat) (body : Nat → σ → σ) (s : σ) : σ :=
  (List.range n).foldl (fun s i => body i s) s

/-- The function `get_linear_buffer_offset` of `tensor_utils.cpp` for the info
of a tensor of the container: the index of the element in the flat array,
computed in `uint32_t`. -/
def TensorInfo.get_linear_buffer_offset (info : TensorInfo)
    (depth_index batch_index channel_index y x : Nat) : Nat :=
  let width := to_u32 (info.dim 0)
  let height := to_u32 (info.dim 1)
  let num_channels := to_u32 (info.dim 2)
  let num_batches := to_u32 (info.dim 3)
  u32_add (u32_mul (u32_add (u32_mul (u32_add (u32_mul (u32_add
    (u32_mul depth_index num_batches) batch_index) num_channels) channel_index) height) y)
    width) x

/-- The function `copy_data_to_tensor` of `tensor_utils.cpp` on a tensor of
the container, whose elements are listed row after row in the order of the
loops.  Each row receives the `width` floats of the array `data` that start at
the row's linear offset.  The source is handed a bare pointer and copies
whatever the tensor's shape asks for: the second component tells whether every
row is read from inside the array; a read behind the end of the array is
undefined behaviour. -/
def TensorInfo.copy_data_to_tensor (info : TensorInfo) (data : List ℚ) : List ℚ × Bool :=
  let width := to_u32 (info.dim 0)
  let height := to_u32 (info.dim 1)
  let num_channels := to_u32 (info.dim 2)
  let num_batches := to_u32 (info.dim 3)
  let depth := to_u32 (info.dim 4)
  for_unsigned depth (fun depth_index copied =>
    for_unsigned num_batches (fun batch_index copied =>
      for_unsigned num_channels (fun channel_index copied =>
        for_unsigned height (fun y copied =>
          let offset := info.get_linear_buffer_offset depth_index batch_index channel_index y 0
          (copied.1 ++ (data.drop offset).take width,
            copied.2 && decide (offset + width ≤ data.length)))
        copied) copied) copied) ([], true)

/-- The behaviour of `set_tensor_values(tensor, values)` is defined: the array
holds every float that the copy reads for a tensor with this info. -/
def set_tensor_values_defined (info : TensorInfo) (values : List ℚ) : Prop :=
  (info.copy_data_to_tensor values).2 = true

instance (info : TensorInfo) (values : List ℚ) : Decidable (set_tensor_values_defined info values) := by
  unfold set_tensor_values_defined; infer_instance

/-- The call `set_tensor_values(tensor, values)` on a tensor of the container
(`tensor_utils.cpp`): the tensor holds the floats that `copy_data_to_tensor`
copies out of the array, which are as many as the tensor has elements, however
long the array is.  The call is defined when `set_tensor_values_defined` holds
of the tensor's info and the array. -/
def ACLNetwork.set_tensor_values (net : ACLNetwork) (t : TensorRef) (values : List ℚ) :
    ACLNetwork :=
  match t.id with
  | TensorId.owned i =>
    ⟨net.tensors.modify
      (fun c => ⟨c.info, c.allocated, (c.info.copy_data_to_tensor values).1⟩) i,
      net.functions, net.log⟩
  | TensorId.external _ => net

/-- The `validate`-then-`configure` sequence shared by the layers with learned
parameters: a failed validation is logged with the runtime's description, and
the operation is appended in either case.  `validate` stands for the external
runtime's verdict on the configuration. -/
def ACLNetwork.validate_and_push (net : ACLNetwork) (validate : IFunction → Option String)
    (message : String) (function : IFunction) : ACLNetwork :=
  let log := match validate function with
    | some description => net.log ++ [message ++ description]
    | none => net.log
  ⟨net.tensors, net.functions ++ [function], log⟩

/-- The method `ACLNetwork::add_conv2d`.  The behaviour of the source is
defined for the arguments that satisfy `ACLNetwork.add_conv2d_defined`. -/
def ACLNetwork.add_conv2d (validate : IFunction → Option String) (net : ACLNetwork)
    (input : TensorRef) (kernel_width kernel_height output_features : Nat)
    (pad_x_front pad_x_back pad_y_front pad_y_back stride_x stride_y : Nat)
    (kernel_values bias_values : List ℚ) (activation : ActivationFunction)
    (dilation_x dilation_y : Nat) : ACLNetwork × TensorRef :=
  let input_features := to_u32 (input.info.dim 0)
  let output_width := calculate_conv_output_size (to_u32 (input.info.dim 1)) kernel_width
    (max pad_x_front pad_x_back) stride_x dilation_x
  let output_height := calculate_conv_output_size (to_u32 (input.info.dim 2)) kernel_height
    (max pad_y_front pad_y_back) stride_y dilation_y
  let (net, kernel) := net.create_tensor [input_features, kernel_width, kernel_height, output_features]
  let (net, bias) := net.create_tensor [output_features]
  let (net, output) := net.create_tensor [output_features, output_width, output_height]
  let pad_stride_info : PadStrideInfo := ⟨stride_x, stride_y, pad_x_front, pad_x_back,
    pad_y_front, pad_y_back, DimensionRoundingType.FLOOR⟩
  let net := net.validate_and_push validate "Conv2D error, description: "
    (IFunction.CLConvolutionLayer input kernel bias output pad_stride_info
      (dilation_x, dilation_y) activation)
  let net := net.allocate output
  let net := net.allocate kernel
  let net := net.allocate bias
  let net := net.set_tensor_values kernel kernel_values
  let net := net.set_tensor_values bias bias_values
  (net, output)

/-- The method `ACLNetwork::add_depthwise_conv2d`.  The behaviour of the source
is defined for the arguments that satisfy
`ACLNetwork.add_depthwise_conv2d_defined`. -/
def ACLNetwork.add_depthwise_conv2d (validate : IFunction → Option String) (net : ACLNetwork)
    (input : TensorRef) (kernel_width kernel_height : Nat)
    (pad_x_front pad_x_back pad_y_front pad_y_back stride_x stride_y : Nat)
    (kernel_values bias_values : List ℚ) (activation : ActivationFunction)
    (dilation_x dilation_y : Nat) : ACLNetwork × TensorRef :=
  let input_features := to_u32 (input.info.dim 0)
  let output_width := calculate_conv_output_size (to_u32 (input.info.dim 1)) kernel_width
    (max pad_x_front pad_x_back) stride_x dilation_x
  let output_height := calculate_conv_output_size (to_u32 (input.info.dim 2)) kernel_height
    (max pad_y_front pad_y_back) stride_y dilation_y
  let (net, kernel) := net.create_tensor [input_features, kernel_width, kernel_height]
  let (net, bias) := net.create_tensor [input_features]
  let (net, output) := net.create_tensor [input_features, output_width, output_height]
  let pad_stride_info : PadStrideInfo := ⟨stride_x, stride_y, pad_x_front, pad_x_back,
    pad_y_front, pad_y_back, DimensionRoundingType.FLOOR⟩
  let net := net.validate_and_push validate "DepthwiseConv2D error, description: "
    (IFunction.CLDepthwiseConvolutionLayer input kernel bias output pad_stride_info 1
      activation (dilation_x, dilation_y))
  let net := net.allocate output
  let net := net.allocate kernel
  let net := net.allocate bias
  let net := net.set_tensor_values kernel kernel_values
  let net := net.set_tensor_values bias bias_values
  (net, output)

/-- The method `ACLNetwork::add_conv2d_transpose`.  The behaviour of the source
is defined for the arguments that satisfy
`ACLNetwork.add_conv2d_transpose_defined`. -/
def ACLNetwork.add_conv2d_transpose (validate : IFunction → Option String) (net : ACLNetwork)
    (input : TensorRef) (kernel_width kernel_height output_features : Nat)
    (pad_x_front pad_x_back pad_y_front pad_y_back stride_x stride_y : Nat)
    (kernel_values bias_values : List ℚ) : ACLNetwork × TensorRef :=
  let input_features := to_u32 (input.info.dim 0)
  let output_width := calculate_deconv_output_size (to_u32 (input.info.dim 1)) kernel_width
    (max pad_x_front pad_x_back) stride_x
  let output_height := calculate_deconv_output_size (to_u32 (input.info.dim 2)) kernel_height
    (max pad_y_front pad_y_back) stride_y
  let (net, kernel) := net.create_tensor [input_features, kernel_width, kernel_height, output_features]
  let (net, bias) := net.create_tensor [output_features]
  let (net, output) := net.create_tensor [output_features, output_width, output_height]
  let pad_stride_info : PadStrideInfo := ⟨stride_x, stride_y, pad_x_front, pad_x_back,
    pad_y_front, pad_y_back, DimensionRoundingType.FLOOR⟩
  let net := net.validate_and_push validate "Conv2DTranspose error, description: "
    (IFunction.CLDeconvolutionLayer input kernel bias output pad_stride_info)
  let net := net.allocate output
  let net := net.allocate kernel
  let net := net.allocate bias
  let net := net.set_tensor_values kernel kernel_values
  let net := net.set_tensor_values bias bias_values
  (net, output)

/-- The conversion to `uint32_t` that ends `calculate_conv_output_size` is
defined: the stride is not zero (the quotient of the `float` division is then
infinite or not a number) and the rounded-up quotient is below `2^32`. -/
def calculate_conv_output_size_defined (input_size kernel_size pad stride dilation : Nat) :
    Prop :=
  stride ≠ 0 ∧
    ⌈f32_round (f32_round
      ((u32_sub (u32_add input_size (u32_mul 2 pad)) (u32_mul dilation (u32_sub kernel_size 1))
        : Nat) : ℚ) / f32_round (stride : ℚ))⌉ < (U32 : ℤ)

instance (input_size kernel_size pad stride dilation : Nat) :
    Decidable (calculate_conv_output_size_defined input_size kernel_size pad stride dilation) := by
  unfold calculate_conv_output_size_defined; infer_instance

/-- The behaviour of a call of `ACLNetwork::add_conv2d` is defined: both
output sizes are, and both value arrays hold what is copied into the kernel
and bias tensors. -/
def ACLNetwork.add_conv2d_defined (input : TensorRef)
    (kernel_width kernel_height output_features : Nat)
    (pad_x_front pad_x_back pad_y_front pad_y_back stride_x stride_y : Nat)
    (kernel_values bias_values : List ℚ) (dilation_x dilation_y : Nat) : Prop :=
  calculate_conv_output_size_defined (to_u32 (input.info.dim 1)) kernel_width
      (max pad_x_front pad_x_back) stride_x dilation_x ∧
    calculate_conv_output_size_defined (to_u32 (input.info.dim 2)) kernel_height
      (max pad_y_front pad_y_back) stride_y dilation_y ∧
    set_tensor_values_defined
      ⟨[to_u32 (input.info.dim 0), kernel_width, kernel_height, output_features], DataType.F32⟩
      kernel_values ∧
    set_tensor_values_defined ⟨[output_features], DataType.F32⟩ bias_values

instance (input : TensorRef) (kernel_width kernel_height output_features : Nat)
    (pad_x_front pad_x_back pad_y_front pad_y_back stride_x stride_y : Nat)
    (kernel_values bias_values : List ℚ) (dilation_x dilation_y : Nat) :
    Decidable (ACLNetwork.add_conv2d_defined input kernel_width kernel_height output_features
      pad_x_front pad_x_back pad_y_front pad_y_back stride_x stride_y kernel_values bias_values
      dilation_x dilation_y) := by
  unfold ACLNetwork.add_conv2d_defined; infer_instance

/-- The behaviour of a call of `ACLNetwork::add_depthwise_conv2d` is defined:
both output sizes are, and both value arrays hold what is copied into the
kernel and bias tensors. -/
def ACLNetwork.add_depthwise_conv2d_defined (input : TensorRef)
    (kernel_width kernel_height : Nat)
    (pad_x_front pad_x_back pad_y_front pad_y_back stride_x stride_y : Nat)
    (kernel_values bias_values : List ℚ) (dilation_x dilation_y : Nat) : Prop :=
  calculate_conv_output_size_defined (to_u32 (input.info.dim 1)) kernel_width
      (max pad_x_front pad_x_back) stride_x dilation_x ∧
    calculate_conv_output_size_defined (to_u32 (input.info.dim 2)) kernel_height
      (max pad_y_front pad_y_back) stride_y dilation_y ∧
    set_tensor_values_defined
      ⟨[to_u32 (input.info.dim 0), kernel_width, kernel_height], DataType.F32⟩ kernel_values ∧
    set_tensor_values_defined ⟨[to_u32 (input.info.dim 0)], DataType.F32⟩ bias_values

instance (input : TensorRef) (kernel_width kernel_height : Nat)
    (pad_x_front pad_x_back pad_y_front pad_y_back stride_x stride_y : Nat)
    (kernel_values bias_values : List ℚ) (dilation_x dilation_y : Nat) :
    Decidable (ACLNetwork.add_depthwise_conv2d_defined input kernel_width kernel_height
      pad_x_front pad_x_back pad_y_front pad_y_back stride_x stride_y kernel_values bias_values
      dilation_x dilation_y) := by
  unfold ACLNetwork.add_depthwise_conv2d_defined; infer_instance

/-- The behaviour of a call of `ACLNetwork::add_conv2d_transpose` is defined:
both value arrays hold what is copied into the kernel and bias tensors (the
output sizes are computed in `uint32_t` alone). -/
def ACLNetwork.add_conv2d_transpose_defined (input : TensorRef)
    (kernel_width kernel_height output_features : Nat)
    (kernel_values bias_values : List ℚ) : Prop :=
  set_tensor_values_defined
      ⟨[to_u32 (input.info.dim 0), kernel_width, kernel_height, output_features], DataType.F32⟩
      kernel_values ∧
    set_tensor_values_defined ⟨[output_features], DataType.F32⟩ bias_values

instance (input : TensorRef) (kernel_width kernel_height output_features : Nat)
    (kernel_values bias_values : List ℚ) :
    Decidable (ACLNetwork.add_conv2d_transpose_defined input kernel_width kernel_height
      output_features kernel_values bias_values) := by
  unfold ACLNetwork.add_conv2d_transpose_defined; infer_instance

/-! ## `tensor_utils.cpp`: kernel value reordering -/

/-- Number of non-negative values of an `int`. -/
def INT_RANGE : Nat := 2147483648

/-- A loop `for (int i = 0; i < n; i++)` over a state, with `n` a `uint32_t`.
The counter is compared as an unsigned value, so the body runs for
`i = 0, ..., n - 1`; incrementing the counter past the largest `int` is
undefined behaviour, as is a body that is undefined: both give `none`. -/
def for_int {σ : Type} (n : Nat) (body : Nat → σ → Option σ) (s : σ) : Option σ :=
  if n < INT_RANGE then (List.range n).foldlM (fun s i => body i s) s else none

/-- The assignment `transposed_values[dst_index] = values[src_index]`.  Both
indices are `int` variables initialised from a `uint32_t` expression: a value
of `2^31` or more becomes negative, and a negative or too large index is
outside the vector (undefined behaviour, `none`). -/
def assign_at {α : Type} (values : List α) (src_index dst_index : Nat)
    (transposed_values : List α) : Option (List α) :=
  if src_index < INT_RANGE ∧ dst_index < INT_RANGE then
    match values[src_index]? with
    | some v =>
      if dst_index < transposed_values.length then some (transposed_values.set dst_index v)
      else none
    | none => none
  else none

/-- The function `transpose_kernel_values` of `tensor_utils.cpp`.  The result
vector starts as `values.size()` zeros; the index expressions mix the `int`
counters with `uint32_t` sizes and are therefore unsigned 32-bit arithmetic. -/
def transpose_kernel_values {α : Type} [Zero α] (values : List α)
    (width height input_channels output_features : Nat) : Option (List α) :=
  for_int height (fun y transposed_values =>
    for_int width (fun x transposed_values =>
      for_int input_channels (fun c transposed_values =>
        for_int output_features (fun f transposed_values =>
          let src_index := u32_add (u32_mul (u32_add (u32_mul (u32_add (u32_mul y width) x)
            input_channels) c) output_features) f
          let dst_index := u32_add (u32_mul (u32_add (u32_mul (u32_add (u32_mul f height) y)
            width) x) input_channels) c
          assign_at values src_index dst_index transposed_values)
        transposed_values) transposed_values) transposed_values)
    (List.replicate values.length 0)

/-- The function `transpose_deconv_kernel_values` of `tensor_utils.cpp`. -/
def transpose_deconv_kernel_values {α : Type} [Zero α] (values : List α)
    (width height input_channels output_features : Nat) : Option (List α) :=
  for_int height (fun y transposed_values =>
    for_int width (fun x transposed_values =>
      for_int input_channels (fun c transposed_values =>
        for_int output_features (fun f transposed_values =>
          let src_index := u32_add (u32_mul (u32_add (u32_mul (u32_add (u32_mul y width) x)
            input_channels) c) output_features) f
          let dst_index := u32_add (u32_mul (u32_add (u32_mul (u32_add (u32_mul c height) y)
            width) x) output_features) f
          assign_at values src_index dst_index transposed_values)
        transposed_values) transposed_values) transposed_values)
    (List.replicate values.length 0)

/-- The kernel dimensions and the element count are within the range of the
`int` counters and indices of the reordering loops. -/
def kernel_fits (W H C F : Nat) : Prop :=
  W < INT_RANGE ∧ H < INT_RANGE ∧ C < INT_RANGE ∧ F < INT_RANGE ∧ W * H * C * F < INT_RANGE

instance (W H C F : Nat) : Decidable (kernel_fits W H C F) := by
  unfold kernel_fits; infer_instance

/-! ## `acl_network.cpp`: the layers without learned parameters

The `float` constants of these layers are taken as the decimal numbers the
source writes (`1.7f` is `1.7`), and `float` products and quotients of such
constants as exact; the element functions are stated over exact arithmetic. -/

/-- The call `functions.push_back(...)` for a configured operation. -/
def ACLNetwork.push (net : ACLNetwork) (function : IFunction) : ACLNetwork :=
  ⟨net.tensors, net.functions ++ [function], net.log⟩

/-- The method `ACLNetwork::add_addition`. -/
def ACLNetwork.add_addition (net : ACLNetwork) (input_a input_b : TensorRef)
    (activation : ActivationFunction) : ACLNetwork × TensorRef :=
  let (net, output) := net.create_tensor
    [to_u32 (input_a.info.dim 0), to_u32 (input_a.info.dim 1), to_u32 (input_a.info.dim 2)]
  let net := net.push (IFunction.CLArithmeticAddition input_a input_b output activation)
  let net := net.allocate output
  (net, output)

/-- The method `ACLNetwork::add_activation`; the source's default values of
`a` and `b` are `0.0f`. -/
def ACLNetwork.add_activation (net : ACLNetwork) (input : TensorRef)
    (activation : ActivationFunction) (a b : ℚ) : ACLNetwork × TensorRef :=
  let (net, output) := net.create_tensor
    [to_u32 (input.info.dim 0), to_u32 (input.info.dim 1), to_u32 (input.info.dim 2)]
  let net := net.push (IFunction.CLActivationLayer input output activation a b)
  let net := net.allocate output
  (net, output)

/-- The method `ACLNetwork::add_dequantization`. -/
def ACLNetwork.add_dequantization (net : ACLNetwork) (input : TensorRef) :
    ACLNetwork × TensorRef :=
  let (net, output) := net.create_tensor
    [to_u32 (input.info.dim 0), to_u32 (input.info.dim 1), to_u32 (input.info.dim 2)]
  let net := net.push (IFunction.CLDequantizationLayer input output)
  let net := net.allocate output
  (net, output)

/-- The method `ACLNetwork::add_quantization`: it creates no tensor. -/
def ACLNetwork.add_quantization (net : ACLNetwork) (input output : TensorRef) : ACLNetwork :=
  net.push (IFunction.CLQuantizationLayer input output)

/-- The method `ACLNetwork::add_linear_to_srgb`. -/
def ACLNetwork.add_linear_to_srgb (validate : IFunction → Option String) (net : ACLNetwork)
    (input : TensorRef) : ACLNetwork × TensorRef :=
  let brightness_adjustment : ℚ := 1.7
  let (net, input_normalized) := net.add_activation input ActivationFunction.LINEAR
    (1.0 / 255.0 * brightness_adjustment) 0.0
  let (net, output) := net.create_tensor
    [to_u32 (input.info.dim 0), to_u32 (input.info.dim 1), to_u32 (input.info.dim 2)]
  let (net, multiplier) := net.create_tensor [1]
  let net := net.validate_and_push validate "ElementwisePower error, description: "
    (IFunction.CLElementwisePower input_normalized multiplier output ActivationFunction.LINEAR
      269.025 (-14.025))
  let net := net.allocate multiplier
  let net := net.allocate output
  let net := net.set_tensor_values multiplier [1.0 / 2.4]
  (net, output)

/-- The method `ACLNetwork::add_srgb_to_linear`.  The source binds the result of
the second activation to `input_divided` and never reads it. -/
def ACLNetwork.add_srgb_to_linear (validate : IFunction → Option String) (net : ACLNetwork)
    (input : TensorRef) : ACLNetwork × TensorRef :=
  let (net, output) := net.create_tensor
    [to_u32 (input.info.dim 0), to_u32 (input.info.dim 1), to_u32 (input.info.dim 2)]
  let (net, input_normalized) := net.add_activation input ActivationFunction.LINEAR
    (1.0 / 255.0) 0.055
  let (net, _input_divided) := net.add_activation input ActivationFunction.LINEAR
    (1.0 / 1.055) 0.0
  let (net, multiplier) := net.create_tensor [1]
  let net := net.validate_and_push validate "ElementwisePower error, description: "
    (IFunction.CLElementwisePower input_normalized multiplier output ActivationFunction.LINEAR
      255.0 0)
  let net := net.allocate multiplier
  let net := net.allocate output
  let net := net.set_tensor_values multiplier [2.4]
  (net, output)

/-- The method `ACLNetwork::add_pad`.  The padded extents are computed in
`size_t` from the `uint32_t` product `pad * 2` and stored in a `uint32_t`. -/
def ACLNetwork.add_pad (net : ACLNetwork) (input : TensorRef) (pad_x pad_y : Nat) :
    ACLNetwork × TensorRef :=
  let output_width := to_u32 (input.info.dim 1 + u32_mul pad_x 2)
  let output_height := to_u32 (input.info.dim 2 + u32_mul pad_y 2)
  let padding_list := [(0, 0), (pad_x, pad_x), (pad_y, pad_y)]
  let (net, output) := net.create_tensor
    [to_u32 (input.info.dim 0), output_width, output_height]
  let net := net.push (IFunction.CLPadLayer input output padding_list)
  let net := net.allocate output
  (net, output)

/-- A call that `ACLNetwork::run` issues on a configured operation of the
external runtime. -/
inductive Call where
  | prepare (function : IFunction)
  | run (function : IFunction)
  deriving DecidableEq, Repr

/-- The method `ACLNetwork::run`: the loop over `functions` calls `prepare()`
and then `run()` on each operation.  The result is the container after the
call and the calls issued, in the order they are issued. -/
def ACLNetwork.run (net : ACLNetwork) : ACLNetwork × List Call :=
  (net, net.functions.foldl
    (fun calls function => calls ++ [Call.prepare function, Call.run function]) [])

/-- Modelled from the spec: the tensors an operation of the external runtime
reads when it runs, which are the input tensors of its `configure` call. -/
def IFunction.inputs : IFunction → List TensorId
  | IFunction.CLArithmeticAddition input_a input_b _ _ => [input_a.id, input_b.id]
  | IFunction.CLActivationLayer input _ _ _ _ => [input.id]
  | IFunction.CLPadLayer input _ _ => [input.id]
  | IFunction.CLConvolutionLayer input kernel bias _ _ _ _ => [input.id, kernel.id, bias.id]
  | IFunction.CLDepthwiseConvolutionLayer input kernel bias _ _ _ _ _ =>
    [input.id, kernel.id, bias.id]
  | IFunction.CLDeconvolutionLayer input kernel bias _ _ => [input.id, kernel.id, bias.id]
  | IFunction.CLDequantizationLayer input _ => [input.id]
  | IFunction.CLQuantizationLayer input _ => [input.id]
  | IFunction.CLElementwisePower input1 input2 _ _ _ _ => [input1.id, input2.id]

/-! ## The serialized model

Modelled from the spec: the flat-buffer model schema (`tflite_schema.h`, a
generated header that is not part of the sources).  Only the fields that the
importer reads are kept.  A vector or table that the importer dereferences
without a check is present in every model of this type; an index into a
vector may still be out of range. -/

/-- Modelled from the spec: the builtin operator code `ADD` of the schema. -/
def BuiltinOperator_ADD : Int := 0

/-- Modelled from the spec: the builtin operator code `CONV_2D` of the schema. -/
def BuiltinOperator_CONV_2D : Int := 3

/-- Modelled from the spec: the builtin operator code `DEPTHWISE_CONV_2D` of
the schema. -/
def BuiltinOperator_DEPTHWISE_CONV_2D : Int := 4

/-- Modelled from the spec: the builtin operator code `RELU` of the schema. -/
def BuiltinOperator_RELU : Int := 19

/-- Modelled from the spec: the builtin operator code `TRANSPOSE_CONV` of the
schema. -/
def BuiltinOperator_TRANSPOSE_CONV : Int := 67

/-- Modelled from the spec: the fused activation code `NONE` of the schema. -/
def ActivationFunctionType_NONE : Int := 0

/-- Modelled from the spec: the fused activation code `RELU` of the schema. -/
def ActivationFunctionType_RELU : Int := 1

/-- Modelled from the spec: the operator-specific options of an operator
(`builtin_options`), for the four option tables the importer reads. -/
inductive BuiltinOptions where
  | NONE
  | Conv2DOptions (padding : Padding) (stride_w stride_h : Int)
      (fused_activation_function : Int) (dilation_w_factor dilation_h_factor : Int)
  | DepthwiseConv2DOptions (padding : Padding) (stride_w stride_h : Int)
      (fused_activation_function : Int) (dilation_w_factor dilation_h_factor : Int)
  | TransposeConvOptions (padding : Padding) (stride_w stride_h : Int)
  | AddOptions (fused_activation_function : Int)
  deriving DecidableEq, Repr

/-- Modelled from the spec: an operator of the sub-graph (`tflite::Operator`). -/
structure Operator where
  opcode_index : Nat
  inputs : List Int
  outputs : List Int
  builtin_options : BuiltinOptions
  deriving DecidableEq, Repr

/-- Modelled from the spec: a tensor declaration of the sub-graph
(`tflite::Tensor`): its shape and the index of its buffer. -/
structure ModelTensor where
  shape : List Int
  buffer : Nat
  deriving DecidableEq, Repr

/-- Modelled from the spec: a buffer of the model (`tflite::Buffer`).  `data` is
the byte blob read as an array of `float` (as `copy_to_vector` reads it, for a
blob of a whole number of `float`s), or `none` when the buffer has no data. -/
structure Buffer where
  data : Option (List ℚ)
  deriving DecidableEq, Repr

/-- Modelled from the spec: an entry of the operator code table
(`tflite::OperatorCode`). -/
structure OperatorCode where
  deprecated_builtin_code : Int
  deriving DecidableEq, Repr

/-- Modelled from the spec: a sub-graph of the model (`tflite::SubGraph`). -/
structure SubGraph where
  tensors : List ModelTensor
  inputs : List Int
  outputs : List Int
  operators : List Operator
  deriving DecidableEq, Repr

/-- Modelled from the spec: the serialized model (`tflite::Model`). -/
structure Model where
  operator_codes : List OperatorCode
  subgraphs : List SubGraph
  buffers : List Buffer
  deriving DecidableEq, Repr

/-! ## `tflite_parser.cpp`: the importer -/

/-- The exceptions the importer raises: the `std::runtime_error` it throws
itself, with its message, and the `std::out_of_range` of a failed `at`. -/
inductive Exception where
  | runtime_error (what : String)
  | out_of_range
  deriving DecidableEq, Repr

/-- How a step of the importer can fail: with an exception, or with undefined
behaviour (an index outside a vector, a null pointer, a division by zero). -/
inductive Fault where
  | throws (e : Exception)
  | undefined
  deriving DecidableEq, Repr

/-- The outcome of a step that changes the container: it returns, or it throws
with the state as it is at the `throw`, or its behaviour is undefined. -/
inductive Outcome (σ : Type) where
  | ok (s : σ)
  | throws (e : Exception) (s : σ)
  | undefined
  deriving DecidableEq, Repr

/-- The Model Index Map `std::unordered_map<int32_t, arm_compute::CLTensor*>`. -/
abbrev TensorMap := List (Int × TensorRef)

/-- The lookup `tensors.at(key)`: a missing key throws `std::out_of_range`. -/
def TensorMap.at (tensors : TensorMap) (key : Int) : Except Fault TensorRef :=
  match tensors.lookup key with
  | some tensor => Except.ok tensor
  | none => Except.error (Fault.throws Exception.out_of_range)

/-- The assignment `tensors[key] = &tensor`. -/
def TensorMap.assign (tensors : TensorMap) (key : Int) (tensor : TensorRef) : TensorMap :=
  (key, tensor) :: tensors.filter (fun entry => decide (entry.1 ≠ key))

/-- The container and the Model Index Map during the import. -/
structure ImportState where
  net : ACLNetwork
  tensors : TensorMap
  deriving DecidableEq, Repr

/-- The element access `Get(i)` of a flat-buffer vector, and `operator[]` of a
`std::vector`: an index outside the vector is undefined behaviour. -/
def Get {α : Type} (vector : List α) (i : Nat) : Except Fault α :=
  match vector[i]? with
  | some a => Except.ok a
  | none => Except.error Fault.undefined

/-- Conversion of an `int32_t` to `uint32_t`. -/
def int_to_u32 (i : Int) : Nat := (i % 4294967296).toNat

/-- The function `to_uint_vector` of `tflite_parser.cpp`. -/
def to_uint_vector (int_vector : List Int) : List Nat := int_vector.map int_to_u32

/-- The table `TFLITE_TO_ACL_ACTIVATION` of `tflite_parser.cpp`. -/
def TFLITE_TO_ACL_ACTIVATION : List (Int × ActivationFunction) :=
  [(ActivationFunctionType_NONE, ActivationFunction.IDENTITY),
   (ActivationFunctionType_RELU, ActivationFunction.RELU)]

/-- The lookup `TFLITE_TO_ACL_ACTIVATION.at(code)`: a code that is not in the
table throws `std::out_of_range`. -/
def activation_at (code : Int) : Except Fault ActivationFunction :=
  match TFLITE_TO_ACL_ACTIVATION.lookup code with
  | some activation => Except.ok activation
  | none => Except.error (Fault.throws Exception.out_of_range)

/-- The array `copy_to_vector((const float*)buffer->data()->Data(), ...)`: the
buffer's data read as `float` values; a buffer without data is a null pointer. -/
def copy_to_vector (buffer : Buffer) : Except Fault (List ℚ) :=
  match buffer.data with
  | some values => Except.ok values
  | none => Except.error Fault.undefined

/-- A call of `calculate_padding` by a handler.  For the policy SAME the
function divides by the stride, and a division by zero is undefined behaviour. -/
def calculate_padding_call (input_size kernel_size stride dilation : Nat) (padding : Padding) :
    Except Fault (Nat × Nat) :=
  if padding = Padding.SAME ∧ stride = 0 then Except.error Fault.undefined
  else Except.ok (calculate_padding input_size kernel_size stride dilation padding)

/-- The arguments a convolution handler has collected when it calls the
container. -/
structure ConvArguments where
  input : TensorRef
  kernel_width : Nat
  kernel_height : Nat
  output_features : Nat
  padding_front_x : Nat
  padding_back_x : Nat
  padding_front_y : Nat
  padding_back_y : Nat
  stride_x : Nat
  stride_y : Nat
  kernel_values : List ℚ
  bias_values : List ℚ
  activation_function : ActivationFunction
  dilation_x : Nat
  dilation_y : Nat
  deriving DecidableEq, Repr

/-- The statements of `parse_conv_2d` before its call of `add_conv2d`, in the
order of the source: none of them changes the container or the map. -/
def conv_2d_arguments (tensors : TensorMap) (model : Model) (subgraph : SubGraph)
    (op : Operator) : Except Fault ConvArguments := do
  let input ← tensors.at (← Get op.inputs 0)
  let input_width := to_u32 (input.info.dim 1)
  let input_height := to_u32 (input.info.dim 2)
  let kernel_tensor ← Get subgraph.tensors (int_to_u32 (← Get op.inputs 1))
  let kernel_buffer ← Get model.buffers kernel_tensor.buffer
  let kernel_shape := to_uint_vector kernel_tensor.shape
  let bias_tensor ← Get subgraph.tensors (int_to_u32 (← Get op.inputs 2))
  let bias_buffer ← Get model.buffers bias_tensor.buffer
  let kernel_width ← Get kernel_shape 2
  let kernel_height ← Get kernel_shape 1
  let output_features ← Get kernel_shape 0
  match op.builtin_options with
  | BuiltinOptions.Conv2DOptions padding stride_w stride_h fused_activation_function
      dilation_w_factor dilation_h_factor =>
    let stride_x := int_to_u32 stride_w
    let stride_y := int_to_u32 stride_h
    let dilation_x := int_to_u32 dilation_w_factor
    let dilation_y := int_to_u32 dilation_h_factor
    let padding_x ← calculate_padding_call input_width kernel_width stride_x dilation_x padding
    let padding_y ← calculate_padding_call input_height kernel_height stride_y dilation_y padding
    let activation_function ← activation_at fused_activation_function
    let kernel_values ← copy_to_vector kernel_buffer
    let bias_values ← copy_to_vector bias_buffer
    pure ⟨input, kernel_width, kernel_height, output_features, padding_x.1, padding_x.2,
      padding_y.1, padding_y.2, stride_x, stride_y, kernel_values, bias_values,
      activation_function, dilation_x, dilation_y⟩
  | _ => throw Fault.undefined

/-- The statements of `parse_depthwise_conv_2d` before its call of
`add_depthwise_conv2d`. -/
def depthwise_conv_2d_arguments (tensors : TensorMap) (model : Model) (subgraph : SubGraph)
    (op : Operator) : Except Fault ConvArguments := do
  let input ← tensors.at (← Get op.inputs 0)
  let input_width := to_u32 (input.info.dim 1)
  let input_height := to_u32 (input.info.dim 2)
  let kernel_tensor ← Get subgraph.tensors (int_to_u32 (← Get op.inputs 1))
  let kernel_buffer ← Get model.buffers kernel_tensor.buffer
  let kernel_shape := to_uint_vector kernel_tensor.shape
  let bias_tensor ← Get subgraph.tensors (int_to_u32 (← Get op.inputs 2))
  let bias_buffer ← Get model.buffers bias_tensor.buffer
  let kernel_width ← Get kernel_shape 2
  let kernel_height ← Get kernel_shape 1
  match op.builtin_options with
  | BuiltinOptions.DepthwiseConv2DOptions padding stride_w stride_h fused_activation_function
      dilation_w_factor dilation_h_factor =>
    let stride_x := int_to_u32 stride_w
    let stride_y := int_to_u32 stride_h
    let dilation_x := int_to_u32 dilation_w_factor
    let dilation_y := int_to_u32 dilation_h_factor
    let padding_x ← calculate_padding_call input_width kernel_width stride_x dilation_x padding
    let padding_y ← calculate_padding_call input_height kernel_height stride_y dilation_y padding
    let activation_function ← activation_at fused_activation_function
    let kernel_values ← copy_to_vector kernel_buffer
    let bias_values ← copy_to_vector bias_buffer
    pure ⟨input, kernel_width, kernel_height, 0, padding_x.1, padding_x.2,
      padding_y.1, padding_y.2, stride_x, stride_y, kernel_values, bias_values,
      activation_function, dilation_x, dilation_y⟩
  | _ => throw Fault.undefined

/-- The statements of `parse_transpose_conv_2d` before its call of
`add_conv2d_transpose`; the activation input is input 2 of the operator. -/
def transpose_conv_2d_arguments (tensors : TensorMap) (model : Model) (subgraph : SubGraph)
    (op : Operator) : Except Fault ConvArguments := do
  let input ← tensors.at (← Get op.inputs 2)
  let input_width := to_u32 (input.info.dim 1)
  let input_height := to_u32 (input.info.dim 2)
  let kernel_tensor ← Get subgraph.tensors (int_to_u32 (← Get op.inputs 1))
  let kernel_buffer ← Get model.buffers kernel_tensor.buffer
  let kernel_shape := to_uint_vector kernel_tensor.shape
  let bias_tensor ← Get subgraph.tensors (int_to_u32 (← Get op.inputs 3))
  let bias_buffer ← Get model.buffers bias_tensor.buffer
  let kernel_width ← Get kernel_shape 2
  let kernel_height ← Get kernel_shape 1
  let output_features ← Get kernel_shape 0
  match op.builtin_options with
  | BuiltinOptions.TransposeConvOptions padding stride_w stride_h =>
    let stride_x := int_to_u32 stride_w
    let stride_y := int_to_u32 stride_h
    let padding_x ← calculate_padding_call input_width kernel_width stride_x 1 padding
    let padding_y ← calculate_padding_call input_height kernel_height stride_y 1 padding
    let kernel_values ← copy_to_vector kernel_buffer
    let bias_values ← copy_to_vector bias_buffer
    pure ⟨input, kernel_width, kernel_height, output_features, padding_x.1, padding_x.2,
      padding_y.1, padding_y.2, stride_x, stride_y, kernel_values, bias_values,
      ActivationFunction.IDENTITY, 1, 1⟩
  | _ => throw Fault.undefined

/-- The statement `tensors[output_indices.Get(0)] = &output` that ends every
handler, after the container has been changed to `net`. -/
def register_output (net : ACLNetwork) (tensors : TensorMap) (op : Operator)
    (output : TensorRef) : Outcome ImportState :=
  match op.outputs[0]? with
  | some key => Outcome.ok ⟨net, tensors.assign key output⟩
  | none => Outcome.undefined

/-- A handler whose statements before the call of the container have failed:
the container and the map are as they were. -/
def fail_unchanged (fault : Fault) (s : ImportState) : Outcome ImportState :=
  match fault with
  | Fault.throws e => Outcome.throws e s
  | Fault.undefined => Outcome.undefined

/-- The function `parse_conv_2d` of `tflite_parser.cpp`.  A call of
`add_conv2d` whose behaviour is undefined makes the handler's undefined. -/
def parse_conv_2d (validate : IFunction → Option String) (s : ImportState) (model : Model)
    (subgraph : SubGraph) (op : Operator) : Outcome ImportState :=
  match conv_2d_arguments s.tensors model subgraph op with
  | Except.error fault => fail_unchanged fault s
  | Except.ok a =>
    if ACLNetwork.add_conv2d_defined a.input a.kernel_width a.kernel_height a.output_features
        a.padding_front_x a.padding_back_x a.padding_front_y a.padding_back_y a.stride_x
        a.stride_y a.kernel_values a.bias_values a.dilation_x a.dilation_y then
      let (net, output) := s.net.add_conv2d validate a.input a.kernel_width a.kernel_height
        a.output_features a.padding_front_x a.padding_back_x a.padding_front_y a.padding_back_y
        a.stride_x a.stride_y a.kernel_values a.bias_values a.activation_function
        a.dilation_x a.dilation_y
      register_output net s.tensors op output
    else Outcome.undefined

/-- The function `parse_depthwise_conv_2d` of `tflite_parser.cpp`.  A call of
`add_depthwise_conv2d` whose behaviour is undefined makes the handler's
undefined. -/
def parse_depthwise_conv_2d (validate : IFunction → Option String) (s : ImportState)
    (model : Model) (subgraph : SubGraph) (op : Operator) : Outcome ImportState :=
  match depthwise_conv_2d_arguments s.tensors model subgraph op with
  | Except.error fault => fail_unchanged fault s
  | Except.ok a =>
    if ACLNetwork.add_depthwise_conv2d_defined a.input a.kernel_width a.kernel_height
        a.padding_front_x a.padding_back_x a.padding_front_y a.padding_back_y a.stride_x
        a.stride_y a.kernel_values a.bias_values a.dilation_x a.dilation_y then
      let (net, output) := s.net.add_depthwise_conv2d validate a.input a.kernel_width
        a.kernel_height a.padding_front_x a.padding_back_x a.padding_front_y a.padding_back_y
        a.stride_x a.stride_y a.kernel_values a.bias_values a.activation_function
        a.dilation_x a.dilation_y
      register_output net s.tensors op output
    else Outcome.undefined

/-- The function `parse_transpose_conv_2d` of `tflite_parser.cpp`.  A call of
`add_conv2d_transpose` whose behaviour is undefined makes the handler's
undefined. -/
def parse_transpose_conv_2d (validate : IFunction → Option String) (s : ImportState)
    (model : Model) (subgraph : SubGraph) (op : Operator) : Outcome ImportState :=
  match transpose_conv_2d_arguments s.tensors model subgraph op with
  | Except.error fault => fail_unchanged fault s
  | Except.ok a =>
    if ACLNetwork.add_conv2d_transpose_defined a.input a.kernel_width a.kernel_height
        a.output_features a.kernel_values a.bias_values then
      let (net, output) := s.net.add_conv2d_transpose validate a.input a.kernel_width
        a.kernel_height a.output_features a.padding_front_x a.padding_back_x a.padding_front_y
        a.padding_back_y a.stride_x a.stride_y a.kernel_values a.bias_values
      register_output net s.tensors op output
    else Outcome.undefined

/-- The function `parse_relu` of `tflite_parser.cpp`. -/
def parse_relu (s : ImportState) (op : Operator) : Outcome ImportState :=
  match (do let input ← s.tensors.at (← Get op.inputs 0); pure input : Except Fault TensorRef) with
  | Except.error fault => fail_unchanged fault s
  | Except.ok input =>
    let (net, output) := s.net.add_activation input ActivationFunction.RELU 0 0
    register_output net s.tensors op output

/-- The statements of `parse_add` before its call of `add_addition`. -/
def add_arguments (tensors : TensorMap) (op : Operator) :
    Except Fault (TensorRef × TensorRef × ActivationFunction) := do
  let input0 ← tensors.at (← Get op.inputs 0)
  let input1 ← tensors.at (← Get op.inputs 1)
  match op.builtin_options with
  | BuiltinOptions.AddOptions fused_activation_function =>
    let activation_function ← activation_at fused_activation_function
    pure (input0, input1, activation_function)
  | _ => throw Fault.undefined

/-- The function `parse_add` of `tflite_parser.cpp`. -/
def parse_add (s : ImportState) (op : Operator) : Outcome ImportState :=
  match add_arguments s.tensors op with
  | Except.error fault => fail_unchanged fault s
  | Except.ok (input0, input1, activation_function) =>
    let (net, output) := s.net.add_addition input0 input1 activation_function
    register_output net s.tensors op output

/-- The message of the exception for an operator without handler. -/
def unsupported_message (builtin_code : Int) : String :=
  "Operation with builtin code " ++ toString builtin_code ++
    " is not supported by tflite importer."

/-- The body of the loop of `parse_model` over the operators: the operator's
code is looked up in the code table and selects the handler. -/
def import_operator (validate : IFunction → Option String) (model : Model)
    (subgraph : SubGraph) (s : ImportState) (op : Operator) : Outcome ImportState :=
  match model.operator_codes[op.opcode_index]? with
  | none => Outcome.undefined
  | some opcode =>
    let builtin_code := opcode.deprecated_builtin_code
    if builtin_code = BuiltinOperator_CONV_2D then parse_conv_2d validate s model subgraph op
    else if builtin_code = BuiltinOperator_DEPTHWISE_CONV_2D then
      parse_depthwise_conv_2d validate s model subgraph op
    else if builtin_code = BuiltinOperator_RELU then parse_relu s op
    else if builtin_code = BuiltinOperator_ADD then parse_add s op
    else if builtin_code = BuiltinOperator_TRANSPOSE_CONV then
      parse_transpose_conv_2d validate s model subgraph op
    else Outcome.throws (Exception.runtime_error (unsupported_message builtin_code)) s

/-- The loop `for(const auto& op : *subgraph.operators())` of `parse_model`:
the operators are imported in their serialized order until one fails. -/
def import_operators (validate : IFunction → Option String) (model : Model)
    (subgraph : SubGraph) : List Operator → ImportState → Outcome ImportState
  | [], s => Outcome.ok s
  | op :: ops, s =>
    match import_operator validate model subgraph s op with
    | Outcome.ok s' => import_operators validate model subgraph ops s'
    | Outcome.throws e s' => Outcome.throws e s'
    | Outcome.undefined => Outcome.undefined

/-- The message of the exception for more than one graph input or output. -/
def more_than_one_message : String :=
  "The model has more than one input/output, but single input/output tensor is specified."

/-- The state of `parse_model` after its two prologue calls,
`add_dequantization` and `add_linear_to_srgb`, on the empty container. -/
def prologue (validate : IFunction → Option String) (input_output_tensor : TensorRef) :
    ACLNetwork × TensorRef :=
  let network : ACLNetwork := ⟨[], [], []⟩
  let (network, dequantized_input) := network.add_dequantization input_output_tensor
  network.add_linear_to_srgb validate dequantized_input

/-- The function `TFLiteParser::parse_model` of `tflite_parser.cpp`.  The
source returns the container; the model keeps the Model Index Map next to it.
On a `throw` the state is the one at the `throw`. -/
def parse_model (validate : IFunction → Option String) (model : Model)
    (input_output_tensor : TensorRef) : Outcome ImportState :=
  match model.subgraphs[0]? with
  | none => Outcome.undefined
  | some subgraph =>
    if subgraph.inputs.length > 1 ∨ subgraph.outputs.length > 1 then
      Outcome.throws (Exception.runtime_error more_than_one_message) ⟨⟨[], [], []⟩, []⟩
    else
      let (network, srgb) := prologue validate input_output_tensor
      match subgraph.inputs[0]? with
      | none => Outcome.undefined
      | some input_index =>
        match import_operators validate model subgraph subgraph.operators
            ⟨network, TensorMap.assign [] input_index srgb⟩ with
        | Outcome.throws e s => Outcome.throws e s
        | Outcome.undefined => Outcome.undefined
        | Outcome.ok s =>
          match subgraph.outputs[0]? with
          | none => Outcome.undefined
          | some output_index =>
            match s.tensors.lookup output_index with
            | none => Outcome.undefined
            | some final =>
              let (network, linear_output) := s.net.add_srgb_to_linear validate final
              Outcome.ok ⟨network.add_quantization linear_output input_output_tensor, s.tensors⟩

/-! ## The element functions of the configured operations

Modelled from the spec: what the external compute runtime does with a
configured activation and a configured elementwise power when the container
runs.  The runtime is not part of the sources; the model covers the two
operations of the colour conversions, over any ordered field `K` and with the
power function of `K` as a parameter. -/

/-- Modelled from the spec: the function a runtime activation applies to an
element (`arm_compute::ActivationLayerInfo`): `IDENTITY` is `x`, `RELU` is
`max(0, x)`, `LINEAR` is `a * x + b`. -/
def ActivationFunction.apply {K : Type} [LinearOrderedField K]
    (activation : ActivationFunction) (a b x : K) : K :=
  match activation with
  | ActivationFunction.IDENTITY => x
  | ActivationFunction.RELU => max 0 x
  | ActivationFunction.LINEAR => a * x + b

/-- The value of a one-element constant tensor of the container: the single
value that `set_tensor_values` has loaded into it. -/
def ACLNetwork.constant_value (net : ACLNetwork) (t : TensorRef) : Option ℚ :=
  match t.id with
  | TensorId.owned i =>
    match net.tensors[i]? with
    | some tensor =>
      match tensor.values with
      | [v] => some v
      | _ => none
    | none => none
  | TensorId.external _ => none

/-- The values at one element position: for each tensor, the value of the
element at that position once it has been written. -/
abbrev Elements (K : Type) := TensorId → Option K

/-- The element of tensor `id` is overwritten. -/
def Elements.write {K : Type} (elements : Elements K) (id : TensorId) (v : Option K) :
    Elements K :=
  fun j => if j = id then v else elements j

/-- Modelled from the spec: the effect of one configured operation on one
element position.  An activation writes its function of the input element; an
elementwise power raises the element of its first input to the one value of
its constant second input (broadcast) and applies the fused activation.  The
other operations are not element-wise and are left out. -/
def IFunction.run_element {K : Type} [LinearOrderedField K] (pow : K → K → K)
    (net : ACLNetwork) (elements : Elements K) : IFunction → Elements K
  | IFunction.CLActivationLayer input output activation a b =>
    elements.write output.id ((elements input.id).map (activation.apply (a : K) (b : K)))
  | IFunction.CLElementwisePower input1 input2 output activation a b =>
    elements.write output.id
      (match elements input1.id, net.constant_value input2 with
        | some base, some exponent =>
          some (activation.apply (a : K) (b : K) (pow base (exponent : K)))
        | _, _ => none)
  | _ => elements

/-- Modelled from the spec: the operations run in insertion order. -/
def run_elements {K : Type} [LinearOrderedField K] (pow : K → K → K) (net : ACLNetwork)
    (functions : List IFunction) (elements : Elements K) : Elements K :=
  functions.foldl (fun elements function => function.run_element pow net elements) elements

/-! ## `tensor_utils.cpp`: copying between a flat array and a tensor

Memory is addressed by byte: a buffer maps a byte offset to a byte, a `float`
is four consecutive bytes, and a `float` array of `n` elements is `4 * n`
bytes.  The type `β` of a byte is arbitrary. -/

/-- Modelled from the spec: a mapped tensor of the external runtime as the copy
functions use it: the dimensions of its shape, the runtime's byte offset of the
element at the coordinates `(x, y, channel, batch, depth)`
(`ITensorInfo::offset_element_in_bytes`), and the bytes of its buffer.  The
buffer covers every offset the runtime yields for the tensor. -/
structure ITensor (β : Type) where
  shape : List Nat
  offset_element_in_bytes : Int → Int → Int → Int → Int → Nat
  buffer : Nat → β

/-- Dimension `i` of the shape (`TensorShape::operator[]`); a dimension beyond
the rank reads as `1`. -/
def ITensor.dim {β : Type} (tensor : ITensor β) (i : Nat) : Nat := tensor.shape.getD i 1

/-- The number of elements of the tensor (`TensorShape::total_size`). -/
def ITensor.total_size {β : Type} (tensor : ITensor β) : Nat := tensor.shape.prod

/-- The conversion `static_cast<int>` of a `uint32_t`. -/
def to_int (n : Nat) : Int :=
  if n % U32 < INT_RANGE then ((n % U32 : Nat) : Int) else ((n % U32 : Nat) : Int) - (U32 : Int)

/-- The size of a `float` in bytes. -/
def sizeof_float : Nat := 4

/-- The function `get_tensor_offset` of `tensor_utils.cpp`. -/
def get_tensor_offset {β : Type} (info : ITensor β)
    (depth_index batch_index channel_index y x : Nat) : Nat :=
  info.offset_element_in_bytes (to_int x) (to_int y) (to_int channel_index) (to_int batch_index)
    (to_int depth_index)

/-- The function `get_linear_buffer_offset` of `tensor_utils.cpp`: the index of
the element in the flat array, computed in `uint32_t`. -/
def get_linear_buffer_offset {β : Type} (info : ITensor β)
    (depth_index batch_index channel_index y x : Nat) : Nat :=
  let width := to_u32 (info.dim 0)
  let height := to_u32 (info.dim 1)
  let num_channels := to_u32 (info.dim 2)
  let num_batches := to_u32 (info.dim 3)
  u32_add (u32_mul (u32_add (u32_mul (u32_add (u32_mul (u32_add
    (u32_mul depth_index num_batches) batch_index) num_channels) channel_index) height) y)
    width) x

/-- The call `memcpy(dst + dst_offset, src + src_offset, n)` on two distinct
objects, with the offsets in bytes. -/
def memcpy {β : Type} (dst : Nat → β) (dst_offset : Nat) (src : Nat → β) (src_offset n : Nat) :
    Nat → β :=
  fun address =>
    if dst_offset ≤ address ∧ address < dst_offset + n then
      src (src_offset + (address - dst_offset))
    else dst address

/-- The function `copy_data_to_tensor` of `tensor_utils.cpp`; `data` are the
bytes of the flat `float` array. -/
def copy_data_to_tensor {β : Type} (tensor : ITensor β) (data : Nat → β) : ITensor β :=
  let width := to_u32 (tensor.dim 0)
  let height := to_u32 (tensor.dim 1)
  let num_channels := to_u32 (tensor.dim 2)
  let num_batches := to_u32 (tensor.dim 3)
  let depth := to_u32 (tensor.dim 4)
  ⟨tensor.shape, tensor.offset_element_in_bytes,
    for_unsigned depth (fun depth_index buffer =>
      for_unsigned num_batches (fun batch_index buffer =>
        for_unsigned num_channels (fun channel_index buffer =>
          for_unsigned height (fun y buffer =>
            memcpy buffer (get_tensor_offset tensor depth_index batch_index channel_index y 0)
              data
              (sizeof_float
                * get_linear_buffer_offset tensor depth_index batch_index channel_index y 0)
              (width * sizeof_float))
          buffer) buffer) buffer) tensor.buffer⟩

/-- The function `copy_data_from_tensor` of `tensor_utils.cpp`; `data` are the
bytes of the flat `float` array that is written. -/
def copy_data_from_tensor {β : Type} (tensor : ITensor β) (data : Nat → β) : Nat → β :=
  let width := to_u32 (tensor.dim 0)
  let height := to_u32 (tensor.dim 1)
  let num_channels := to_u32 (tensor.dim 2)
  let num_batches := to_u32 (tensor.dim 3)
  let depth := to_u32 (tensor.dim 4)
  for_unsigned depth (fun depth_index data =>
    for_unsigned num_batches (fun batch_index data =>
      for_unsigned num_channels (fun channel_index data =>
        for_unsigned height (fun y data =>
          memcpy data
            (sizeof_float
              * get_linear_buffer_offset tensor depth_index batch_index channel_index y 0)
            tensor.buffer
            (get_tensor_offset tensor depth_index batch_index channel_index y 0)
            (width * sizeof_float))
        data) data) data) data

/-- The function `set_tensor_values` of `tensor_utils.cpp` on a mapped tensor;
`values` are the bytes of the vector.  A read behind the end of the vector is
undefined in the source and gives a zero byte here. -/
def set_tensor_values {β : Type} [Zero β] (tensor : ITensor β) (values : List β) : ITensor β :=
  copy_data_to_tensor tensor (fun i => values.getD i 0)

/-- The function `get_tensor_values` of `tensor_utils.cpp`: the bytes of the
returned vector, which has `total_size()` elements and starts as zeros. -/
def get_tensor_values {β : Type} [Zero β] (tensor : ITensor β) : List β :=
  let num_elements := tensor.total_size
  (List.range (sizeof_float * num_elements)).map (copy_data_from_tensor tensor (fun _ => 0))

/-! ## `acl_pipeline.cpp`: the input/output tensor -/

/-- Modelled from the spec: a tensor info of the external runtime that is
initialised with explicit byte strides
(`TensorInfo::init(shape, 1, data_type, strides, offset_first_element, total_size)`). -/
structure StridedTensorInfo where
  shape : List Nat
  data_type : DataType
  strides_in_bytes : List Nat
  offset_first_element_in_bytes : Nat
  total_size : Nat
  deriving DecidableEq, Repr

/-- Modelled from the spec: the byte offset of the element at `coordinates`
(`ITensorInfo::offset_element_in_bytes`): the offset of the first element plus
the sum of coordinate times stride over the dimensions. -/
def StridedTensorInfo.offset_element_in_bytes (info : StridedTensorInfo)
    (coordinates : List Nat) : Nat :=
  info.offset_first_element_in_bytes
    + (List.zipWith (fun coordinate stride => coordinate * stride) coordinates
        info.strides_in_bytes).sum

/-- The tensor info that the constructor `ACLPipeline::ACLPipeline` builds for
the input/output tensor: shape `(3, width, height)`, strides
`(1, channels, width * channels)` and `total_size = width * height * channels`,
the products being `uint32_t` products. -/
def ACLPipeline.tensor_info (width height channels : Nat) : StridedTensorInfo :=
  ⟨[3, width, height], DataType.QASYMM8, [1, channels, u32_mul width channels], 0,
    u32_mul (u32_mul width height) channels⟩

/-! ## Statements of the specification -/

/-- The output size the runtime derives under `FLOOR` rounding from the
padding of `calculate_padding`, `floor((I + pad_front + pad_back -
dilated_kernel) / S) + 1` with `dilated_kernel = K + (D-1)*(K-1)`, equals the
input size divided by the stride, rounded up. -/
def floor_output_is_ceil (I K S D : Nat) : Prop :=
  ⌊((((I + (calculate_padding I K S D Padding.SAME).1 +
      (calculate_padding I K S D Padding.SAME).2 : ℕ) : ℤ) -
      ((K + (D - 1) * (K - 1) : ℕ) : ℤ) : ℤ) : ℚ) / (S : ℚ)⌋ + 1 = ⌈(I : ℚ) / (S : ℚ)⌉

/-- The total "same" padding is `dilated_kernel - stride` or `0`, with
`dilated_kernel = K + (D-1)*(K-1)`. -/
def padding_total_in_set (I K S D : Nat) : Prop :=
  (((calculate_padding I K S D Padding.SAME).1 : ℤ) +
      ((calculate_padding I K S D Padding.SAME).2 : ℤ) =
        ((K + (D - 1) * (K - 1) : ℕ) : ℤ) - (S : ℤ)) ∨
    (calculate_padding I K S D Padding.SAME).1 + (calculate_padding I K S D Padding.SAME).2 = 0

/-- The extent that a forward convolution divides by its stride,
`I + 2*pad - D*(K-1)`, as an integer. -/
def conv_extent (I K pad D : Nat) : ℤ := (I : ℤ) + 2 * (pad : ℤ) - (D : ℤ) * ((K : ℤ) - 1)

/-- The first forward size formula of the specification,
`ceil((I + pad_front + pad_back - D*(K-1) - 1)/S + 1)`. -/
def conv_output_size_spec (I K pad_front pad_back S D : Nat) : ℤ :=
  ⌈((((I : ℤ) + (pad_front : ℤ) + (pad_back : ℤ) - (D : ℤ) * ((K : ℤ) - 1) - 1 : ℤ) : ℚ)) /
    (S : ℚ) + 1⌉

/-- The transposed-convolution size of the specification,
`(I - 1)*S - 2*pad + K`, as an integer. -/
def deconv_extent (I K pad S : Nat) : ℤ := ((I : ℤ) - 1) * (S : ℤ) - 2 * (pad : ℤ) + (K : ℤ)

/-- The source-to-destination index map of `transpose_kernel_values`: the
source index `i = ((y*W + x)*C + c)*F + f` is split into its digits and sent
to `((f*H + y)*W + x)*C + c`. -/
def kernel_dst_of_src (W H C F i : Nat) : Nat :=
  (((i % F) * H + i / (F * C * W)) * W + i / (F * C) % W) * C + i / F % C

/-- The inverse index map of `transpose_kernel_values`: the destination index
`j = ((f*H + y)*W + x)*C + c` is split into its digits and sent back to
`((y*W + x)*C + c)*F + f`. -/
def kernel_src_of_dst (W H C F j : Nat) : Nat :=
  (((j / (C * W) % H) * W + j / C % W) * C + j % C) * F + j / (C * W * H)

/-- The source-to-destination index map of `transpose_deconv_kernel_values`:
`i = ((y*W + x)*C + c)*F + f` is sent to `((c*H + y)*W + x)*F + f`. -/
def deconv_dst_of_src (W H C F i : Nat) : Nat :=
  (((i / F % C) * H + i / (F * C * W)) * W + i / (F * C) % W) * F + i % F

/-- The inverse index map of `transpose_deconv_kernel_values`:
`j = ((c*H + y)*W + x)*F + f` is sent back to `((y*W + x)*C + c)*F + f`. -/
def deconv_src_of_dst (W H C F j : Nat) : Nat :=
  (((j / (F * W) % H) * W + j / F % W) * C + j / (F * W * H)) * F + j % F

/-- The tensor is the caller's or one the container already owns. -/
def ACLNetwork.has_tensor (net : ACLNetwork) (t : TensorRef) : Prop :=
  match t.id with
  | TensorId.owned i => i < net.tensors.length
  | TensorId.external _ => True

instance (net : ACLNetwork) (t : TensorRef) : Decidable (net.has_tensor t) := by
  unfold ACLNetwork.has_tensor; split <;> infer_instance

/-- The rows of the tensor, one for each choice of the depth, batch, channel and
`y` index, occupy pairwise disjoint ranges of `width * 4` bytes of the buffer. -/
def rows_disjoint {β : Type} (tensor : ITensor β) : Prop :=
  ∀ d < tensor.dim 4, ∀ b < tensor.dim 3, ∀ c < tensor.dim 2, ∀ y < tensor.dim 1,
    ∀ d' < tensor.dim 4, ∀ b' < tensor.dim 3, ∀ c' < tensor.dim 2, ∀ y' < tensor.dim 1,
      (d, b, c, y) ≠ (d', b', c', y') →
        get_tensor_offset tensor d b c y 0 + tensor.dim 0 * sizeof_float
            ≤ get_tensor_offset tensor d' b' c' y' 0 ∨
          get_tensor_offset tensor d' b' c' y' 0 + tensor.dim 0 * sizeof_float
            ≤ get_tensor_offset tensor d b c y 0

/-! ## Auxiliary definitions of the proofs -/

/-- Four nested `int` loops that copy `values[src_index y x c f]` to position
`dst_index y x c f`: the common shape of the two reordering functions. -/
def remap_loops {α : Type} (values : List α) (H W C F : Nat)
    (src_index dst_index : Nat → Nat → Nat → Nat → Nat) (transposed_values : List α) :
    Option (List α) :=
  for_int H (fun y t =>
    for_int W (fun x t =>
      for_int C (fun c t =>
        for_int F (fun f t =>
          assign_at values (src_index y x c f) (dst_index y x c f) t) t) t) t) transposed_values

/-- The invariant of the reordering loops: the length is kept and every index
tuple already visited holds its source value. -/
def remap_inv {α : Type} (values : List α) (H W C F L : Nat)
    (src dst : Nat → Nat → Nat → Nat → Nat) (done : Nat → Nat → Nat → Nat → Prop)
    (t : List α) : Prop :=
  t.length = L ∧ ∀ y x c f, y < H → x < W → c < C → f < F → done y x c f →
    t[dst y x c f]? = values[src y x c f]?

/-- What the reordering loops need of their index maps: counters and indices
stay in range, and the destination map is injective. -/
structure remap_ok {α : Type} (values : List α) (H W C F L : Nat)
    (src dst : Nat → Nat → Nat → Nat → Nat) : Prop where
  hH : H < INT_RANGE
  hW : W < INT_RANGE
  hC : C < INT_RANGE
  hF : F < INT_RANGE
  hL : L < INT_RANGE
  hvalues : values.length = L
  hsrc : ∀ y x c f, y < H → x < W → c < C → f < F → src y x c f < L
  hdst : ∀ y x c f, y < H → x < W → c < C → f < F → dst y x c f < L
  hinj : ∀ y x c f y' x' c' f', y < H → x < W → c < C → f < F →
    y' < H → x' < W → c' < C → f' < F → dst y x c f = dst y' x' c' f' →
    y = y' ∧ x = x' ∧ c = c' ∧ f = f'

/-- The index tuples `(depth, batch, channel, y)` in the order of the four
nested loops. -/
def rows (D B C H : Nat) : List (Nat × Nat × Nat × Nat) :=
  (List.range D).flatMap (fun d => (List.range B).flatMap (fun b =>
    (List.range C).flatMap (fun c => (List.range H).map (fun y => (d, b, c, y)))))

/-! ## Example models -/

/-- A runtime that accepts every configuration. -/
def accept_all : IFunction → Option String := fun _ => none

/-- A caller-supplied `4 x 4` image tensor with three channels. -/
def caller_tensor : TensorRef := ⟨TensorId.external 0, ⟨[3, 4, 4], DataType.QASYMM8⟩⟩

/-- A `4 x 4` activation tensor with two channels. -/
def conv_input : TensorRef := ⟨TensorId.external 1, ⟨[2, 4, 4], DataType.F32⟩⟩

/-- A `CONV_2D` operator: activation input 0, weights 1, bias 2, output 3. -/
def conv_operator : Operator :=
  ⟨0, [0, 1, 2], [3], BuiltinOptions.Conv2DOptions Padding.VALID 1 1 0 1 1⟩

/-- A `TRANSPOSE_CONV` operator: output shape 4, weights 1, activation input 0,
bias 2, output 3. -/
def deconv_operator : Operator :=
  ⟨0, [4, 1, 0, 2], [3], BuiltinOptions.TransposeConvOptions Padding.VALID 1 1⟩

/-- A sub-graph with a `1 x 1` kernel of two input channels and two output
features (tensor 1, shape `[2, 1, 1, 2]`) and its bias (tensor 2). -/
def conv_subgraph : SubGraph :=
  ⟨[⟨[1, 4, 4, 2], 0⟩, ⟨[2, 1, 1, 2], 1⟩, ⟨[2], 2⟩, ⟨[1, 4, 4, 2], 0⟩, ⟨[4], 0⟩], [0], [3],
    [conv_operator]⟩

/-- A model whose buffer 1 holds the weights `1, 2, 3, 4` and whose buffer 2
holds the bias `0, 0`. -/
def conv_model : Model :=
  ⟨[⟨BuiltinOperator_CONV_2D⟩], [conv_subgraph], [⟨none⟩, ⟨some [1, 2, 3, 4]⟩, ⟨some [0, 0]⟩]⟩

/-- The model `conv_model` with six weights in buffer 1, two more than the
kernel tensor has elements. -/
def conv_model_long_weights : Model :=
  ⟨[⟨BuiltinOperator_CONV_2D⟩], [conv_subgraph],
    [⟨none⟩, ⟨some [1, 2, 3, 4, 5, 6]⟩, ⟨some [0, 0]⟩]⟩

/-- The model `conv_model` with three weights in buffer 1, one fewer than the
kernel tensor has elements. -/
def conv_model_short_weights : Model :=
  ⟨[⟨BuiltinOperator_CONV_2D⟩], [conv_subgraph], [⟨none⟩, ⟨some [1, 2, 3]⟩, ⟨some [0, 0]⟩]⟩

/-- The importer's state with `conv_input` registered under index 0. -/
def conv_state : ImportState := ⟨⟨[], [], []⟩, [(0, conv_input)]⟩

/-- A model that declares no graph input and one graph output. -/
def model_without_inputs : Model := ⟨[], [⟨[], [], [0], []⟩], []⟩

/-- A model that declares two graph inputs. -/
def model_with_two_inputs : Model := ⟨[], [⟨[], [0, 1], [2], []⟩], []⟩

/-- A `RELU` operator whose input index 7 is produced by no operator. -/
def relu_of_missing : Operator := ⟨0, [7], [1], BuiltinOptions.NONE⟩

/-- A `RELU` operator on the graph input. -/
def relu_of_input : Operator := ⟨0, [0], [1], BuiltinOptions.NONE⟩

/-- An operator whose code is entry 1 of the code table. -/
def pool_operator : Operator := ⟨1, [1], [2], BuiltinOptions.NONE⟩

/-- A model with one graph input and one graph output: a `RELU` that reads an
index nobody produced, then an operator with the unsupported builtin code 1. -/
def model_relu_of_missing_then_pool : Model :=
  ⟨[⟨BuiltinOperator_RELU⟩, ⟨1⟩], [⟨[], [0], [2], [relu_of_missing, pool_operator]⟩], []⟩

/-- A model with one graph input and one graph output: a `RELU` on the graph
input, then an operator with the unsupported builtin code 1. -/
def model_relu_then_pool : Model :=
  ⟨[⟨BuiltinOperator_RELU⟩, ⟨1⟩], [⟨[], [0], [2], [relu_of_input, pool_operator]⟩], []⟩

/-- An operator with four inputs, none of which is in an empty map. -/
def operator_of_missing : Operator := ⟨0, [5, 6, 7, 8], [9], BuiltinOptions.NONE⟩

/-- The importer's state before anything has been created. -/
def empty_state : ImportState := ⟨⟨[], [], []⟩, []⟩

/-- The state after `parse_conv_2d` has imported `conv_operator` in
`conv_state`. -/
def conv_state_after : ImportState :=
  ⟨(conv_state.net.add_conv2d accept_all conv_input 1 1 2 0 0 0 0 1 1 [1, 2, 3, 4] [0, 0]
      ActivationFunction.IDENTITY 1 1).1,
    TensorMap.assign conv_state.tensors 3
      (conv_state.net.add_conv2d accept_all conv_input 1 1 2 0 0 0 0 1 1 [1, 2, 3, 4] [0, 0]
        ActivationFunction.IDENTITY 1 1).2⟩

/-- The state after `parse_transpose_conv_2d` has imported `deconv_operator`
in `conv_state`. -/
def deconv_state_after : ImportState :=
  ⟨(conv_state.net.add_conv2d_transpose accept_all conv_input 1 1 2 0 0 0 0 1 1 [1, 2, 3, 4]
      [0, 0]).1,
    TensorMap.assign conv_state.tensors 3
      (conv_state.net.add_conv2d_transpose accept_all conv_input 1 1 2 0 0 0 0 1 1
        [1, 2, 3, 4] [0, 0]).2⟩

/-- The state after the prologue and `relu_of_input`. -/
def relu_state_after : ImportState :=
  ⟨((prologue accept_all caller_tensor).1.add_activation (prologue accept_all caller_tensor).2
      ActivationFunction.RELU 0 0).1,
    TensorMap.assign [(0, (prologue accept_all caller_tensor).2)] 1
      ((prologue accept_all caller_tensor).1.add_activation
        (prologue accept_all caller_tensor).2 ActivationFunction.RELU 0 0).2⟩

/-- A model with the single operator `RELU` from the graph input 0 to the graph
output 1. -/
def model_relu : Model := ⟨[⟨BuiltinOperator_RELU⟩], [⟨[], [0], [1], [relu_of_input]⟩], []⟩

/-- The state `parse_model` returns for `model_relu`. -/
def relu_model_imported : ImportState :=
  ⟨(relu_state_after.net.add_srgb_to_linear accept_all
      ((prologue accept_all caller_tensor).1.add_activation
        (prologue accept_all caller_tensor).2 ActivationFunction.RELU 0 0).2).1.add_quantization
      (relu_state_after.net.add_srgb_to_linear accept_all
        ((prologue accept_all caller_tensor).1.add_activation
          (prologue accept_all caller_tensor).2 ActivationFunction.RELU 0 0).2).2 caller_tensor,
    relu_state_after.tensors⟩

/-- An activation tensor with `2^32 + 2` channels. -/
def wide_input : TensorRef := ⟨TensorId.external 2, ⟨[4294967298, 4, 4], DataType.F32⟩⟩

/-- A container with two operations and no tensor of its own. -/
def two_operation_net : ACLNetwork :=
  ⟨[], [IFunction.CLDequantizationLayer caller_tensor conv_input,
    IFunction.CLQuantizationLayer conv_input caller_tensor], []⟩

/-- A `CONV_2D` operator with the fused activation `RELU6` (code 3). -/
def relu6_conv_operator : Operator :=
  ⟨0, [0, 1, 2], [3], BuiltinOptions.Conv2DOptions Padding.VALID 1 1 3 1 1⟩

/-- A `CONV_2D` operator with the fused activation `RELU6` whose input list
holds only the activation input. -/
def relu6_conv_without_weights : Operator :=
  ⟨0, [0], [3], BuiltinOptions.Conv2DOptions Padding.VALID 1 1 3 1 1⟩

/-- A `CONV_2D` operator with the fused activation `RELU6`, the padding policy
SAME and the horizontal stride `0`. -/
def relu6_conv_zero_stride : Operator :=
  ⟨0, [0, 1, 2], [3], BuiltinOptions.Conv2DOptions Padding.SAME 0 1 3 1 1⟩

/-- A `DEPTHWISE_CONV_2D` operator with the fused activation `RELU6`. -/
def relu6_depthwise_operator : Operator :=
  ⟨0, [0, 1, 2], [3], BuiltinOptions.DepthwiseConv2DOptions Padding.VALID 1 1 3 1 1⟩

/-- An `ADD` operator with the fused activation `RELU6`. -/
def relu6_add_operator : Operator := ⟨0, [0, 0], [3], BuiltinOptions.AddOptions 3⟩

/-- A dense tensor with two rows of two `float` elements. -/
def dense_tensor : ITensor Nat :=
  ⟨[2, 2], fun x y _ _ _ => 4 * x.toNat + 8 * y.toNat, fun _ => 0⟩

/-- A tensor with one row of `2^32` elements. -/
def wide_tensor : ITensor Nat := ⟨[4294967296], fun x _ _ _ _ => 4 * x.toNat, fun _ => 0⟩

/-- A tensor with six dimensions and two elements. -/
def deep_tensor : ITensor Nat :=
  ⟨[1, 1, 1, 1, 1, 2], fun x _ _ _ _ => 4 * x.toNat, fun _ => 0⟩

/-- The bytes of an array of `2^32` elements, all bytes `1`. -/
def wide_values : List Nat := List.replicate 17179869184 1

/-! ## Arithmetic helpers -/

theorem u32_add_of_lt {a b : Nat} (h : a + b < U32) : u32_add a b = a + b := by
  unfold u32_add; exact Nat.mod_eq_of_lt h

theorem u32_mul_of_lt {a b : Nat} (h : a * b < U32) : u32_mul a b = a * b := by
  unfold u32_mul; exact Nat.mod_eq_of_lt h

theorem u32_sub_of_le {a b : Nat} (ha : a < U32) (h : b ≤ a) : u32_sub a b = a - b := by
  unfold u32_sub U32 at *; omega

/-- The sum `a + b - c` taken in 32 bits is exact as soon as the result fits. -/
theorem u32_add_sub_of_lt {a b c : Nat} (hc : c ≤ a + b) (hc32 : c < U32)
    (h : a + b - c < U32) : u32_sub (u32_add a b) c = a + b - c := by
  unfold u32_sub u32_add U32 at *; omega

/-- Rounding a quotient of naturals up: the rational ceiling is the usual
integer formula. -/
theorem nat_ceil_div (a s : Nat) (hs : 1 ≤ s) : ⌈(a : ℚ) / (s : ℚ)⌉₊ = (a + s - 1) / s := by
  have hs0 : (0 : ℚ) < (s : ℚ) := by exact_mod_cast hs
  apply le_antisymm
  · rw [Nat.ceil_le, div_le_iff₀ hs0]
    have h : a ≤ (a + s - 1) / s * s := by
      have h1 := Nat.div_add_mod (a + s - 1) s
      have h2 := Nat.mod_lt (a + s - 1) hs
      rw [Nat.mul_comm s] at h1
      generalize (a + s - 1) / s * s = p at h1 ⊢
      omega
    exact_mod_cast h
  · have h : (a + s - 1) / s ≤ ⌈(a : ℚ) / (s : ℚ)⌉₊ := by
      rw [Nat.div_le_iff_le_mul_add_pred hs]
      have h1 : (a : ℚ) / s ≤ (⌈(a : ℚ) / (s : ℚ)⌉₊ : ℚ) := Nat.le_ceil _
      rw [div_le_iff₀ hs0] at h1
      have h2 : a ≤ ⌈(a : ℚ) / (s : ℚ)⌉₊ * s := by exact_mod_cast h1
      have h3 := Nat.mul_comm s ⌈(a : ℚ) / (s : ℚ)⌉₊
      omega
    exact h

/-- Without overflow `calculate_padding` computes the "same" padding over
the natural numbers. -/
theorem calculate_padding_same_eq (I K S D : Nat) (hI : 1 ≤ I) (hK : 1 ≤ K) (hS : 1 ≤ S)
    (hD : 1 ≤ D) (hfit : padding_fits I K S D) :
    calculate_padding I K S D Padding.SAME =
      if (I + S - 1) / S * S - S + (K + (D - 1) * (K - 1)) > I then
        (((I + S - 1) / S * S - S + (K + (D - 1) * (K - 1)) - I) / 2,
          ((I + S - 1) / S * S - S + (K + (D - 1) * (K - 1)) - I) -
            ((I + S - 1) / S * S - S + (K + (D - 1) * (K - 1)) - I) / 2)
      else (0, 0) := by
  obtain ⟨h1, hD32, h2, h3⟩ := hfit
  have e1 : u32_sub (u32_add I S) 1 = I + S - 1 :=
    u32_add_sub_of_lt (by omega) (by unfold U32; omega) h1
  have hsub : ((I + S - 1) / S - 1) * S = (I + S - 1) / S * S - S := by
    rw [Nat.sub_mul, Nat.one_mul]
  rw [hsub] at h3
  have hout : 1 ≤ (I + S - 1) / S := by
    rw [Nat.le_div_iff_mul_le (by omega)]; omega
  have hout32 : (I + S - 1) / S < U32 := lt_of_le_of_lt (Nat.div_le_self _ _) h1
  have hSle : S ≤ (I + S - 1) / S * S := by
    calc S = 1 * S := (Nat.one_mul S).symm
      _ ≤ (I + S - 1) / S * S := Nat.mul_le_mul_right S hout
  have e2 : u32_sub D 1 = D - 1 := u32_sub_of_le hD32 hD
  have e3 : u32_sub K 1 = K - 1 := u32_sub_of_le (by omega) hK
  have e4 : u32_mul (D - 1) (K - 1) = (D - 1) * (K - 1) := u32_mul_of_lt (by omega)
  have e5 : u32_add K ((D - 1) * (K - 1)) = K + (D - 1) * (K - 1) := u32_add_of_lt h2
  have e6 : u32_sub ((I + S - 1) / S) 1 = (I + S - 1) / S - 1 := u32_sub_of_le hout32 hout
  have e7 : u32_mul ((I + S - 1) / S - 1) S = (I + S - 1) / S * S - S := by
    rw [u32_mul_of_lt (by rw [hsub]; omega), hsub]
  have e8 : u32_add ((I + S - 1) / S * S - S) (K + (D - 1) * (K - 1)) =
      (I + S - 1) / S * S - S + (K + (D - 1) * (K - 1)) := u32_add_of_lt h3
  unfold calculate_padding
  simp only [e1, e2, e3, e4, e5, e6, e7, e8, if_true]
  generalize (I + S - 1) / S * S - S + (K + (D - 1) * (K - 1)) = needed at h3 ⊢
  by_cases hgt : needed > I
  · have e9 : u32_sub needed I = needed - I := u32_sub_of_le h3 (by omega)
    have e10 : u32_sub (needed - I) ((needed - I) / 2) = needed - I - (needed - I) / 2 :=
      u32_sub_of_le (by omega) (by omega)
    simp only [hgt, if_true, e9, e10]
  · simp only [hgt, if_false]

/-- The policy `VALID` pads nothing. -/
theorem calculate_padding_valid (I K S D : Nat) :
    calculate_padding I K S D Padding.VALID = (0, 0) := by
  unfold calculate_padding
  simp

/-! ## Single-precision division -/

theorem round_half_even_le (x : ℚ) (k : ℤ) (h : x ≤ k) : round_half_even x ≤ k := by
  have hf : ⌊x⌋ ≤ k := by
    have := Int.floor_le x
    exact_mod_cast (this.trans h)
  unfold round_half_even
  by_cases h1 : x - ⌊x⌋ < 1 / 2
  · simp only [h1, if_true]; exact hf
  · have hlt : (⌊x⌋ : ℚ) < k := by linarith
    have hlt' : ⌊x⌋ < k := by exact_mod_cast hlt
    simp only [h1, if_false]
    split_ifs <;> omega

theorem lt_round_half_even (x : ℚ) (k : ℤ) (h : (k : ℚ) + 1 / 2 < x) : k < round_half_even x := by
  have hk : k ≤ ⌊x⌋ := by
    rw [Int.le_floor]; linarith
  unfold round_half_even
  rcases hk.lt_or_eq with hlt | heq
  · split_ifs <;> omega
  · have h1 : ¬ (x - ⌊x⌋ < 1 / 2) := by rw [← heq]; linarith
    have h2 : 1 / 2 < x - ⌊x⌋ := by rw [← heq]; linarith
    simp only [h1, h2, if_true, if_false]; omega

theorem round_half_even_intCast (z : ℤ) : round_half_even (z : ℚ) = z := by
  unfold round_half_even
  simp

theorem f32_ulp_inv (e : ℤ) (he : e ≤ 23) :
    ∃ m : ℕ, ((2 : ℚ) ^ (e - 23))⁻¹ = (m : ℚ) := by
  refine ⟨2 ^ (23 - e).toNat, ?_⟩
  rw [← zpow_neg]
  have h : -(e - 23) = ((23 - e).toNat : ℤ) := by omega
  rw [h, zpow_natCast]
  push_cast
  rfl

theorem ceil_round_scaled (n s m : ℕ) (u : ℚ) (hs : 0 < s) (hu : 0 < u) (hm : u⁻¹ = (m : ℚ))
    (hus : u * s < 2) :
    ⌈(round_half_even ((n : ℚ) / s / u) : ℚ) * u⌉ = ⌈(n : ℚ) / s⌉ := by
  have hs0 : (0 : ℚ) < s := by exact_mod_cast hs
  have hdiv : ∀ y : ℚ, y / u = y * m := fun y => by rw [div_eq_mul_inv, hm]
  have hmu : (m : ℚ) * u = 1 := by rw [← hm]; exact inv_mul_cancel₀ hu.ne'
  have hm0 : (0 : ℚ) < m := by rw [← hm]; exact inv_pos.mpr hu
  rw [Int.ceil_eq_iff]
  constructor
  · -- strictly above `⌈q⌉ - 1`
    have hlt : ((⌈(n : ℚ) / s⌉ - 1 : ℤ) : ℚ) < (n : ℚ) / s := by
      have := Int.ceil_lt_add_one ((n : ℚ) / s)
      push_cast; linarith
    have hint : (⌈(n : ℚ) / s⌉ - 1) * s + 1 ≤ (n : ℤ) := by
      rw [lt_div_iff₀ hs0] at hlt
      have : (⌈(n : ℚ) / s⌉ - 1) * (s : ℤ) < (n : ℤ) := by exact_mod_cast hlt
      omega
    have hge : ((⌈(n : ℚ) / s⌉ - 1 : ℤ) : ℚ) + 1 / s ≤ (n : ℚ) / s := by
      rw [le_div_iff₀ hs0, add_mul, one_div, inv_mul_cancel₀ hs0.ne']
      exact_mod_cast hint
    have hkey : (((⌈(n : ℚ) / s⌉ - 1) * (m : ℤ) : ℤ) : ℚ) + 1 / 2 < (n : ℚ) / s / u := by
      rw [hdiv]
      have h1 : (1 : ℚ) / 2 < m / s := by
        rw [lt_div_iff₀ hs0]
        have : u * s * m < 2 * m := mul_lt_mul_of_pos_right hus hm0
        nlinarith
      have h2 : (((⌈(n : ℚ) / s⌉ - 1 : ℤ) : ℚ) + 1 / s) * m ≤ (n : ℚ) / s * m :=
        mul_le_mul_of_nonneg_right hge hm0.le
      have h3 : (1 : ℚ) / s * m = m / s := by ring
      push_cast at h2 ⊢
      linarith
    have hr := lt_round_half_even _ _ hkey
    have hr' : (((⌈(n : ℚ) / s⌉ - 1) * (m : ℤ) : ℤ) : ℚ) + 1 ≤ (round_half_even ((n : ℚ) / s / u) : ℚ) := by
      exact_mod_cast hr
    have h4 : ((((⌈(n : ℚ) / s⌉ - 1) * (m : ℤ) : ℤ) : ℚ) + 1) * u ≤
        (round_half_even ((n : ℚ) / s / u) : ℚ) * u := mul_le_mul_of_nonneg_right hr' hu.le
    have h5 : ((⌈(n : ℚ) / s⌉ : ℚ) - 1) * m * u = (⌈(n : ℚ) / s⌉ : ℚ) - 1 := by
      rw [mul_assoc, hmu, mul_one]
    push_cast at h4 ⊢
    rw [add_mul, h5] at h4
    linarith
  · have hle : (n : ℚ) / s / u ≤ ((⌈(n : ℚ) / s⌉ * (m : ℤ) : ℤ) : ℚ) := by
      rw [hdiv]; push_cast
      exact mul_le_mul_of_nonneg_right (Int.le_ceil _) hm0.le
    have hr := round_half_even_le _ _ hle
    have hr' : (round_half_even ((n : ℚ) / s / u) : ℚ) ≤ ((⌈(n : ℚ) / s⌉ * (m : ℤ) : ℤ) : ℚ) := by
      exact_mod_cast hr
    have h4 := mul_le_mul_of_nonneg_right hr' hu.le
    push_cast at h4
    calc (round_half_even ((n : ℚ) / s / u) : ℚ) * u ≤ (⌈(n : ℚ) / s⌉ : ℚ) * m * u := h4
      _ = (⌈(n : ℚ) / s⌉ : ℚ) := by rw [mul_assoc, hmu, mul_one]

theorem f32_round_of_pos (x : ℚ) (hx : 0 < x) :
    f32_round x = (round_half_even (x / (2 : ℚ) ^ (Int.log 2 x - 23)) : ℚ) *
      (2 : ℚ) ^ (Int.log 2 x - 23) := by
  unfold f32_round
  rw [if_neg hx.ne', abs_of_pos hx]

theorem f32_log_le (x : ℚ) (hx : 0 < x) (h : x < 16777216) : Int.log 2 x ≤ 23 := by
  have h24 : x < ((2 : ℕ) : ℚ) ^ (24 : ℤ) := by norm_num; exact h
  have := (Int.lt_zpow_iff_log_lt (by norm_num : 1 < 2) hx).mp h24
  omega

theorem f32_round_natCast (n : ℕ) (h : n < 16777216) : f32_round (n : ℚ) = n := by
  rcases Nat.eq_zero_or_pos n with rfl | hpos
  · simp [f32_round]
  · have hx : (0 : ℚ) < n := by exact_mod_cast hpos
    have hlt : (n : ℚ) < 16777216 := by exact_mod_cast h
    obtain ⟨m, hm⟩ := f32_ulp_inv (Int.log 2 (n : ℚ)) (f32_log_le _ hx hlt)
    have hu : (0 : ℚ) < (2 : ℚ) ^ (Int.log 2 (n : ℚ) - 23) := by positivity
    rw [f32_round_of_pos _ hx]
    have hdiv : (n : ℚ) / (2 : ℚ) ^ (Int.log 2 (n : ℚ) - 23) = (((n * m : ℕ) : ℤ) : ℚ) := by
      rw [div_eq_mul_inv, hm]; push_cast; ring
    rw [hdiv, round_half_even_intCast]
    push_cast
    rw [mul_assoc, ← hm, inv_mul_cancel₀ hu.ne', mul_one]

/-- Dividing two small integers in binary32 and rounding the quotient up
gives the exact rounded-up quotient. -/
theorem ceil_f32_div (n s : ℕ) (hn : n < 16777216) (hs : 1 ≤ s) (hs24 : s < 16777216) :
    ⌈f32_round (f32_round (n : ℚ) / f32_round (s : ℚ))⌉ = ⌈(n : ℚ) / s⌉ := by
  rw [f32_round_natCast n hn, f32_round_natCast s hs24]
  have hs0 : (0 : ℚ) < s := by exact_mod_cast hs
  rcases Nat.eq_zero_or_pos n with rfl | hpos
  · simp [f32_round]
  · have hn0 : (0 : ℚ) < n := by exact_mod_cast hpos
    have hq : (0 : ℚ) < (n : ℚ) / s := div_pos hn0 hs0
    have hnlt : (n : ℚ) < 16777216 := by exact_mod_cast hn
    have hqlt : (n : ℚ) / s < 16777216 := by
      rw [div_lt_iff₀ hs0]
      have : (1 : ℚ) ≤ s := by exact_mod_cast hs
      nlinarith
    obtain ⟨m, hm⟩ := f32_ulp_inv (Int.log 2 ((n : ℚ) / s)) (f32_log_le _ hq hqlt)
    have hu : (0 : ℚ) < (2 : ℚ) ^ (Int.log 2 ((n : ℚ) / s) - 23) := by positivity
    rw [f32_round_of_pos _ hq]
    refine ceil_round_scaled n s m _ hs hu hm ?_
    have hle : (((2 : ℕ) : ℚ)) ^ Int.log 2 ((n : ℚ) / s) ≤ (n : ℚ) / s :=
      Int.zpow_log_le_self (by norm_num) hq
    rw [le_div_iff₀ hs0] at hle
    rw [zpow_sub₀ (by norm_num : (2 : ℚ) ≠ 0)]
    have h23 : ((2 : ℚ) ^ (23 : ℤ)) = 8388608 := by norm_num
    rw [h23, div_mul_eq_mul_div, div_lt_iff₀ (by norm_num)]
    push_cast at hle
    linarith

/-! ## Output sizes without overflow -/

theorem u32_add_cast (a b : Nat) : ((u32_add a b : Nat) : ℤ) = ((a : ℤ) + b) % 4294967296 := by
  unfold u32_add U32; omega

theorem u32_sub_cast (a b : Nat) : ((u32_sub a b : Nat) : ℤ) = ((a : ℤ) - b) % 4294967296 := by
  unfold u32_sub U32; omega

theorem u32_mul_cast (a b : Nat) : ((u32_mul a b : Nat) : ℤ) = ((a : ℤ) * b) % 4294967296 := by
  unfold u32_mul U32; push_cast; rfl

/-- The numerator of `calculate_conv_output_size` is the integer
`I + 2*pad - D*(K-1)` reduced modulo `2^32`. -/
theorem conv_numerator_cast (I K p D : Nat) :
    ((u32_sub (u32_add I (u32_mul 2 p)) (u32_mul D (u32_sub K 1)) : Nat) : ℤ) =
      ((I : ℤ) + 2 * p - D * ((K : ℤ) - 1)) % 4294967296 := by
  rw [u32_sub_cast, u32_add_cast, u32_mul_cast, u32_mul_cast, u32_sub_cast]
  push_cast
  have h1 : ((I : ℤ) + 2 * (p : ℤ) % 4294967296) % 4294967296 ≡ (I : ℤ) + 2 * p [ZMOD 4294967296] :=
    (Int.mod_modEq _ _).trans ((Int.ModEq.refl _).add (Int.mod_modEq _ _))
  have h2 : ((D : ℤ) * (((K : ℤ) - 1) % 4294967296)) % 4294967296 ≡ (D : ℤ) * ((K : ℤ) - 1)
      [ZMOD 4294967296] :=
    (Int.mod_modEq _ _).trans ((Int.ModEq.refl _).mul (Int.mod_modEq _ _))
  exact h1.sub h2

/-- The value of `calculate_deconv_output_size` is the integer
`(I-1)*S - 2*pad + K` reduced modulo `2^32`. -/
theorem deconv_output_cast (I K p S : Nat) :
    ((calculate_deconv_output_size I K p S : Nat) : ℤ) =
      (((I : ℤ) - 1) * S - 2 * p + K) % 4294967296 := by
  unfold calculate_deconv_output_size
  rw [u32_add_cast, u32_sub_cast, u32_mul_cast, u32_mul_cast, u32_sub_cast]
  push_cast
  have h1 : ((((I : ℤ) - 1) % 4294967296) * (S : ℤ)) % 4294967296 ≡ ((I : ℤ) - 1) * S
      [ZMOD 4294967296] :=
    (Int.mod_modEq _ _).trans ((Int.mod_modEq _ _).mul (Int.ModEq.refl _))
  have h2 : (2 * (p : ℤ)) % 4294967296 ≡ 2 * (p : ℤ) [ZMOD 4294967296] := Int.mod_modEq _ _
  have h3 : ((((I : ℤ) - 1) % 4294967296 * (S : ℤ)) % 4294967296 - (2 * (p : ℤ)) % 4294967296)
      % 4294967296 ≡ ((I : ℤ) - 1) * S - 2 * p [ZMOD 4294967296] :=
    (Int.mod_modEq _ _).trans (h1.sub h2)
  exact h3.add (Int.ModEq.refl _)

/-- When the numerator `n = I + 2*pad - D*(K-1)` is non-negative and both it
and the stride are below `2^24` (exactly representable in binary32),
`calculate_conv_output_size` is the quotient `n / S` rounded up. -/
theorem calculate_conv_output_size_eq (I K p S D n : Nat)
    (hn : (n : ℤ) = (I : ℤ) + 2 * p - D * ((K : ℤ) - 1)) (hn24 : n < 16777216)
    (hS : 1 ≤ S) (hS24 : S < 16777216) :
    calculate_conv_output_size I K p S D = (n + S - 1) / S := by
  have hnum : u32_sub (u32_add I (u32_mul 2 p)) (u32_mul D (u32_sub K 1)) = n := by
    have h := conv_numerator_cast I K p D
    rw [← hn] at h
    omega
  unfold calculate_conv_output_size
  simp only [hnum]
  rw [ceil_f32_div n S hn24 hS hS24]
  have hc : ⌈(n : ℚ) / (S : ℚ)⌉ = ((⌈(n : ℚ) / (S : ℚ)⌉₊ : ℕ) : ℤ) := by
    rw [Int.natCast_ceil_eq_ceil (by positivity)]
  rw [hc, Int.toNat_natCast, nat_ceil_div n S hS]
  apply Nat.mod_eq_of_lt
  have h1 : (n + S - 1) / S ≤ n := by
    rw [Nat.div_le_iff_le_mul_add_pred (by omega)]
    have : S * n = n + (S - 1) * n := by
      rcases S with _ | S
      · omega
      · simp [Nat.succ_mul, Nat.add_comm]
    rw [this]
    have : 0 ≤ (S - 1) * n := Nat.zero_le _
    omega
  unfold U32; omega

/-! ## Mixed-radix indices -/

theorem radix_lt {e E c C : Nat} (he : e < E) (hc : c < C) : e * C + c < E * C := by
  have h : (e + 1) * C ≤ E * C := Nat.mul_le_mul_right C he
  rw [Nat.add_mul, Nat.one_mul] at h
  omega

theorem radix_inj {e e' c c' C : Nat} (hc : c < C) (hc' : c' < C)
    (h : e * C + c = e' * C + c') : e = e' ∧ c = c' := by
  rcases Nat.lt_trichotomy e e' with hlt | heq | hgt
  · have h1 : (e + 1) * C ≤ e' * C := Nat.mul_le_mul_right C hlt
    rw [Nat.add_mul, Nat.one_mul] at h1
    omega
  · subst heq; omega
  · have h1 : (e' + 1) * C ≤ e * C := Nat.mul_le_mul_right C hgt
    rw [Nat.add_mul, Nat.one_mul] at h1
    omega

/-- A four-digit mixed-radix index is below the product of the radices. -/
theorem index_lt {a b c d A B C D : Nat} (ha : a < A) (hb : b < B) (hc : c < C) (hd : d < D) :
    ((a * B + b) * C + c) * D + d < A * B * C * D :=
  radix_lt (radix_lt (radix_lt ha hb) hc) hd

/-- A four-digit mixed-radix index determines its digits. -/
theorem index_inj {a b c d a' b' c' d' B C D : Nat} (hb : b < B) (hc : c < C) (hd : d < D)
    (hb' : b' < B) (hc' : c' < C) (hd' : d' < D)
    (h : ((a * B + b) * C + c) * D + d = ((a' * B + b') * C + c') * D + d') :
    a = a' ∧ b = b' ∧ c = c' ∧ d = d' := by
  obtain ⟨h1, hdd⟩ := radix_inj hd hd' h
  obtain ⟨h2, hcc⟩ := radix_inj hc hc' h1
  obtain ⟨haa, hbb⟩ := radix_inj hb hb' h2
  exact ⟨haa, hbb, hcc, hdd⟩

/-- The index expression of the loops, evaluated in 32 bits, is the exact
index as long as that fits. -/
theorem u32_index_eq {a b c d B C D : Nat} (hC : 0 < C) (hD : 0 < D)
    (h : ((a * B + b) * C + c) * D + d < U32) :
    u32_add (u32_mul (u32_add (u32_mul (u32_add (u32_mul a B) b) C) c) D) d =
      ((a * B + b) * C + c) * D + d := by
  have h1 : (a * B + b) * C + c ≤ ((a * B + b) * C + c) * D := Nat.le_mul_of_pos_right _ hD
  have h2 : a * B + b ≤ (a * B + b) * C := Nat.le_mul_of_pos_right _ hC
  rw [u32_mul_of_lt (by omega : a * B < U32), u32_add_of_lt (by omega : a * B + b < U32),
    u32_mul_of_lt (by omega : (a * B + b) * C < U32),
    u32_add_of_lt (by omega : (a * B + b) * C + c < U32),
    u32_mul_of_lt (by omega : ((a * B + b) * C + c) * D < U32), u32_add_of_lt h]

theorem int_range_lt_u32 : INT_RANGE < U32 := by decide

/-! ## Loops -/

theorem range_foldlM_inv {σ : Type} (body : Nat → σ → Option σ) (P : Nat → σ → Prop) :
    ∀ (n : Nat) (s : σ), P 0 s →
      (∀ i t, i < n → P i t → ∃ t', body i t = some t' ∧ P (i + 1) t') →
      ∃ s', (List.range n).foldlM (fun s i => body i s) s = some s' ∧ P n s' := by
  intro n
  induction n with
  | zero => intro s h0 _; exact ⟨s, rfl, h0⟩
  | succ n ih =>
    intro s h0 hstep
    obtain ⟨s1, hs1, hP1⟩ := ih s h0 (fun i t hi hP => hstep i t (Nat.lt_succ_of_lt hi) hP)
    obtain ⟨s2, hs2, hP2⟩ := hstep n s1 (Nat.lt_succ_self n) hP1
    refine ⟨s2, ?_, hP2⟩
    rw [List.range_succ, List.foldlM_append, hs1]
    simp [hs2]

/-- A counted loop whose body keeps an invariant indexed by the counter is
defined and ends in the invariant at the bound. -/
theorem for_int_inv {σ : Type} (body : Nat → σ → Option σ) (P : Nat → σ → Prop)
    (n : Nat) (hn : n < INT_RANGE) (s : σ) (h0 : P 0 s)
    (hstep : ∀ i t, i < n → P i t → ∃ t', body i t = some t' ∧ P (i + 1) t') :
    ∃ s', for_int n body s = some s' ∧ P n s' := by
  unfold for_int
  rw [if_pos hn]
  exact range_foldlM_inv body P n s h0 hstep

theorem remap_inv_mono {α : Type} {values : List α} {H W C F L : Nat}
    {src dst : Nat → Nat → Nat → Nat → Nat} {done done' : Nat → Nat → Nat → Nat → Prop}
    {t : List α} (h : remap_inv values H W C F L src dst done t)
    (hd : ∀ y x c f, y < H → x < W → c < C → f < F → done' y x c f → done y x c f) :
    remap_inv values H W C F L src dst done' t :=
  ⟨h.1, fun y x c f hy hx hc hf hdone => h.2 y x c f hy hx hc hf (hd y x c f hy hx hc hf hdone)⟩

theorem remap_step {α : Type} {values : List α} {H W C F L : Nat}
    {src dst : Nat → Nat → Nat → Nat → Nat} (ok : remap_ok values H W C F L src dst)
    (y x c f : Nat) (hy : y < H) (hx : x < W) (hc : c < C) (hf : f < F) (t : List α)
    (hP : remap_inv values H W C F L src dst (fun y' x' c' f' =>
      y' < y ∨ (y' = y ∧ (x' < x ∨ (x' = x ∧ (c' < c ∨ (c' = c ∧ f' < f)))))) t) :
    ∃ t', assign_at values (src y x c f) (dst y x c f) t = some t' ∧
      remap_inv values H W C F L src dst (fun y' x' c' f' =>
        y' < y ∨ (y' = y ∧ (x' < x ∨ (x' = x ∧ (c' < c ∨ (c' = c ∧ f' < f + 1)))))) t' := by
  have hs := ok.hsrc y x c f hy hx hc hf
  have hd := ok.hdst y x c f hy hx hc hf
  have hL := ok.hL
  have hslen : src y x c f < values.length := by rw [ok.hvalues]; exact hs
  have hsv : values[src y x c f]? = some (values.get ⟨src y x c f, hslen⟩) :=
    List.getElem?_eq_getElem hslen
  refine ⟨t.set (dst y x c f) (values.get ⟨src y x c f, hslen⟩), ?_, ?_, ?_⟩
  · unfold assign_at
    rw [if_pos ⟨by omega, by omega⟩, hsv]
    simp only
    rw [if_pos (by rw [hP.1]; exact hd)]
  · rw [List.length_set]; exact hP.1
  · intro y' x' c' f' hy' hx' hc' hf' hdone
    by_cases heq : y' = y ∧ x' = x ∧ c' = c ∧ f' = f
    · obtain ⟨rfl, rfl, rfl, rfl⟩ := heq
      rw [List.getElem?_set_self (by rw [hP.1]; exact hd), hsv]
    · have hne : dst y x c f ≠ dst y' x' c' f' := by
        intro he
        have := ok.hinj y x c f y' x' c' f' hy hx hc hf hy' hx' hc' hf' he
        omega
      rw [List.getElem?_set_ne hne]
      exact hP.2 y' x' c' f' hy' hx' hc' hf' (by omega)

theorem remap_loop_f {α : Type} {values : List α} {H W C F L : Nat}
    {src dst : Nat → Nat → Nat → Nat → Nat} (ok : remap_ok values H W C F L src dst)
    (y x c : Nat) (hy : y < H) (hx : x < W) (hc : c < C) (t : List α)
    (hP : remap_inv values H W C F L src dst (fun y' x' c' _ =>
      y' < y ∨ (y' = y ∧ (x' < x ∨ (x' = x ∧ c' < c)))) t) :
    ∃ t', for_int F (fun f t => assign_at values (src y x c f) (dst y x c f) t) t = some t' ∧
      remap_inv values H W C F L src dst (fun y' x' c' _ =>
        y' < y ∨ (y' = y ∧ (x' < x ∨ (x' = x ∧ c' < c + 1)))) t' := by
  obtain ⟨r, hr, hinv⟩ := for_int_inv
    (fun f t => assign_at values (src y x c f) (dst y x c f) t)
    (fun f t => remap_inv values H W C F L src dst (fun y' x' c' f' =>
      y' < y ∨ (y' = y ∧ (x' < x ∨ (x' = x ∧ (c' < c ∨ (c' = c ∧ f' < f)))))) t) F ok.hF t
    (remap_inv_mono hP (fun y' x' c' f' _ _ _ _ hd => by omega))
    (fun f t hf hPf => remap_step ok y x c f hy hx hc hf t hPf)
  exact ⟨r, hr, remap_inv_mono hinv (fun y' x' c' f' _ _ _ _ hd => by omega)⟩

theorem remap_loop_c {α : Type} {values : List α} {H W C F L : Nat}
    {src dst : Nat → Nat → Nat → Nat → Nat} (ok : remap_ok values H W C F L src dst)
    (y x : Nat) (hy : y < H) (hx : x < W) (t : List α)
    (hP : remap_inv values H W C F L src dst (fun y' x' _ _ =>
      y' < y ∨ (y' = y ∧ x' < x)) t) :
    ∃ t', for_int C (fun c t =>
        for_int F (fun f t => assign_at values (src y x c f) (dst y x c f) t) t) t = some t' ∧
      remap_inv values H W C F L src dst (fun y' x' _ _ =>
        y' < y ∨ (y' = y ∧ x' < x + 1)) t' := by
  obtain ⟨r, hr, hinv⟩ := for_int_inv
    (fun c t => for_int F (fun f t => assign_at values (src y x c f) (dst y x c f) t) t)
    (fun c t => remap_inv values H W C F L src dst (fun y' x' c' _ =>
      y' < y ∨ (y' = y ∧ (x' < x ∨ (x' = x ∧ c' < c)))) t) C ok.hC t
    (remap_inv_mono hP (fun y' x' c' f' _ _ _ _ hd => by omega))
    (fun c t hc hPc => remap_loop_f ok y x c hy hx hc t hPc)
  exact ⟨r, hr, remap_inv_mono hinv (fun y' x' c' f' _ _ _ _ hd => by omega)⟩

theorem remap_loop_x {α : Type} {values : List α} {H W C F L : Nat}
    {src dst : Nat → Nat → Nat → Nat → Nat} (ok : remap_ok values H W C F L src dst)
    (y : Nat) (hy : y < H) (t : List α)
    (hP : remap_inv values H W C F L src dst (fun y' _ _ _ => y' < y) t) :
    ∃ t', for_int W (fun x t => for_int C (fun c t =>
        for_int F (fun f t => assign_at values (src y x c f) (dst y x c f) t) t) t) t = some t' ∧
      remap_inv values H W C F L src dst (fun y' _ _ _ => y' < y + 1) t' := by
  obtain ⟨r, hr, hinv⟩ := for_int_inv
    (fun x t => for_int C (fun c t =>
      for_int F (fun f t => assign_at values (src y x c f) (dst y x c f) t) t) t)
    (fun x t => remap_inv values H W C F L src dst (fun y' x' _ _ =>
      y' < y ∨ (y' = y ∧ x' < x)) t) W ok.hW t
    (remap_inv_mono hP (fun y' x' c' f' _ _ _ _ hd => by omega))
    (fun x t hx hPx => remap_loop_c ok y x hy hx t hPx)
  exact ⟨r, hr, remap_inv_mono hinv (fun y' x' c' f' _ _ _ _ hd => by omega)⟩

/-- The four nested loops reorder every element: the run is defined, keeps the
length, and position `dst y x c f` of the result holds element `src y x c f`
of the input. -/
theorem remap_loops_spec {α : Type} {values : List α} {H W C F L : Nat}
    {src dst : Nat → Nat → Nat → Nat → Nat} (ok : remap_ok values H W C F L src dst)
    (init : List α) (hinit : init.length = L) :
    ∃ r, remap_loops values H W C F src dst init = some r ∧ r.length = L ∧
      ∀ y x c f, y < H → x < W → c < C → f < F → r[dst y x c f]? = values[src y x c f]? := by
  unfold remap_loops
  obtain ⟨r, hr, hinv⟩ := for_int_inv
    (fun y t => for_int W (fun x t => for_int C (fun c t =>
      for_int F (fun f t => assign_at values (src y x c f) (dst y x c f) t) t) t) t)
    (fun y t => remap_inv values H W C F L src dst (fun y' _ _ _ => y' < y) t) H ok.hH init
    ⟨hinit, fun y x c f _ _ _ _ hd => absurd hd (Nat.not_lt_zero _)⟩
    (fun y t hy hPy => remap_loop_x ok y hy t hPy)
  exact ⟨r, hr, hinv.1, fun y x c f hy hx hc hf => hinv.2 y x c f hy hx hc hf hy⟩

/-! ## Loading a tensor of the container -/

theorem foldl_flatMap {α β σ : Type} (l : List α) (f : α → List β) (g : σ → β → σ) (s : σ) :
    (l.flatMap f).foldl g s = l.foldl (fun s a => (f a).foldl g s) s := by
  induction l generalizing s with
  | nil => rfl
  | cons a l ih => simp [List.flatMap_cons, List.foldl_append, ih]

theorem for_unsigned_rows {σ : Type} (D B C H : Nat) (f : Nat → Nat → Nat → Nat → σ → σ)
    (s : σ) :
    for_unsigned D (fun d s => for_unsigned B (fun b s => for_unsigned C (fun c s =>
      for_unsigned H (fun y s => f d b c y s) s) s) s) s
      = (rows D B C H).foldl (fun s r => f r.1 r.2.1 r.2.2.1 r.2.2.2 s) s := by
  simp only [for_unsigned, rows, foldl_flatMap, List.foldl_map]

theorem mem_rows (D B C H : Nat) (r : Nat × Nat × Nat × Nat) :
    r ∈ rows D B C H ↔ r.1 < D ∧ r.2.1 < B ∧ r.2.2.1 < C ∧ r.2.2.2 < H := by
  obtain ⟨d, b, c, y⟩ := r
  simp only [rows, List.mem_flatMap, List.mem_map, List.mem_range, Prod.mk.injEq]
  constructor
  · rintro ⟨d', hd, b', hb, c', hc, y', hy, rfl, rfl, rfl, rfl⟩
    exact ⟨hd, hb, hc, hy⟩
  · rintro ⟨hd, hb, hc, hy⟩
    exact ⟨d, hd, b, hb, c, hc, y, hy, rfl, rfl, rfl, rfl⟩

theorem shape_prod_of_length_le (shape : List Nat) (h : shape.length ≤ 5) :
    shape.prod = shape.getD 0 1 * shape.getD 1 1 * shape.getD 2 1 * shape.getD 3 1
      * shape.getD 4 1 := by
  rcases shape with _ | ⟨a, _ | ⟨b, _ | ⟨c, _ | ⟨d, _ | ⟨e, _ | ⟨f, t⟩⟩⟩⟩⟩⟩
  · simp
  · simp
  · simp
  · simp [Nat.mul_assoc]
  · simp [Nat.mul_assoc]
  · simp [Nat.mul_assoc]
  · simp at h


theorem pos_of_mul5_pos {w h c b d : Nat} (hN : 0 < w * h * c * b * d) :
    0 < w ∧ 0 < h ∧ 0 < c ∧ 0 < b ∧ 0 < d := by
  refine ⟨Nat.pos_of_ne_zero fun h0 => ?_, Nat.pos_of_ne_zero fun h0 => ?_,
    Nat.pos_of_ne_zero fun h0 => ?_, Nat.pos_of_ne_zero fun h0 => ?_,
    Nat.pos_of_ne_zero fun h0 => ?_⟩ <;>
  · subst h0
    simp at hN

theorem le_mul5 {w h c b d : Nat} (hN : 0 < w * h * c * b * d) :
    w ≤ w * h * c * b * d ∧ h ≤ w * h * c * b * d ∧ c ≤ w * h * c * b * d ∧
      b ≤ w * h * c * b * d ∧ d ≤ w * h * c * b * d := by
  obtain ⟨hw, hh, hc, hb, hd⟩ := pos_of_mul5_pos hN
  refine ⟨?_, ?_, ?_, ?_, ?_⟩
  · calc w = w * 1 := by ring
      _ ≤ w * (h * c * b * d) :=
        Nat.mul_le_mul_left _ (Nat.mul_pos (Nat.mul_pos (Nat.mul_pos hh hc) hb) hd)
      _ = w * h * c * b * d := by ring
  · calc h = h * 1 := by ring
      _ ≤ h * (w * c * b * d) :=
        Nat.mul_le_mul_left _ (Nat.mul_pos (Nat.mul_pos (Nat.mul_pos hw hc) hb) hd)
      _ = w * h * c * b * d := by ring
  · calc c = c * 1 := by ring
      _ ≤ c * (w * h * b * d) :=
        Nat.mul_le_mul_left _ (Nat.mul_pos (Nat.mul_pos (Nat.mul_pos hw hh) hb) hd)
      _ = w * h * c * b * d := by ring
  · calc b = b * 1 := by ring
      _ ≤ b * (w * h * c * d) :=
        Nat.mul_le_mul_left _ (Nat.mul_pos (Nat.mul_pos (Nat.mul_pos hw hh) hc) hd)
      _ = w * h * c * b * d := by ring
  · calc d = d * 1 := by ring
      _ ≤ d * (w * h * c * b) :=
        Nat.mul_le_mul_left _ (Nat.mul_pos (Nat.mul_pos (Nat.mul_pos hw hh) hc) hb)
      _ = w * h * c * b * d := by ring

theorem all_map_comp {α β : Type} (l : List α) (f : α → β) (p : β → Bool) :
    (l.map f).all p = l.all (fun a => p (f a)) := by
  induction l with
  | nil => rfl
  | cons a l ih => simp [ih]

theorem foldl_copy_rows {ρ : Type} (data : List ℚ) (w : Nat) (o : ρ → Nat) (l : List ρ)
    (s : List ℚ × Bool) :
    l.foldl (fun copied r => (copied.1 ++ (data.drop (o r)).take w,
        copied.2 && decide (o r + w ≤ data.length))) s
      = (s.1 ++ l.flatMap (fun r => (data.drop (o r)).take w),
        s.2 && l.all (fun r => decide (o r + w ≤ data.length))) := by
  induction l generalizing s with
  | nil => simp
  | cons r l ih =>
    rw [List.foldl_cons, ih]
    simp [List.flatMap_cons, Bool.and_assoc]

/-- The copy into a tensor of the container, as a list of row offsets: the
tensor receives the slices of the array at the offsets of its rows, and the
copy is defined when every slice lies inside the array. -/
theorem copy_data_to_tensor_rows (info : TensorInfo) (data : List ℚ) :
    info.copy_data_to_tensor data
      = ((((rows (to_u32 (info.dim 4)) (to_u32 (info.dim 3)) (to_u32 (info.dim 2))
            (to_u32 (info.dim 1))).map (fun r =>
              info.get_linear_buffer_offset r.1 r.2.1 r.2.2.1 r.2.2.2 0)).flatMap (fun o =>
          (data.drop o).take (to_u32 (info.dim 0)))),
        ((rows (to_u32 (info.dim 4)) (to_u32 (info.dim 3)) (to_u32 (info.dim 2))
            (to_u32 (info.dim 1))).map (fun r =>
              info.get_linear_buffer_offset r.1 r.2.1 r.2.2.1 r.2.2.2 0)).all (fun o =>
          decide (o + to_u32 (info.dim 0) ≤ data.length))) := by
  unfold TensorInfo.copy_data_to_tensor
  simp only
  rw [for_unsigned_rows (to_u32 (info.dim 4)) (to_u32 (info.dim 3)) (to_u32 (info.dim 2))
    (to_u32 (info.dim 1)) (fun d b c y (copied : List ℚ × Bool) =>
      (copied.1 ++ (data.drop (info.get_linear_buffer_offset d b c y 0)).take
          (to_u32 (info.dim 0)),
        copied.2 && decide (info.get_linear_buffer_offset d b c y 0 + to_u32 (info.dim 0)
          ≤ data.length)))]
  rw [foldl_copy_rows data (to_u32 (info.dim 0))
    (fun r : Nat × Nat × Nat × Nat => info.get_linear_buffer_offset r.1 r.2.1 r.2.2.1 r.2.2.2 0)]
  rw [all_map_comp]
  simp [List.flatMap_map, Function.comp_def]

theorem range_flatMap_range (A B : Nat) :
    (List.range A).flatMap (fun a => (List.range B).map (fun b => a * B + b))
      = List.range (A * B) := by
  induction A with
  | zero => simp
  | succ A ih =>
    rw [List.range_succ, List.flatMap_append, ih, Nat.succ_mul, List.range_add]
    simp

/-- The rows in the order of the loops are numbered consecutively by their
mixed-radix index. -/
theorem rows_map_index (D B C H : Nat) :
    (rows D B C H).map (fun r => ((r.1 * B + r.2.1) * C + r.2.2.1) * H + r.2.2.2)
      = List.range (D * B * C * H) := by
  rw [← range_flatMap_range (D * B * C) H, ← range_flatMap_range (D * B) C,
    ← range_flatMap_range D B]
  simp only [rows, List.map_flatMap, List.flatMap_map, List.map_map, List.flatMap_assoc]
  rfl

/-- Consecutive slices of an array make up its front. -/
theorem flatMap_slices (data : List ℚ) (w n : Nat) :
    ((List.range n).map (fun k => k * w)).flatMap (fun o => (data.drop o).take w)
      = data.take (n * w) := by
  induction n with
  | zero => simp
  | succ n ih =>
    rw [List.range_succ, List.map_append, List.flatMap_append, ih, Nat.succ_mul, List.take_add]
    simp

theorem all_slices (len w n : Nat) (hn : 0 < n) :
    ((List.range n).map (fun k => k * w)).all (fun o => decide (o + w ≤ len)) = true
      ↔ n * w ≤ len := by
  simp only [List.all_eq_true, List.mem_map, List.mem_range, decide_eq_true_eq]
  constructor
  · intro h
    have := h ((n - 1) * w) ⟨n - 1, by omega, rfl⟩
    have e : (n - 1) * w + w = n * w := by
      obtain ⟨m, rfl⟩ : ∃ m, n = m + 1 := ⟨n - 1, by omega⟩
      simp [Nat.succ_mul]
    omega
  · rintro h o ⟨k, hk, rfl⟩
    have : (k + 1) * w ≤ n * w := Nat.mul_le_mul_right w hk
    rw [Nat.add_mul, Nat.one_mul] at this
    omega

/-- The linear offset of a row of a tensor of the container, without
wrap-around. -/
theorem tensor_info_linear_offset_row (info : TensorInfo)
    (hN : info.dim 0 * info.dim 1 * info.dim 2 * info.dim 3 * info.dim 4 < U32)
    (hpos : 0 < info.dim 0 * info.dim 1 * info.dim 2 * info.dim 3 * info.dim 4)
    (d b c y : Nat) (hd : d < info.dim 4) (hb : b < info.dim 3) (hc : c < info.dim 2)
    (hy : y < info.dim 1) :
    info.get_linear_buffer_offset d b c y 0
      = (((d * info.dim 3 + b) * info.dim 2 + c) * info.dim 1 + y) * info.dim 0 := by
  obtain ⟨hw0, hh0, hc0, hb0, hd0⟩ := pos_of_mul5_pos hpos
  obtain ⟨hw, hh, hcc, hbb, hdd⟩ := le_mul5 hpos
  have hidx := index_lt hd hb hc hy
  have hrow : ((((d * info.dim 3 + b) * info.dim 2 + c) * info.dim 1 + y) + 1)
      * info.dim 0 ≤ info.dim 4 * info.dim 3 * info.dim 2 * info.dim 1 * info.dim 0 :=
    Nat.mul_le_mul_right _ hidx
  have hperm : info.dim 4 * info.dim 3 * info.dim 2 * info.dim 1 * info.dim 0
      = info.dim 0 * info.dim 1 * info.dim 2 * info.dim 3 * info.dim 4 := by ring
  rw [hperm, Nat.add_mul, Nat.one_mul] at hrow
  have hlt : (((d * info.dim 3 + b) * info.dim 2 + c) * info.dim 1 + y) * info.dim 0 + 0
      < U32 := by omega
  unfold TensorInfo.get_linear_buffer_offset
  simp only [to_u32]
  rw [Nat.mod_eq_of_lt (by omega : info.dim 0 < U32),
    Nat.mod_eq_of_lt (by omega : info.dim 1 < U32),
    Nat.mod_eq_of_lt (by omega : info.dim 2 < U32),
    Nat.mod_eq_of_lt (by omega : info.dim 3 < U32)]
  have h4 : ((d * info.dim 3 + b) * info.dim 2 + c) * info.dim 1 + y
      ≤ (((d * info.dim 3 + b) * info.dim 2 + c) * info.dim 1 + y) * info.dim 0 :=
    Nat.le_mul_of_pos_right _ hw0
  rw [u32_index_eq hc0 hh0 (by omega), u32_mul_of_lt (by omega), u32_add_of_lt (by omega)]
  rfl

/-- A tensor of the container with at most five dimensions and fewer than
`2^32` elements receives the front of the array, as many floats as it has
elements; the copy is defined exactly when the array holds that many. -/
theorem copy_data_to_tensor_of_fits (info : TensorInfo) (data : List ℚ)
    (hlen : info.shape.length ≤ 5) (hN : info.shape.prod < U32) :
    (info.copy_data_to_tensor data).1 = data.take info.shape.prod ∧
      ((info.copy_data_to_tensor data).2 = true ↔ info.shape.prod ≤ data.length) := by
  have hprod : info.shape.prod
      = info.dim 0 * info.dim 1 * info.dim 2 * info.dim 3 * info.dim 4 :=
    shape_prod_of_length_le _ hlen
  rw [copy_data_to_tensor_rows]
  simp only
  rcases Nat.eq_zero_or_pos info.shape.prod with h0 | hpos
  · rw [h0]
    rw [hprod] at h0
    simp only [List.take_zero, Nat.zero_le, iff_true]
    by_cases hw : info.dim 0 = 0
    · have hw32 : to_u32 (info.dim 0) = 0 := by rw [hw]; rfl
      have hoff : ∀ d b c y, info.get_linear_buffer_offset d b c y 0 = 0 := by
        intro d b c y
        simp [TensorInfo.get_linear_buffer_offset, hw32, u32_mul, u32_add]
      simp [hw32, hoff]
    · have hrows : rows (to_u32 (info.dim 4)) (to_u32 (info.dim 3)) (to_u32 (info.dim 2))
          (to_u32 (info.dim 1)) = [] := by
        apply List.eq_nil_iff_forall_not_mem.mpr
        intro r hr
        obtain ⟨h4, h3, h2, h1⟩ := (mem_rows _ _ _ _ _).mp hr
        have hz : info.dim 1 = 0 ∨ info.dim 2 = 0 ∨ info.dim 3 = 0 ∨ info.dim 4 = 0 := by
          simp only [Nat.mul_eq_zero] at h0
          tauto
        rcases hz with h | h | h | h
        · rw [h] at h1; simp [to_u32] at h1
        · rw [h] at h2; simp [to_u32] at h2
        · rw [h] at h3; simp [to_u32] at h3
        · rw [h] at h4; simp [to_u32] at h4
      rw [hrows]
      simp
  · rw [hprod] at hpos hN
    obtain ⟨hw0, hh0, hc0, hb0, hd0⟩ := pos_of_mul5_pos hpos
    obtain ⟨hw, hh, hcc, hbb, hdd⟩ := le_mul5 hpos
    have e0 : to_u32 (info.dim 0) = info.dim 0 := Nat.mod_eq_of_lt (by omega)
    have e1 : to_u32 (info.dim 1) = info.dim 1 := Nat.mod_eq_of_lt (by omega)
    have e2 : to_u32 (info.dim 2) = info.dim 2 := Nat.mod_eq_of_lt (by omega)
    have e3 : to_u32 (info.dim 3) = info.dim 3 := Nat.mod_eq_of_lt (by omega)
    have e4 : to_u32 (info.dim 4) = info.dim 4 := Nat.mod_eq_of_lt (by omega)
    rw [e0, e1, e2, e3, e4]
    have hmap : (rows (info.dim 4) (info.dim 3) (info.dim 2) (info.dim 1)).map (fun r =>
          info.get_linear_buffer_offset r.1 r.2.1 r.2.2.1 r.2.2.2 0)
        = (List.range (info.dim 4 * info.dim 3 * info.dim 2 * info.dim 1)).map
            (fun k => k * info.dim 0) := by
      rw [← rows_map_index, List.map_map]
      apply List.map_congr_left
      intro r hr
      obtain ⟨h4, h3, h2, h1⟩ := (mem_rows _ _ _ _ _).mp hr
      exact tensor_info_linear_offset_row info hN hpos _ _ _ _ h4 h3 h2 h1
    have hperm : info.dim 4 * info.dim 3 * info.dim 2 * info.dim 1 * info.dim 0
        = info.dim 0 * info.dim 1 * info.dim 2 * info.dim 3 * info.dim 4 := by ring
    rw [hmap, flatMap_slices, all_slices _ _ _
      (Nat.mul_pos (Nat.mul_pos (Nat.mul_pos hd0 hb0) hc0) hh0), hperm, hprod]
    exact ⟨rfl, Iff.rfl⟩

/-- For a tensor of the container with at most five dimensions and fewer than
`2^32` elements, `set_tensor_values` is defined exactly when the array holds at
least as many floats as the tensor has elements. -/
theorem set_tensor_values_defined_iff (info : TensorInfo) (values : List ℚ)
    (hlen : info.shape.length ≤ 5) (hN : info.shape.prod < U32) :
    set_tensor_values_defined info values ↔ info.shape.prod ≤ values.length :=
  (copy_data_to_tensor_of_fits info values hlen hN).2

/-- A one-element tensor loaded from a one-element array holds that element. -/
theorem copy_data_to_tensor_singleton (v : ℚ) :
    (⟨[1], DataType.F32⟩ : TensorInfo).copy_data_to_tensor [v] = ([v], true) := rfl

theorem modify_append_length_add {α : Type} (f : α → α) (l r : List α) (k : Nat) :
    (l ++ r).modify f (l.length + k) = l ++ r.modify f k := by
  induction l with
  | nil => simp
  | cons x xs ih =>
    have : (x :: xs).length + k = (xs.length + k) + 1 := by simp; ring
    rw [this]
    simp [ih]

theorem modify_append_length {α : Type} (f : α → α) (l r : List α) :
    (l ++ r).modify f l.length = l ++ r.modify f 0 :=
  modify_append_length_add f l r 0

theorem add_conv2d_tensors (validate : IFunction → Option String) (net : ACLNetwork)
    (input : TensorRef) (kernel_width kernel_height output_features : Nat)
    (pad_x_front pad_x_back pad_y_front pad_y_back stride_x stride_y : Nat)
    (kernel_values bias_values : List ℚ) (activation : ActivationFunction)
    (dilation_x dilation_y : Nat) :
    (net.add_conv2d validate input kernel_width kernel_height output_features pad_x_front
      pad_x_back pad_y_front pad_y_back stride_x stride_y kernel_values bias_values activation
      dilation_x dilation_y).1.tensors
    = net.tensors ++
      [⟨⟨[to_u32 (input.info.dim 0), kernel_width, kernel_height, output_features],
          DataType.F32⟩, true,
          ((⟨[to_u32 (input.info.dim 0), kernel_width, kernel_height, output_features],
            DataType.F32⟩ : TensorInfo).copy_data_to_tensor kernel_values).1⟩,
        ⟨⟨[output_features], DataType.F32⟩, true,
          ((⟨[output_features], DataType.F32⟩ : TensorInfo).copy_data_to_tensor bias_values).1⟩,
        ⟨⟨[output_features,
            calculate_conv_output_size (to_u32 (input.info.dim 1)) kernel_width
              (max pad_x_front pad_x_back) stride_x dilation_x,
            calculate_conv_output_size (to_u32 (input.info.dim 2)) kernel_height
              (max pad_y_front pad_y_back) stride_y dilation_y], DataType.F32⟩, true, []⟩] := by
  simp only [ACLNetwork.add_conv2d, ACLNetwork.create_tensor, ACLNetwork.allocate,
    ACLNetwork.set_tensor_values, ACLNetwork.validate_and_push, List.length_append,
    List.length_singleton, List.append_assoc, List.singleton_append,
    List.length_cons, List.length_nil, modify_append_length_add, modify_append_length,
    List.modify_succ_cons, List.modify_zero_cons, List.cons_append, List.nil_append,
    List.length_modify, Nat.add_assoc, Nat.reduceAdd, Nat.zero_add]

theorem add_conv2d_transpose_tensors (validate : IFunction → Option String) (net : ACLNetwork)
    (input : TensorRef) (kernel_width kernel_height output_features : Nat)
    (pad_x_front pad_x_back pad_y_front pad_y_back stride_x stride_y : Nat)
    (kernel_values bias_values : List ℚ) :
    (net.add_conv2d_transpose validate input kernel_width kernel_height output_features
      pad_x_front pad_x_back pad_y_front pad_y_back stride_x stride_y kernel_values
      bias_values).1.tensors
    = net.tensors ++
      [⟨⟨[to_u32 (input.info.dim 0), kernel_width, kernel_height, output_features],
          DataType.F32⟩, true,
          ((⟨[to_u32 (input.info.dim 0), kernel_width, kernel_height, output_features],
            DataType.F32⟩ : TensorInfo).copy_data_to_tensor kernel_values).1⟩,
        ⟨⟨[output_features], DataType.F32⟩, true,
          ((⟨[output_features], DataType.F32⟩ : TensorInfo).copy_data_to_tensor bias_values).1⟩,
        ⟨⟨[output_features,
            calculate_deconv_output_size (to_u32 (input.info.dim 1)) kernel_width
              (max pad_x_front pad_x_back) stride_x,
            calculate_deconv_output_size (to_u32 (input.info.dim 2)) kernel_height
              (max pad_y_front pad_y_back) stride_y], DataType.F32⟩, true, []⟩] := by
  simp only [ACLNetwork.add_conv2d_transpose, ACLNetwork.create_tensor, ACLNetwork.allocate,
    ACLNetwork.set_tensor_values, ACLNetwork.validate_and_push, List.length_append,
    List.length_singleton, List.append_assoc, List.singleton_append,
    List.length_cons, List.length_nil, modify_append_length_add, modify_append_length,
    List.modify_succ_cons, List.modify_zero_cons, List.cons_append, List.nil_append,
    List.length_modify, Nat.add_assoc, Nat.reduceAdd, Nat.zero_add]

theorem add_conv2d_output (validate : IFunction → Option String) (net : ACLNetwork)
    (input : TensorRef) (kernel_width kernel_height output_features : Nat)
    (pad_x_front pad_x_back pad_y_front pad_y_back stride_x stride_y : Nat)
    (kernel_values bias_values : List ℚ) (activation : ActivationFunction)
    (dilation_x dilation_y : Nat) :
    (net.add_conv2d validate input kernel_width kernel_height output_features pad_x_front
      pad_x_back pad_y_front pad_y_back stride_x stride_y kernel_values bias_values activation
      dilation_x dilation_y).2
    = ⟨TensorId.owned (net.tensors.length + 2), ⟨[output_features,
        calculate_conv_output_size (to_u32 (input.info.dim 1)) kernel_width
          (max pad_x_front pad_x_back) stride_x dilation_x,
        calculate_conv_output_size (to_u32 (input.info.dim 2)) kernel_height
          (max pad_y_front pad_y_back) stride_y dilation_y], DataType.F32⟩⟩ := by
  simp [ACLNetwork.add_conv2d, ACLNetwork.create_tensor]

/-- A kernel tensor with fewer than `2^32` elements is loaded with the front of
the array, and the load is defined exactly when the array holds at least as
many floats as the tensor has elements. -/
theorem kernel_tensor_load (C kernel_width kernel_height output_features : Nat)
    (values : List ℚ)
    (hN : C * kernel_width * kernel_height * output_features < 4294967296) :
    ((⟨[C, kernel_width, kernel_height, output_features], DataType.F32⟩ :
        TensorInfo).copy_data_to_tensor values).1
        = values.take (C * kernel_width * kernel_height * output_features) ∧
      (set_tensor_values_defined
          ⟨[C, kernel_width, kernel_height, output_features], DataType.F32⟩ values
        ↔ C * kernel_width * kernel_height * output_features ≤ values.length) := by
  have hprod : [C, kernel_width, kernel_height, output_features].prod
      = C * kernel_width * kernel_height * output_features := by simp [Nat.mul_assoc]
  have h := copy_data_to_tensor_of_fits
    ⟨[C, kernel_width, kernel_height, output_features], DataType.F32⟩ values (by simp)
    (by show [C, kernel_width, kernel_height, output_features].prod < U32; rw [hprod]; exact hN)
  simp only [hprod] at h
  exact h

/-- The bias tensor of a convolution, likewise. -/
theorem bias_tensor_load (output_features : Nat) (values : List ℚ)
    (hN : output_features < 4294967296) :
    ((⟨[output_features], DataType.F32⟩ : TensorInfo).copy_data_to_tensor values).1
        = values.take output_features ∧
      (set_tensor_values_defined ⟨[output_features], DataType.F32⟩ values
        ↔ output_features ≤ values.length) := by
  have hprod : [output_features].prod = output_features := by simp
  have h := copy_data_to_tensor_of_fits ⟨[output_features], DataType.F32⟩ values (by simp)
    (by show [output_features].prod < U32; rw [hprod]; exact hN)
  simp only [hprod] at h
  exact h

theorem add_linear_to_srgb_tensors (validate : IFunction → Option String) (net : ACLNetwork)
    (input : TensorRef) :
    (net.add_linear_to_srgb validate input).1.tensors = net.tensors ++
      [⟨⟨[to_u32 (input.info.dim 0), to_u32 (input.info.dim 1), to_u32 (input.info.dim 2)],
          DataType.F32⟩, true, []⟩,
        ⟨⟨[to_u32 (input.info.dim 0), to_u32 (input.info.dim 1), to_u32 (input.info.dim 2)],
          DataType.F32⟩, true, []⟩,
        ⟨⟨[1], DataType.F32⟩, true, [1 / 2.4]⟩] := by
  simp only [ACLNetwork.add_linear_to_srgb, ACLNetwork.add_activation, ACLNetwork.push,
    ACLNetwork.create_tensor, ACLNetwork.allocate,
    ACLNetwork.set_tensor_values, ACLNetwork.validate_and_push, List.length_append,
    List.length_singleton, List.append_assoc, List.singleton_append,
    List.length_cons, List.length_nil, modify_append_length_add, modify_append_length,
    List.modify_succ_cons, List.modify_zero_cons, List.cons_append, List.nil_append,
    copy_data_to_tensor_singleton, List.length_modify, Nat.add_assoc, Nat.reduceAdd, Nat.zero_add]
  norm_num

theorem add_srgb_to_linear_tensors (validate : IFunction → Option String) (net : ACLNetwork)
    (input : TensorRef) :
    (net.add_srgb_to_linear validate input).1.tensors = net.tensors ++
      [⟨⟨[to_u32 (input.info.dim 0), to_u32 (input.info.dim 1), to_u32 (input.info.dim 2)],
          DataType.F32⟩, true, []⟩,
        ⟨⟨[to_u32 (input.info.dim 0), to_u32 (input.info.dim 1), to_u32 (input.info.dim 2)],
          DataType.F32⟩, true, []⟩,
        ⟨⟨[to_u32 (input.info.dim 0), to_u32 (input.info.dim 1), to_u32 (input.info.dim 2)],
          DataType.F32⟩, true, []⟩,
        ⟨⟨[1], DataType.F32⟩, true, [2.4]⟩] := by
  simp only [ACLNetwork.add_srgb_to_linear, ACLNetwork.add_activation, ACLNetwork.push,
    ACLNetwork.create_tensor, ACLNetwork.allocate,
    ACLNetwork.set_tensor_values, ACLNetwork.validate_and_push, List.length_append,
    List.length_singleton, List.append_assoc, List.singleton_append,
    List.length_cons, List.length_nil, modify_append_length_add, modify_append_length,
    List.modify_succ_cons, List.modify_zero_cons, List.cons_append, List.nil_append,
    copy_data_to_tensor_singleton, List.length_modify, Nat.add_assoc, Nat.reduceAdd, Nat.zero_add]

theorem getElem?_append_add {α : Type} (l r : List α) (k : Nat) :
    (l ++ r)[l.length + k]? = r[k]? := by
  rw [List.getElem?_append_right (Nat.le_add_right _ _)]
  simp

/-! ## Padding -/

/-- The rounded-up quotient brackets the input size: with `out = ⌈I / S⌉`,
`out * S - S < I ≤ out * S`. -/
theorem ceil_div_bracket (I S : Nat) (hI : 1 ≤ I) (hS : 1 ≤ S) :
    S ≤ (I + S - 1) / S * S ∧ (I + S - 1) / S * S - S < I ∧ I ≤ (I + S - 1) / S * S := by
  have h1 := Nat.div_add_mod (I + S - 1) S
  have h2 := Nat.mod_lt (I + S - 1) hS
  have hout : 1 ≤ (I + S - 1) / S := by
    rw [Nat.le_div_iff_mul_le (by omega)]; omega
  have h3 : 1 * S ≤ (I + S - 1) / S * S := Nat.mul_le_mul_right S hout
  rw [Nat.mul_comm S] at h1
  generalize (I + S - 1) / S * S = m at h1 h3 ⊢
  generalize (I + S - 1) % S = r at h1 h2
  omega

/-- C1. `calculate_padding` equals the reference definition of the
specification: for `I, K, S, D ≥ 1` whose intermediate values fit in 32 bits,
the policy `SAME` yields the pair computed from
`needed = (ceil(I/S) - 1)*S + K + (D-1)*(K-1)`, and every other policy yields
`(0, 0)`. -/
theorem calculate_padding_refines_spec (I K S D : Nat) (hI : 1 ≤ I) (hK : 1 ≤ K) (hS : 1 ≤ S)
    (hD : 1 ≤ D) (hfit : padding_fits I K S D) :
    calculate_padding I K S D Padding.SAME = same_padding_spec I K S D ∧
      ∀ padding, padding ≠ Padding.SAME → calculate_padding I K S D padding = (0, 0) := by
  constructor
  · rw [calculate_padding_same_eq I K S D hI hK hS hD hfit]
    unfold same_padding_spec
    simp only [nat_ceil_div I S hS, Nat.sub_mul, Nat.one_mul]
  · intro padding hp
    cases padding with
    | SAME => exact absurd rfl hp
    | VALID => exact calculate_padding_valid I K S D

/-- Witness of C1 on the 256-wide input with a 3-wide kernel. -/
theorem calculate_padding_refines_spec_witness :
    calculate_padding 256 3 1 1 Padding.SAME = same_padding_spec 256 3 1 1 ∧
      ∀ padding, padding ≠ Padding.SAME → calculate_padding 256 3 1 1 padding = (0, 0) :=
  calculate_padding_refines_spec 256 3 1 1 (by decide) (by decide) (by decide) (by decide)
    (by decide)

/-- The rational ceiling of a quotient of naturals, as an integer. -/
theorem int_ceil_div (a s : Nat) (hs : 1 ≤ s) :
    ⌈(a : ℚ) / (s : ℚ)⌉ = (((a + s - 1) / s : ℕ) : ℤ) := by
  rw [← nat_ceil_div a s hs, Int.natCast_ceil_eq_ceil (by positivity)]

/-- Without overflow the two halves of the "same" padding add up to the
missing extent `needed - I` (zero when nothing is missing), where
`needed = ceil(I/S) * S - S + dilated_kernel`. -/
theorem calculate_padding_total (I K S D : Nat) (hI : 1 ≤ I) (hK : 1 ≤ K) (hS : 1 ≤ S)
    (hD : 1 ≤ D) (hfit : padding_fits I K S D) :
    (calculate_padding I K S D Padding.SAME).1 + (calculate_padding I K S D Padding.SAME).2 =
      (I + S - 1) / S * S - S + (K + (D - 1) * (K - 1)) - I := by
  rw [calculate_padding_same_eq I K S D hI hK hS hD hfit]
  generalize (I + S - 1) / S * S - S + (K + (D - 1) * (K - 1)) = needed
  by_cases h : needed > I
  · simp only [h, if_true]; omega
  · simp only [h, if_false]; omega

/-- For `K, D ≥ 1` the dilated kernel size is `D*(K-1) + 1`. -/
theorem dilated_kernel_eq (K D : Nat) (hK : 1 ≤ K) (hD : 1 ≤ D) :
    K + (D - 1) * (K - 1) = D * (K - 1) + 1 := by
  have h : D * (K - 1) = (D - 1) * (K - 1) + (K - 1) := by
    have hd : D = (D - 1) + 1 := by omega
    conv_lhs => rw [hd]
    rw [Nat.add_mul, Nat.one_mul]
  omega

/-- Where the container's forward size is right: with the padding of
`calculate_padding` (no overflow, values below `2^24`), the size computed
from `max(pad_front, pad_back)` is `ceil(I / S)` whenever the two pads are
equal or the stride is at least two. -/
theorem same_padding_conv_output_size_of_symmetric (I K S D : Nat) (hI : 1 ≤ I) (hK : 1 ≤ K)
    (hS : 1 ≤ S) (hD : 1 ≤ D) (hfit : padding_fits I K S D) (hS24 : S < 16777216)
    (h24 : I + 2 * max (calculate_padding I K S D Padding.SAME).1
      (calculate_padding I K S D Padding.SAME).2 < 16777216)
    (hsym : (calculate_padding I K S D Padding.SAME).1 =
      (calculate_padding I K S D Padding.SAME).2 ∨ 2 ≤ S) :
    calculate_conv_output_size I K (max (calculate_padding I K S D Padding.SAME).1
      (calculate_padding I K S D Padding.SAME).2) S D = ⌈(I : ℚ) / (S : ℚ)⌉₊ := by
  rw [nat_ceil_div I S hS]
  obtain ⟨hm1, hm2, hm3⟩ := ceil_div_bracket I S hI hS
  have hdk := dilated_kernel_eq K D hK hD
  have hpad := calculate_padding_same_eq I K S D hI hK hS hD hfit
  rw [hdk] at hpad
  rw [hpad] at h24 hsym ⊢
  have hk : ((D * (K - 1) : ℕ) : ℤ) = (D : ℤ) * ((K : ℤ) - 1) := by
    push_cast [Nat.cast_sub hK]; ring
  have hmul : ((I + S - 1) / S + 1) * S = (I + S - 1) / S * S + S := by
    rw [Nat.add_mul, Nat.one_mul]
  clear hpad hdk hfit
  generalize D * (K - 1) = dk1 at hk h24 hsym ⊢
  generalize (I + S - 1) / S = o at hm1 hm2 hm3 hmul h24 hsym ⊢
  obtain ⟨m, hom⟩ : ∃ m, o * S = m := ⟨_, rfl⟩
  rw [hom] at hm1 hm2 hm3 hmul h24 hsym ⊢
  have key : ∀ p : Nat, dk1 ≤ I + 2 * p → I + 2 * p < 16777216 →
      m - S + 1 ≤ I + 2 * p - dk1 → I + 2 * p - dk1 ≤ m →
      calculate_conv_output_size I K p S D = o := by
    intro p h1 h2 h3 h4
    rw [calculate_conv_output_size_eq I K p S D (I + 2 * p - dk1) (by omega) (by omega) hS hS24]
    apply Nat.div_eq_of_lt_le
    · rw [hom]; omega
    · rw [hmul]; omega
  by_cases hgt : m - S + (dk1 + 1) > I
  · simp only [hgt, if_true] at h24 hsym ⊢
    apply key <;> omega
  · simp only [hgt, if_false] at h24 hsym ⊢
    apply key <;> omega

/-- C2. At a 4-wide input with a 2-wide kernel, stride 1 and dilation 1 the
"same" padding is `(0, 1)` and the container computes the output size
`calculate_conv_output_size 4 2 (max 0 1) 1 1 = 5`, while `ceil(4 / 1) = 4`.
The example of the specification holds: for `I = 256`, `K = 3`, `S = 1`,
`D = 1` the padding is `(1, 1)` and the output size `256`. -/
theorem same_padding_conv_output_size_at_even_kernel :
    calculate_padding 4 2 1 1 Padding.SAME = (0, 1) ∧
      calculate_conv_output_size 4 2 (max 0 1) 1 1 = 5 ∧ ⌈(4 : ℚ) / (1 : ℚ)⌉₊ = 4 ∧
      calculate_padding 256 3 1 1 Padding.SAME = (1, 1) ∧
      calculate_conv_output_size 256 3 (max 1 1) 1 1 = 256 ∧ ⌈(256 : ℚ) / (1 : ℚ)⌉₊ = 256 := by
  refine ⟨by decide, ?_, ?_, by decide, ?_, ?_⟩
  · exact calculate_conv_output_size_eq 4 2 (max 0 1) 1 1 5 (by decide) (by decide)
      (by decide) (by decide)
  · norm_num
  · exact calculate_conv_output_size_eq 256 3 (max 1 1) 1 1 256 (by decide) (by decide)
      (by decide) (by decide)
  · norm_num

/-- C3 fails where the 32-bit arithmetic wraps: for `I = 2^32 - 1`, `K = 3`,
`S = 2`, `D = 1` the sum `I + S` wraps, `calculate_padding` returns `(0, 0)`,
and `floor((I - 3) / 2) + 1 = 2147483647` is not `ceil(I / 2) = 2147483648`. -/
theorem floor_output_is_ceil_fails_on_overflow : ¬ floor_output_is_ceil 4294967295 3 2 1 := by
  unfold floor_output_is_ceil
  have hp : calculate_padding 4294967295 3 2 1 Padding.SAME = (0, 0) := by decide
  rw [hp]
  have hc : ⌈((4294967295 : ℕ) : ℚ) / ((2 : ℕ) : ℚ)⌉ = 2147483648 := by
    rw [int_ceil_div _ _ (by decide)]; decide
  have hf : ⌊((((4294967295 + (0, 0).1 + (0, 0).2 : ℕ) : ℤ) -
      ((3 + (1 - 1) * (3 - 1) : ℕ) : ℤ) : ℤ) : ℚ) / ((2 : ℕ) : ℚ)⌋ = 2147483646 := by
    rw [Rat.floor_intCast_div_natCast]; decide
  rw [hc, hf]
  decide

/-- C3 (amended). For `I, K, S, D ≥ 1` whose intermediate values fit in 32
bits, the padding of `calculate_padding` makes the size under `FLOOR`
rounding, `floor((I + pad_front + pad_back - dilated_kernel) / S) + 1`, equal
to `ceil(I / S)`. -/
theorem floor_output_is_ceil_of_fits (I K S D : Nat) (hI : 1 ≤ I) (hK : 1 ≤ K) (hS : 1 ≤ S)
    (hD : 1 ≤ D) (hfit : padding_fits I K S D) : floor_output_is_ceil I K S D := by
  unfold floor_output_is_ceil
  rw [int_ceil_div I S hS, Nat.add_assoc, calculate_padding_total I K S D hI hK hS hD hfit]
  obtain ⟨hm1, hm2, hm3⟩ := ceil_div_bracket I S hI hS
  have hmz : (((I + S - 1) / S * S : ℕ) : ℤ) = (((I + S - 1) / S : ℕ) : ℤ) * (S : ℤ) := by
    push_cast; rfl
  have hdk : K ≤ K + (D - 1) * (K - 1) := Nat.le_add_right _ _
  have hS0 : (0 : ℚ) < (S : ℚ) := by exact_mod_cast hS
  generalize K + (D - 1) * (K - 1) = dk at hdk ⊢
  generalize (I + S - 1) / S * S = m at hm1 hm2 hm3 hmz ⊢
  generalize (I + S - 1) / S = o at hmz ⊢
  have e1 : ((o : ℤ) - 1) * (S : ℤ) = (m : ℤ) - S := by rw [hmz]; ring
  have e2 : ((o : ℤ) - 1 + 1) * (S : ℤ) = (m : ℤ) := by rw [hmz]; ring
  have hfloor : ⌊(((I + (m - S + dk - I) : ℕ) : ℤ) - (dk : ℤ) : ℤ) / (S : ℚ)⌋ = (o : ℤ) - 1 := by
    rw [Int.floor_eq_iff, le_div_iff₀ hS0, div_lt_iff₀ hS0]
    constructor
    · have h : ((o : ℤ) - 1) * (S : ℤ) ≤ ((I + (m - S + dk - I) : ℕ) : ℤ) - (dk : ℤ) := by
        rw [e1]; omega
      exact_mod_cast h
    · have h : ((I + (m - S + dk - I) : ℕ) : ℤ) - (dk : ℤ) < ((o : ℤ) - 1 + 1) * (S : ℤ) := by
        rw [e2]; omega
      exact_mod_cast h
  rw [hfloor]; ring

/-- Witness of C3 (amended) on a 7-wide input, 3-wide kernel, stride 2. -/
theorem floor_output_is_ceil_of_fits_witness : floor_output_is_ceil 7 3 2 1 :=
  floor_output_is_ceil_of_fits 7 3 2 1 (by decide) (by decide) (by decide) (by decide)
    (by decide)

/-- The stride divides the input size exactly when rounding up loses nothing. -/
theorem dvd_iff_eq_ceil_mul (I S : Nat) (hI : 1 ≤ I) (hS : 1 ≤ S) :
    S ∣ I ↔ I = (I + S - 1) / S * S := by
  obtain ⟨hm1, hm2, hm3⟩ := ceil_div_bracket I S hI hS
  constructor
  · intro hd
    have hdm : S ∣ (I + S - 1) / S * S := Nat.dvd_mul_left S _
    have hsub : S ∣ (I + S - 1) / S * S - I := Nat.dvd_sub' hdm hd
    have hz : (I + S - 1) / S * S - I = 0 := Nat.eq_zero_of_dvd_of_lt hsub (by omega)
    omega
  · intro h
    rw [h]; exact Nat.dvd_mul_left S _

/-- C4 fails when the stride does not divide the input size: for `I = 5`,
`K = 3`, `S = 2`, `D = 1` the padding is `(1, 1)`, in total `2`, which is
neither `dilated_kernel - stride = 1` nor `0`. -/
theorem padding_total_in_set_fails : ¬ padding_total_in_set 5 3 2 1 := by
  unfold padding_total_in_set
  have hp : calculate_padding 5 3 2 1 Padding.SAME = (1, 1) := by decide
  rw [hp]
  decide

/-- C4 (amended). For `I, K, S, D ≥ 1` whose intermediate values fit in 32
bits, the total padding is the missing extent `needed - I` (zero when
`needed ≤ I`) with `needed = (ceil(I/S) - 1)*S + K + (D-1)*(K-1)`, and it is
`dilated_kernel - stride` or `0` exactly when the stride divides `I` or no
padding is needed. -/
theorem padding_total_in_set_iff (I K S D : Nat) (hI : 1 ≤ I) (hK : 1 ≤ K) (hS : 1 ≤ S)
    (hD : 1 ≤ D) (hfit : padding_fits I K S D) :
    (calculate_padding I K S D Padding.SAME).1 + (calculate_padding I K S D Padding.SAME).2 =
        (⌈(I : ℚ) / (S : ℚ)⌉₊ - 1) * S + (K + (D - 1) * (K - 1)) - I ∧
      (padding_total_in_set I K S D ↔
        (S ∣ I ∨ (⌈(I : ℚ) / (S : ℚ)⌉₊ - 1) * S + (K + (D - 1) * (K - 1)) ≤ I)) := by
  have htotal := calculate_padding_total I K S D hI hK hS hD hfit
  obtain ⟨hm1, hm2, hm3⟩ := ceil_div_bracket I S hI hS
  have hdvd := dvd_iff_eq_ceil_mul I S hI hS
  rw [nat_ceil_div I S hS, Nat.sub_mul, Nat.one_mul]
  refine ⟨htotal, ?_⟩
  unfold padding_total_in_set
  rw [hdvd]
  have hcast : ((calculate_padding I K S D Padding.SAME).1 : ℤ) +
      ((calculate_padding I K S D Padding.SAME).2 : ℤ) =
      (((calculate_padding I K S D Padding.SAME).1 +
        (calculate_padding I K S D Padding.SAME).2 : ℕ) : ℤ) := by push_cast; rfl
  rw [hcast, htotal]
  generalize K + (D - 1) * (K - 1) = dk
  generalize (I + S - 1) / S * S = m at hm1 hm2 hm3
  omega

/-- Witness of C4 (amended) on a 6-wide input, 3-wide kernel, stride 2. -/
theorem padding_total_in_set_iff_witness :
    (calculate_padding 6 3 2 1 Padding.SAME).1 + (calculate_padding 6 3 2 1 Padding.SAME).2 =
        (⌈((6 : ℕ) : ℚ) / ((2 : ℕ) : ℚ)⌉₊ - 1) * 2 + (3 + (1 - 1) * (3 - 1)) - 6 ∧
      (padding_total_in_set 6 3 2 1 ↔
        (2 ∣ 6 ∨ (⌈((6 : ℕ) : ℚ) / ((2 : ℕ) : ℚ)⌉₊ - 1) * 2 + (3 + (1 - 1) * (3 - 1)) ≤ 6)) :=
  padding_total_in_set_iff 6 3 2 1 (by decide) (by decide) (by decide) (by decide) (by decide)

/-! ## Output sizes of the convolution layers -/

theorem calculate_conv_output_size_to_u32 (I K p S D : Nat) :
    calculate_conv_output_size (to_u32 I) K p S D = calculate_conv_output_size I K p S D := by
  have h : ∀ x, u32_add (to_u32 I) x = u32_add I x := by
    intro x; unfold u32_add to_u32 U32; omega
  unfold calculate_conv_output_size
  rw [h]

theorem calculate_deconv_output_size_to_u32 (I K p S : Nat) :
    calculate_deconv_output_size (to_u32 I) K p S = calculate_deconv_output_size I K p S := by
  have h : u32_sub (to_u32 I) 1 = u32_sub I 1 := by
    unfold u32_sub to_u32 U32; omega
  unfold calculate_deconv_output_size
  rw [h]

/-- In the exact range `calculate_conv_output_size` is the extent divided by
the stride, rounded up. -/
theorem calculate_conv_output_size_ceil (I K p S D : Nat) (h0 : 0 ≤ conv_extent I K p D)
    (h24 : conv_extent I K p D < 16777216) (hS : 1 ≤ S) (hS24 : S < 16777216) :
    ((calculate_conv_output_size I K p S D : ℕ) : ℤ) =
      ⌈((conv_extent I K p D : ℤ) : ℚ) / (S : ℚ)⌉ := by
  have hn : ((conv_extent I K p D).toNat : ℤ) = conv_extent I K p D := Int.toNat_of_nonneg h0
  rw [calculate_conv_output_size_eq I K p S D (conv_extent I K p D).toNat
    (by rw [hn]; rfl) (by omega) hS hS24]
  have hq : (((conv_extent I K p D).toNat : ℕ) : ℚ) = ((conv_extent I K p D : ℤ) : ℚ) := by
    exact_mod_cast hn
  rw [← int_ceil_div _ S hS, hq]

/-- In the exact range the conversion that ends `calculate_conv_output_size` is
defined. -/
theorem calculate_conv_output_size_defined_of_exact (I K p S D : Nat)
    (h0 : 0 ≤ conv_extent I K p D) (h24 : conv_extent I K p D < 16777216) (hS : 1 ≤ S)
    (hS24 : S < 16777216) : calculate_conv_output_size_defined I K p S D := by
  have hn : ((conv_extent I K p D).toNat : ℤ) = conv_extent I K p D := Int.toNat_of_nonneg h0
  have hnum : u32_sub (u32_add I (u32_mul 2 p)) (u32_mul D (u32_sub K 1))
      = (conv_extent I K p D).toNat := by
    have h := conv_numerator_cast I K p D
    have e : (I : ℤ) + 2 * p - D * ((K : ℤ) - 1) = conv_extent I K p D := rfl
    rw [e, ← hn] at h
    omega
  refine ⟨by omega, ?_⟩
  rw [hnum, ceil_f32_div _ S (by omega) hS hS24]
  have hle : (((conv_extent I K p D).toNat : ℕ) : ℚ) / (S : ℚ)
      ≤ (((conv_extent I K p D).toNat : ℤ) : ℚ) := by
    have hS1 : (1 : ℚ) ≤ S := by exact_mod_cast hS
    have hnn : (0 : ℚ) ≤ ((conv_extent I K p D).toNat : ℕ) := by positivity
    push_cast
    exact div_le_self hnn hS1
  have := Int.ceil_le.mpr hle
  unfold U32
  push_cast
  omega

theorem add_conv2d_output_info (validate : IFunction → Option String) (net : ACLNetwork)
    (input : TensorRef) (kernel_width kernel_height output_features : Nat)
    (pad_x_front pad_x_back pad_y_front pad_y_back stride_x stride_y : Nat)
    (kernel_values bias_values : List ℚ) (activation : ActivationFunction)
    (dilation_x dilation_y : Nat) :
    (net.add_conv2d validate input kernel_width kernel_height output_features pad_x_front
      pad_x_back pad_y_front pad_y_back stride_x stride_y kernel_values bias_values activation
      dilation_x dilation_y).2.info =
      ⟨[output_features,
        calculate_conv_output_size (to_u32 (input.info.dim 1)) kernel_width
          (max pad_x_front pad_x_back) stride_x dilation_x,
        calculate_conv_output_size (to_u32 (input.info.dim 2)) kernel_height
          (max pad_y_front pad_y_back) stride_y dilation_y], DataType.F32⟩ := rfl

theorem add_depthwise_conv2d_output_info (validate : IFunction → Option String)
    (net : ACLNetwork) (input : TensorRef) (kernel_width kernel_height : Nat)
    (pad_x_front pad_x_back pad_y_front pad_y_back stride_x stride_y : Nat)
    (kernel_values bias_values : List ℚ) (activation : ActivationFunction)
    (dilation_x dilation_y : Nat) :
    (net.add_depthwise_conv2d validate input kernel_width kernel_height pad_x_front
      pad_x_back pad_y_front pad_y_back stride_x stride_y kernel_values bias_values activation
      dilation_x dilation_y).2.info =
      ⟨[to_u32 (input.info.dim 0),
        calculate_conv_output_size (to_u32 (input.info.dim 1)) kernel_width
          (max pad_x_front pad_x_back) stride_x dilation_x,
        calculate_conv_output_size (to_u32 (input.info.dim 2)) kernel_height
          (max pad_y_front pad_y_back) stride_y dilation_y], DataType.F32⟩ := rfl

theorem add_conv2d_transpose_output_info (validate : IFunction → Option String)
    (net : ACLNetwork) (input : TensorRef) (kernel_width kernel_height output_features : Nat)
    (pad_x_front pad_x_back pad_y_front pad_y_back stride_x stride_y : Nat)
    (kernel_values bias_values : List ℚ) :
    (net.add_conv2d_transpose validate input kernel_width kernel_height output_features
      pad_x_front pad_x_back pad_y_front pad_y_back stride_x stride_y kernel_values
      bias_values).2.info =
      ⟨[output_features,
        calculate_deconv_output_size (to_u32 (input.info.dim 1)) kernel_width
          (max pad_x_front pad_x_back) stride_x,
        calculate_deconv_output_size (to_u32 (input.info.dim 2)) kernel_height
          (max pad_y_front pad_y_back) stride_y], DataType.F32⟩ := rfl

/-- C5. For a stride of at least one and a non-negative extent
`I + 2*max(pad_front, pad_back) - D*(K-1)`, both small enough to be exact in
single precision (below `2^24`), the output tensor that `add_conv2d` and
`add_depthwise_conv2d` create has, along each axis, the size
`ceil((I + 2*max(pad_front, pad_back) - D*(K-1)) / S)`. -/
theorem conv_output_size_is_ceil (validate : IFunction → Option String) (net : ACLNetwork)
    (input : TensorRef) (kernel_width kernel_height output_features : Nat)
    (pad_x_front pad_x_back pad_y_front pad_y_back stride_x stride_y : Nat)
    (kernel_values bias_values : List ℚ) (activation : ActivationFunction)
    (dilation_x dilation_y : Nat)
    (hx0 : 0 ≤ conv_extent (input.info.dim 1) kernel_width (max pad_x_front pad_x_back) dilation_x)
    (hx24 : conv_extent (input.info.dim 1) kernel_width (max pad_x_front pad_x_back) dilation_x
      < 16777216)
    (hsx : 1 ≤ stride_x) (hsx24 : stride_x < 16777216)
    (hy0 : 0 ≤ conv_extent (input.info.dim 2) kernel_height (max pad_y_front pad_y_back)
      dilation_y)
    (hy24 : conv_extent (input.info.dim 2) kernel_height (max pad_y_front pad_y_back) dilation_y
      < 16777216)
    (hsy : 1 ≤ stride_y) (hsy24 : stride_y < 16777216) :
    ((((net.add_conv2d validate input kernel_width kernel_height output_features pad_x_front
        pad_x_back pad_y_front pad_y_back stride_x stride_y kernel_values bias_values activation
        dilation_x dilation_y).2.info.dim 1 : ℕ) : ℤ) =
      ⌈((conv_extent (input.info.dim 1) kernel_width (max pad_x_front pad_x_back) dilation_x
        : ℤ) : ℚ) / (stride_x : ℚ)⌉ ∧
    (((net.add_conv2d validate input kernel_width kernel_height output_features pad_x_front
        pad_x_back pad_y_front pad_y_back stride_x stride_y kernel_values bias_values activation
        dilation_x dilation_y).2.info.dim 2 : ℕ) : ℤ) =
      ⌈((conv_extent (input.info.dim 2) kernel_height (max pad_y_front pad_y_back) dilation_y
        : ℤ) : ℚ) / (stride_y : ℚ)⌉) ∧
    ((((net.add_depthwise_conv2d validate input kernel_width kernel_height pad_x_front
        pad_x_back pad_y_front pad_y_back stride_x stride_y kernel_values bias_values activation
        dilation_x dilation_y).2.info.dim 1 : ℕ) : ℤ) =
      ⌈((conv_extent (input.info.dim 1) kernel_width (max pad_x_front pad_x_back) dilation_x
        : ℤ) : ℚ) / (stride_x : ℚ)⌉ ∧
    (((net.add_depthwise_conv2d validate input kernel_width kernel_height pad_x_front
        pad_x_back pad_y_front pad_y_back stride_x stride_y kernel_values bias_values activation
        dilation_x dilation_y).2.info.dim 2 : ℕ) : ℤ) =
      ⌈((conv_extent (input.info.dim 2) kernel_height (max pad_y_front pad_y_back) dilation_y
        : ℤ) : ℚ) / (stride_y : ℚ)⌉) := by
  have hx := calculate_conv_output_size_ceil _ _ _ _ _ hx0 hx24 hsx hsx24
  have hy := calculate_conv_output_size_ceil _ _ _ _ _ hy0 hy24 hsy hsy24
  have d1 : ∀ (a b c : Nat), TensorInfo.dim ⟨[a, b, c], DataType.F32⟩ 1 = b := fun _ _ _ => rfl
  have d2 : ∀ (a b c : Nat), TensorInfo.dim ⟨[a, b, c], DataType.F32⟩ 2 = c := fun _ _ _ => rfl
  have e1 := add_conv2d_output_info validate net input kernel_width kernel_height
    output_features pad_x_front pad_x_back pad_y_front pad_y_back stride_x stride_y
    kernel_values bias_values activation dilation_x dilation_y
  have e2 := add_depthwise_conv2d_output_info validate net input kernel_width kernel_height
    pad_x_front pad_x_back pad_y_front pad_y_back stride_x stride_y
    kernel_values bias_values activation dilation_x dilation_y
  rw [e1, e2, d1, d2, d1, d2, calculate_conv_output_size_to_u32,
    calculate_conv_output_size_to_u32]
  exact ⟨⟨hx, hy⟩, ⟨hx, hy⟩⟩

/-- Witness of C5: a `3 x 3` convolution with padding 1 and stride 1 on a
`256 x 256` input; the extent is `256` along both axes. -/
theorem conv_output_size_is_ceil_witness :
    ((((ACLNetwork.mk [] [] []).add_conv2d (fun _ => none)
        ⟨TensorId.external 0, ⟨[3, 256, 256], DataType.F32⟩⟩ 3 3 8 1 1 1 1 1 1 [] []
        ActivationFunction.RELU 1 1).2.info.dim 1 : ℕ) : ℤ) =
      ⌈((conv_extent 256 3 (max 1 1) 1 : ℤ) : ℚ) / ((1 : ℕ) : ℚ)⌉ :=
  (conv_output_size_is_ceil (fun _ => none) (ACLNetwork.mk [] [] [])
    ⟨TensorId.external 0, ⟨[3, 256, 256], DataType.F32⟩⟩ 3 3 8 1 1 1 1 1 1 [] []
    ActivationFunction.RELU 1 1 (by decide) (by decide) (by decide) (by decide) (by decide)
    (by decide) (by decide) (by decide)).1.1

/-- The quotient of integers rounded up is one more than the quotient of the
predecessor rounded down. -/
theorem ceil_eq_floor_pred_add_one (X : ℤ) (S : Nat) (hS : 1 ≤ S) :
    ⌈(X : ℚ) / (S : ℚ)⌉ = ⌊((X - 1 : ℤ) : ℚ) / (S : ℚ)⌋ + 1 := by
  have hS0 : (0 : ℚ) < (S : ℚ) := by exact_mod_cast hS
  have hSz : (0 : ℤ) < (S : ℤ) := by exact_mod_cast hS
  rw [Rat.floor_intCast_div_natCast, Int.ceil_eq_iff, lt_div_iff₀ hS0, div_le_iff₀ hS0]
  have h1 : (X - 1) / (S : ℤ) * (S : ℤ) ≤ X - 1 := Int.ediv_mul_le _ hSz.ne'
  have h2 : X - 1 < ((X - 1) / (S : ℤ) + 1) * (S : ℤ) := Int.lt_ediv_add_one_mul_self _ hSz
  constructor
  · have h : ((X - 1) / (S : ℤ) + 1 - 1) * (S : ℤ) < X := by
      rw [add_sub_cancel_right]; omega
    push_cast at h ⊢
    exact_mod_cast h
  · have h : X ≤ ((X - 1) / (S : ℤ) + 1) * (S : ℤ) := by omega
    push_cast at h ⊢
    exact_mod_cast h

/-- Rounding a quotient of integers down and up gives the same value exactly
when the division is exact. -/
theorem floor_eq_ceil_iff_dvd (Y : ℤ) (S : Nat) (hS : 1 ≤ S) :
    ⌊(Y : ℚ) / (S : ℚ)⌋ = ⌈(Y : ℚ) / (S : ℚ)⌉ ↔ (S : ℤ) ∣ Y := by
  have hS0 : (0 : ℚ) < (S : ℚ) := by exact_mod_cast hS
  have hSz : (0 : ℤ) < (S : ℤ) := by exact_mod_cast hS
  have h1 : Y / (S : ℤ) * (S : ℤ) ≤ Y := Int.ediv_mul_le _ hSz.ne'
  have h2 : Y < (Y / (S : ℤ) + 1) * (S : ℤ) := Int.lt_ediv_add_one_mul_self _ hSz
  rw [Rat.floor_intCast_div_natCast, eq_comm, Int.ceil_eq_iff, lt_div_iff₀ hS0,
    div_le_iff₀ hS0]
  constructor
  · rintro ⟨-, hle⟩
    have hle' : Y ≤ Y / (S : ℤ) * (S : ℤ) := by exact_mod_cast hle
    exact Dvd.intro_left (Y / (S : ℤ)) (le_antisymm h1 hle')
  · intro hd
    have he : Y / (S : ℤ) * (S : ℤ) = Y := Int.ediv_mul_cancel hd
    constructor
    · have h : (Y / (S : ℤ) - 1) * (S : ℤ) < Y := by
        rw [sub_mul, he]; omega
      exact_mod_cast h
    · have h : Y ≤ Y / (S : ℤ) * (S : ℤ) := he.ge
      exact_mod_cast h

/-- C6 fails as stated: with `I = 4`, `K = 1`, `S = 2`, `D = 1` and no padding
the code computes `ceil(4 / 2) = 2` while the first formula gives
`ceil(3/2 + 1) = 3`; with `I = 4`, `K = 2`, `S = 1`, `D = 1` and padding
`(0, 1)` the code computes `5` while the first formula gives `4`. -/
theorem conv_size_formulas_disagree :
    (calculate_conv_output_size 4 1 (max 0 0) 2 1 = 2 ∧ conv_output_size_spec 4 1 0 0 2 1 = 3) ∧
      (calculate_conv_output_size 4 2 (max 0 1) 1 1 = 5 ∧
        conv_output_size_spec 4 2 0 1 1 1 = 4) := by
  refine ⟨⟨?_, ?_⟩, ⟨?_, ?_⟩⟩
  · exact calculate_conv_output_size_eq 4 1 (max 0 0) 2 1 4 (by decide) (by decide)
      (by decide) (by decide)
  · unfold conv_output_size_spec
    rw [Int.ceil_eq_iff]; norm_num
  · exact calculate_conv_output_size_eq 4 2 (max 0 1) 1 1 5 (by decide) (by decide)
      (by decide) (by decide)
  · unfold conv_output_size_spec
    rw [Int.ceil_eq_iff]; norm_num

/-- C6 (amended). For equal front and back padding `p`, a stride of at least
one and a non-negative extent `X = I + 2*p - D*(K-1)` (both below `2^24`),
`calculate_conv_output_size` equals `floor((X - 1) / S) + 1`; it equals the
first formula of the specification, `ceil((I + p + p - D*(K-1) - 1)/S + 1)`,
exactly when the stride divides `X - 1`. -/
theorem conv_size_formulas_agree_iff (I K p S D : Nat) (h0 : 0 ≤ conv_extent I K p D)
    (h24 : conv_extent I K p D < 16777216) (hS : 1 ≤ S) (hS24 : S < 16777216) :
    ((calculate_conv_output_size I K (max p p) S D : ℕ) : ℤ) =
        ⌊((conv_extent I K p D - 1 : ℤ) : ℚ) / (S : ℚ)⌋ + 1 ∧
      (((calculate_conv_output_size I K (max p p) S D : ℕ) : ℤ) =
          conv_output_size_spec I K p p S D ↔ (S : ℤ) ∣ conv_extent I K p D - 1) := by
  have hcode : ((calculate_conv_output_size I K (max p p) S D : ℕ) : ℤ) =
      ⌊((conv_extent I K p D - 1 : ℤ) : ℚ) / (S : ℚ)⌋ + 1 := by
    rw [Nat.max_self, calculate_conv_output_size_ceil I K p S D h0 h24 hS hS24]
    exact ceil_eq_floor_pred_add_one _ S hS
  refine ⟨hcode, ?_⟩
  have hspec : conv_output_size_spec I K p p S D =
      ⌈((conv_extent I K p D - 1 : ℤ) : ℚ) / (S : ℚ)⌉ + 1 := by
    unfold conv_output_size_spec conv_extent
    rw [Int.ceil_add_one]
    have : (I : ℤ) + (p : ℤ) + (p : ℤ) - (D : ℤ) * ((K : ℤ) - 1) - 1 =
        (I : ℤ) + 2 * (p : ℤ) - (D : ℤ) * ((K : ℤ) - 1) - 1 := by ring
    rw [this]
  rw [hcode, hspec, add_left_inj]
  exact floor_eq_ceil_iff_dvd _ S hS

/-- Witness of C6 (amended): a 3-wide kernel with padding 1 and stride 2 on a
7-wide input, where the stride divides `X - 1 = 6`. -/
theorem conv_size_formulas_agree_iff_witness :
    ((calculate_conv_output_size 7 3 (max 1 1) 2 1 : ℕ) : ℤ) =
        ⌊((conv_extent 7 3 1 1 - 1 : ℤ) : ℚ) / ((2 : ℕ) : ℚ)⌋ + 1 ∧
      (((calculate_conv_output_size 7 3 (max 1 1) 2 1 : ℕ) : ℤ) =
          conv_output_size_spec 7 3 1 1 2 1 ↔ ((2 : ℕ) : ℤ) ∣ conv_extent 7 3 1 1 - 1) :=
  conv_size_formulas_agree_iff 7 3 1 2 1 (by decide) (by decide) (by decide) (by decide)

/-! ## Output size of the transposed convolution -/

/-- `calculate_deconv_output_size` is `(I-1)*S - 2*pad + K` modulo `2^32`, and
exactly that integer when it lies in the 32-bit range. -/
theorem calculate_deconv_output_size_exact (I K p S : Nat)
    (h0 : 0 ≤ deconv_extent I K p S) (h32 : deconv_extent I K p S < 4294967296) :
    ((calculate_deconv_output_size I K p S : ℕ) : ℤ) = deconv_extent I K p S := by
  rw [deconv_output_cast]
  exact Int.emod_eq_of_lt h0 h32

/-- C7. The output tensor that `add_conv2d_transpose` creates has, along each
axis and for every input size, kernel size, stride and padding, the size
`(I - 1)*S - 2*max(pad_front, pad_back) + K` reduced modulo `2^32`; along an
axis where that integer is non-negative and fits in 32 bits (in particular
when `(I-1)*S + K ≥ 2*max(pad_front, pad_back)` and nothing overflows) the
size is exactly `(I - 1)*S - 2*max(pad_front, pad_back) + K`. -/
theorem conv2d_transpose_output_size (validate : IFunction → Option String) (net : ACLNetwork)
    (input : TensorRef) (kernel_width kernel_height output_features : Nat)
    (pad_x_front pad_x_back pad_y_front pad_y_back stride_x stride_y : Nat)
    (kernel_values bias_values : List ℚ) :
    ((((net.add_conv2d_transpose validate input kernel_width kernel_height output_features
        pad_x_front pad_x_back pad_y_front pad_y_back stride_x stride_y kernel_values
        bias_values).2.info.dim 1 : ℕ) : ℤ) =
      deconv_extent (input.info.dim 1) kernel_width (max pad_x_front pad_x_back) stride_x
        % 4294967296 ∧
    (((net.add_conv2d_transpose validate input kernel_width kernel_height output_features
        pad_x_front pad_x_back pad_y_front pad_y_back stride_x stride_y kernel_values
        bias_values).2.info.dim 2 : ℕ) : ℤ) =
      deconv_extent (input.info.dim 2) kernel_height (max pad_y_front pad_y_back) stride_y
        % 4294967296) ∧
    (0 ≤ deconv_extent (input.info.dim 1) kernel_width (max pad_x_front pad_x_back) stride_x →
      deconv_extent (input.info.dim 1) kernel_width (max pad_x_front pad_x_back) stride_x
        < 4294967296 →
      (((net.add_conv2d_transpose validate input kernel_width kernel_height output_features
        pad_x_front pad_x_back pad_y_front pad_y_back stride_x stride_y kernel_values
        bias_values).2.info.dim 1 : ℕ) : ℤ) =
      deconv_extent (input.info.dim 1) kernel_width (max pad_x_front pad_x_back) stride_x) ∧
    (0 ≤ deconv_extent (input.info.dim 2) kernel_height (max pad_y_front pad_y_back) stride_y →
      deconv_extent (input.info.dim 2) kernel_height (max pad_y_front pad_y_back) stride_y
        < 4294967296 →
      (((net.add_conv2d_transpose validate input kernel_width kernel_height output_features
        pad_x_front pad_x_back pad_y_front pad_y_back stride_x stride_y kernel_values
        bias_values).2.info.dim 2 : ℕ) : ℤ) =
      deconv_extent (input.info.dim 2) kernel_height (max pad_y_front pad_y_back) stride_y) := by
  have d1 : ∀ (a b c : Nat), TensorInfo.dim ⟨[a, b, c], DataType.F32⟩ 1 = b := fun _ _ _ => rfl
  have d2 : ∀ (a b c : Nat), TensorInfo.dim ⟨[a, b, c], DataType.F32⟩ 2 = c := fun _ _ _ => rfl
  have e := add_conv2d_transpose_output_info validate net input kernel_width kernel_height
    output_features pad_x_front pad_x_back pad_y_front pad_y_back stride_x stride_y
    kernel_values bias_values
  rw [e, d1, d2, calculate_deconv_output_size_to_u32, calculate_deconv_output_size_to_u32]
  exact ⟨⟨deconv_output_cast _ _ _ _, deconv_output_cast _ _ _ _⟩,
    fun hx0 hx32 => calculate_deconv_output_size_exact _ _ _ _ hx0 hx32,
    fun hy0 hy32 => calculate_deconv_output_size_exact _ _ _ _ hy0 hy32⟩

/-- Witness of C7: a `4 x 4` transposed convolution with padding 1 and stride
2 on a `128 x 128` input gives a `256 x 256` output; a `1 x 1` transposed
convolution with padding 1 and stride 1 on a `1 x 1` input, where
`(I - 1)*S - 2*pad + K = -1`, gives the output width `2^32 - 1`. -/
theorem conv2d_transpose_output_size_witness :
    ((((ACLNetwork.mk [] [] []).add_conv2d_transpose (fun _ => none)
        ⟨TensorId.external 0, ⟨[1, 128, 128], DataType.F32⟩⟩ 4 4 1 1 1 1 1 2 2
        [1, 2, 3, 4, 5, 6, 7, 8, 9, 10, 11, 12, 13, 14, 15, 16] [0]).2.info.dim 1 : ℕ) : ℤ)
        = deconv_extent 128 4 (max 1 1) 2 ∧
      deconv_extent 128 4 (max 1 1) 2 = 256 ∧
      ((((ACLNetwork.mk [] [] []).add_conv2d_transpose (fun _ => none)
        ⟨TensorId.external 0, ⟨[1, 1, 1], DataType.F32⟩⟩ 1 1 1 1 1 1 1 1 1 [1]
        [0]).2.info.dim 1 : ℕ) : ℤ) = deconv_extent 1 1 (max 1 1) 1 % 4294967296 ∧
      deconv_extent 1 1 (max 1 1) 1 = -1 ∧
      deconv_extent 1 1 (max 1 1) 1 % 4294967296 = 4294967295 :=
  ⟨(conv2d_transpose_output_size (fun _ => none) (ACLNetwork.mk [] [] [])
      ⟨TensorId.external 0, ⟨[1, 128, 128], DataType.F32⟩⟩ 4 4 1 1 1 1 1 2 2
      [1, 2, 3, 4, 5, 6, 7, 8, 9, 10, 11, 12, 13, 14, 15, 16] [0]).2.1
      (by decide) (by decide),
    by decide,
    (conv2d_transpose_output_size (fun _ => none) (ACLNetwork.mk [] [] [])
      ⟨TensorId.external 0, ⟨[1, 1, 1], DataType.F32⟩⟩ 1 1 1 1 1 1 1 1 1 [1] [0]).1.1,
    by decide, by decide⟩

/-- Where the container's transposed size is right: with the padding of
`calculate_padding` for dilation 1 (no overflow), equal front and back pads
give an output size `O` with `ceil(O / S) = I`. -/
theorem deconv_output_size_of_symmetric (I K S : Nat) (hI : 1 ≤ I) (hK : 1 ≤ K) (hS : 1 ≤ S)
    (hfit : padding_fits I K S 1) (h32 : I * S < 4294967296)
    (hsym : (calculate_padding I K S 1 Padding.SAME).1 =
      (calculate_padding I K S 1 Padding.SAME).2) :
    ⌈((calculate_deconv_output_size I K (max (calculate_padding I K S 1 Padding.SAME).1
      (calculate_padding I K S 1 Padding.SAME).2) S : ℕ) : ℚ) / (S : ℚ)⌉₊ = I := by
  rw [nat_ceil_div _ S hS]
  obtain ⟨hm1, hm2, hm3⟩ := ceil_div_bracket I S hI hS
  have hpad := calculate_padding_same_eq I K S 1 hI hK hS (le_refl 1) hfit
  have hK1 : K + (1 - 1) * (K - 1) = K := by simp
  rw [hK1] at hpad
  rw [hpad] at hsym ⊢
  have hmul : (I + 1) * S = I * S + S := by rw [Nat.add_mul, Nat.one_mul]
  have hIS : ((I : ℤ) - 1) * (S : ℤ) = ((I * S : ℕ) : ℤ) - (S : ℤ) := by push_cast; ring
  have hle : S ≤ I * S := Nat.le_mul_of_pos_left S hI
  clear hpad hfit hK1
  generalize (I + S - 1) / S * S = m at hm1 hm2 hm3 hsym ⊢
  have key : ∀ p : Nat, 2 * p ≤ I * S - S + K → I * S + 1 ≤ I * S - S + K - 2 * p + S →
      I * S - S + K - 2 * p ≤ I * S →
      (calculate_deconv_output_size I K p S + S - 1) / S = I := by
    intro p h1 h2 h3
    have hcode : calculate_deconv_output_size I K p S = I * S - S + K - 2 * p := by
      have h := calculate_deconv_output_size_exact I K p S
        (by unfold deconv_extent; rw [hIS]; omega) (by unfold deconv_extent; rw [hIS]; omega)
      unfold deconv_extent at h
      rw [hIS] at h
      omega
    rw [hcode]
    apply Nat.div_eq_of_lt_le
    · omega
    · rw [hmul]; omega
  by_cases hgt : m - S + K > I
  · simp only [hgt, if_true] at hsym ⊢
    apply key <;> omega
  · simp only [hgt, if_false] at hsym ⊢
    apply key <;> omega

/-- C8. For a 5-wide input of a transposed convolution with a 4-wide kernel
and stride 2 the padding computed from that input size is `(1, 2)`, the output
size is `calculate_deconv_output_size 5 4 (max 1 2) 2 = 8`, and
`ceil(8 / 2) = 4`, not `5`.  The example of the specification holds: for
`I = 128`, `K = 4`, `S = 2` the padding is `(1, 1)`, the output size `256`
and `ceil(256 / 2) = 128`. -/
theorem deconv_output_size_at_odd_padding :
    calculate_padding 5 4 2 1 Padding.SAME = (1, 2) ∧
      calculate_deconv_output_size 5 4 (max 1 2) 2 = 8 ∧ ⌈(8 : ℚ) / (2 : ℚ)⌉₊ = 4 ∧
      calculate_padding 128 4 2 1 Padding.SAME = (1, 1) ∧
      calculate_deconv_output_size 128 4 (max 1 1) 2 = 256 ∧ ⌈(256 : ℚ) / (2 : ℚ)⌉₊ = 128 := by
  refine ⟨by decide, by decide, ?_, by decide, by decide, ?_⟩
  · norm_num
  · norm_num

/-! ## Kernel value reordering -/

theorem transpose_kernel_values_ok {α : Type} (values : List α) (W H C F : Nat)
    (hlen : values.length = W * H * C * F) (hfit : kernel_fits W H C F) :
    remap_ok values H W C F (W * H * C * F)
      (fun y x c f => u32_add (u32_mul (u32_add (u32_mul (u32_add (u32_mul y W) x) C) c) F) f)
      (fun y x c f => u32_add (u32_mul (u32_add (u32_mul (u32_add (u32_mul f H) y) W) x) C) c) := by
  obtain ⟨hW, hH, hC, hF, hL⟩ := hfit
  have h32 := int_range_lt_u32
  have hsrc : ∀ y x c f, y < H → x < W → c < C → f < F →
      u32_add (u32_mul (u32_add (u32_mul (u32_add (u32_mul y W) x) C) c) F) f =
        ((y * W + x) * C + c) * F + f ∧ ((y * W + x) * C + c) * F + f < W * H * C * F := by
    intro y x c f hy hx hc hf
    have hlt : ((y * W + x) * C + c) * F + f < W * H * C * F := by
      rw [Nat.mul_comm W H]; exact index_lt hy hx hc hf
    exact ⟨u32_index_eq (by omega) (by omega) (by omega), hlt⟩
  have hdst : ∀ y x c f, y < H → x < W → c < C → f < F →
      u32_add (u32_mul (u32_add (u32_mul (u32_add (u32_mul f H) y) W) x) C) c =
        ((f * H + y) * W + x) * C + c ∧ ((f * H + y) * W + x) * C + c < W * H * C * F := by
    intro y x c f hy hx hc hf
    have hlt : ((f * H + y) * W + x) * C + c < W * H * C * F := by
      have := index_lt hf hy hx hc
      have he : F * H * W * C = W * H * C * F := by ring
      rw [he] at this; exact this
    exact ⟨u32_index_eq (by omega) (by omega) (by omega), hlt⟩
  refine ⟨hH, hW, hC, hF, hL, hlen, ?_, ?_, ?_⟩
  · intro y x c f hy hx hc hf
    rw [(hsrc y x c f hy hx hc hf).1]; exact (hsrc y x c f hy hx hc hf).2
  · intro y x c f hy hx hc hf
    rw [(hdst y x c f hy hx hc hf).1]; exact (hdst y x c f hy hx hc hf).2
  · intro y x c f y' x' c' f' hy hx hc hf hy' hx' hc' hf' h
    rw [(hdst y x c f hy hx hc hf).1, (hdst y' x' c' f' hy' hx' hc' hf').1] at h
    obtain ⟨h1, h2, h3, h4⟩ := index_inj hy hx hc hy' hx' hc' h
    exact ⟨h2, h3, h4, h1⟩

/-- A loop whose bound is beyond the `int` range has no result. -/
theorem for_int_none {σ : Type} (n : Nat) (hn : INT_RANGE ≤ n) (body : Nat → σ → Option σ)
    (s : σ) : for_int n body s = none := by
  unfold for_int
  rw [if_neg (by omega)]

/-- A loop that runs once is its body at counter `0`. -/
theorem for_int_one {σ : Type} (body : Nat → σ → Option σ) (s : σ) :
    for_int 1 body s = body 0 s := by
  unfold for_int
  rw [if_pos (by decide)]
  cases h : body 0 s <;> simp [List.range_succ, h]

theorem transpose_kernel_values_wide {α : Type} [Zero α] (values : List α) :
    transpose_kernel_values values 2147483649 1 1 1 = none := by
  unfold transpose_kernel_values
  rw [for_int_one]
  exact for_int_none _ (by decide) _ _

theorem transpose_deconv_kernel_values_high {α : Type} [Zero α] (values : List α) :
    transpose_deconv_kernel_values values 1 2147483649 1 1 = none := by
  unfold transpose_deconv_kernel_values
  exact for_int_none _ (by decide) _ _

/-- C9 fails beyond the range of `int`: for a kernel of width `2^31 + 1` (height,
channels and features 1) and an array of that length, the counter `x` of
`for (int x = 0; x < width; x++)` cannot reach the width, and the index it
would have to take is negative as an `int`; the call has no result. -/
theorem transpose_kernel_values_fails_beyond_int :
    (List.replicate 2147483649 (0 : ℚ)).length = 2147483649 * 1 * 1 * 1 ∧
      transpose_kernel_values (List.replicate 2147483649 (0 : ℚ)) 2147483649 1 1 1 = none := by
  exact ⟨List.length_replicate _ _, transpose_kernel_values_wide _⟩

/-- C9 (amended). `transpose_kernel_values` reorders into output-features-major
layout: for `W`, `H`, `C`, `F` and `W*H*C*F` below `2^31` (the range of the
`int` loop counters and indices) and an array of length `W*H*C*F`, the call
returns, the result has the same length, and for all `y < H`, `x < W`,
`c < C`, `f < F` the element at `((f*H + y)*W + x)*C + c` of the result is the
element at `((y*W + x)*C + c)*F + f` of the input. -/
theorem transpose_kernel_values_layout {α : Type} [Zero α] (values : List α) (W H C F : Nat)
    (hlen : values.length = W * H * C * F) (hfit : kernel_fits W H C F) :
    ∃ result, transpose_kernel_values values W H C F = some result ∧
      result.length = values.length ∧
      ∀ y x c f, y < H → x < W → c < C → f < F →
        ∃ v, values[((y * W + x) * C + c) * F + f]? = some v ∧
          result[((f * H + y) * W + x) * C + c]? = some v := by
  have ok := transpose_kernel_values_ok values W H C F hlen hfit
  obtain ⟨r, hr, hrlen, hget⟩ := remap_loops_spec ok (List.replicate values.length 0)
    (by rw [List.length_replicate, hlen])
  refine ⟨r, hr, by rw [hrlen, hlen], ?_⟩
  intro y x c f hy hx hc hf
  have h32 := int_range_lt_u32
  have hL := ok.hL
  have hs : ((y * W + x) * C + c) * F + f < W * H * C * F := by
    rw [Nat.mul_comm W H]; exact index_lt hy hx hc hf
  have hd : ((f * H + y) * W + x) * C + c < W * H * C * F := by
    have := index_lt hf hy hx hc
    have he : F * H * W * C = W * H * C * F := by ring
    rw [he] at this; exact this
  have hse : u32_add (u32_mul (u32_add (u32_mul (u32_add (u32_mul y W) x) C) c) F) f =
      ((y * W + x) * C + c) * F + f := u32_index_eq (by omega) (by omega) (by omega)
  have hde : u32_add (u32_mul (u32_add (u32_mul (u32_add (u32_mul f H) y) W) x) C) c =
      ((f * H + y) * W + x) * C + c := u32_index_eq (by omega) (by omega) (by omega)
  have hg := hget y x c f hy hx hc hf
  simp only [hse, hde] at hg
  have hslen : ((y * W + x) * C + c) * F + f < values.length := by rw [hlen]; exact hs
  exact ⟨values.get ⟨_, hslen⟩, List.getElem?_eq_getElem hslen,
    by rw [hg]; exact List.getElem?_eq_getElem hslen⟩

/-- Witness of C9 (amended) on a `2 x 1` kernel with two input channels and two output
features. -/
theorem transpose_kernel_values_layout_witness :
    ∃ result, transpose_kernel_values [10, 11, 12, 13, 14, 15, 16, 17] 2 1 2 2 = some result ∧
      result.length = [10, 11, 12, 13, 14, 15, 16, 17].length ∧
      ∀ y x c f, y < 1 → x < 2 → c < 2 → f < 2 →
        ∃ v, [10, 11, 12, 13, 14, 15, 16, 17][((y * 2 + x) * 2 + c) * 2 + f]? = some v ∧
          result[((f * 1 + y) * 2 + x) * 2 + c]? = some v :=
  transpose_kernel_values_layout ([10, 11, 12, 13, 14, 15, 16, 17] : List Nat) 2 1 2 2
    (by decide) (by decide)

theorem transpose_deconv_kernel_values_ok {α : Type} (values : List α) (W H C F : Nat)
    (hlen : values.length = W * H * C * F) (hfit : kernel_fits W H C F) :
    remap_ok values H W C F (W * H * C * F)
      (fun y x c f => u32_add (u32_mul (u32_add (u32_mul (u32_add (u32_mul y W) x) C) c) F) f)
      (fun y x c f => u32_add (u32_mul (u32_add (u32_mul (u32_add (u32_mul c H) y) W) x) F) f) := by
  obtain ⟨hW, hH, hC, hF, hL⟩ := hfit
  have h32 := int_range_lt_u32
  have hsrc : ∀ y x c f, y < H → x < W → c < C → f < F →
      u32_add (u32_mul (u32_add (u32_mul (u32_add (u32_mul y W) x) C) c) F) f =
        ((y * W + x) * C + c) * F + f ∧ ((y * W + x) * C + c) * F + f < W * H * C * F := by
    intro y x c f hy hx hc hf
    have hlt : ((y * W + x) * C + c) * F + f < W * H * C * F := by
      rw [Nat.mul_comm W H]; exact index_lt hy hx hc hf
    exact ⟨u32_index_eq (by omega) (by omega) (by omega), hlt⟩
  have hdst : ∀ y x c f, y < H → x < W → c < C → f < F →
      u32_add (u32_mul (u32_add (u32_mul (u32_add (u32_mul c H) y) W) x) F) f =
        ((c * H + y) * W + x) * F + f ∧ ((c * H + y) * W + x) * F + f < W * H * C * F := by
    intro y x c f hy hx hc hf
    have hlt : ((c * H + y) * W + x) * F + f < W * H * C * F := by
      have := index_lt hc hy hx hf
      have he : C * H * W * F = W * H * C * F := by ring
      rw [he] at this; exact this
    exact ⟨u32_index_eq (by omega) (by omega) (by omega), hlt⟩
  refine ⟨hH, hW, hC, hF, hL, hlen, ?_, ?_, ?_⟩
  · intro y x c f hy hx hc hf
    rw [(hsrc y x c f hy hx hc hf).1]; exact (hsrc y x c f hy hx hc hf).2
  · intro y x c f hy hx hc hf
    rw [(hdst y x c f hy hx hc hf).1]; exact (hdst y x c f hy hx hc hf).2
  · intro y x c f y' x' c' f' hy hx hc hf hy' hx' hc' hf' h
    rw [(hdst y x c f hy hx hc hf).1, (hdst y' x' c' f' hy' hx' hc' hf').1] at h
    obtain ⟨h1, h2, h3, h4⟩ := index_inj hy hx hf hy' hx' hf' h
    exact ⟨h2, h3, h1, h4⟩

/-- C10 fails beyond the range of `int`: for a kernel of height `2^31 + 1`
(width, channels and features 1) and an array of that length, the counter `y`
of `for (int y = 0; y < height; y++)` cannot reach the height, and the index
it would have to take is negative as an `int`; the call has no result. -/
theorem transpose_deconv_kernel_values_fails_beyond_int :
    (List.replicate 2147483649 (0 : ℚ)).length = 1 * 2147483649 * 1 * 1 ∧
      transpose_deconv_kernel_values (List.replicate 2147483649 (0 : ℚ)) 1 2147483649 1 1
        = none := by
  exact ⟨List.length_replicate _ _, transpose_deconv_kernel_values_high _⟩

/-- C10 (amended). `transpose_deconv_kernel_values` reorders into
input-channels-major layout: for `W`, `H`, `C`, `F` and `W*H*C*F` below `2^31`
(the range of the `int` loop counters and indices) and an array of length
`W*H*C*F`, the call returns, the result has the same length, and for all
`y < H`, `x < W`, `c < C`, `f < F` the element at `((c*H + y)*W + x)*F + f` of
the result is the element at `((y*W + x)*C + c)*F + f` of the input. -/
theorem transpose_deconv_kernel_values_layout {α : Type} [Zero α] (values : List α)
    (W H C F : Nat) (hlen : values.length = W * H * C * F) (hfit : kernel_fits W H C F) :
    ∃ result, transpose_deconv_kernel_values values W H C F = some result ∧
      result.length = values.length ∧
      ∀ y x c f, y < H → x < W → c < C → f < F →
        ∃ v, values[((y * W + x) * C + c) * F + f]? = some v ∧
          result[((c * H + y) * W + x) * F + f]? = some v := by
  have ok := transpose_deconv_kernel_values_ok values W H C F hlen hfit
  obtain ⟨r, hr, hrlen, hget⟩ := remap_loops_spec ok (List.replicate values.length 0)
    (by rw [List.length_replicate, hlen])
  refine ⟨r, hr, by rw [hrlen, hlen], ?_⟩
  intro y x c f hy hx hc hf
  have h32 := int_range_lt_u32
  have hL := ok.hL
  have hs : ((y * W + x) * C + c) * F + f < W * H * C * F := by
    rw [Nat.mul_comm W H]; exact index_lt hy hx hc hf
  have hd : ((c * H + y) * W + x) * F + f < W * H * C * F := by
    have := index_lt hc hy hx hf
    have he : C * H * W * F = W * H * C * F := by ring
    rw [he] at this; exact this
  have hse : u32_add (u32_mul (u32_add (u32_mul (u32_add (u32_mul y W) x) C) c) F) f =
      ((y * W + x) * C + c) * F + f := u32_index_eq (by omega) (by omega) (by omega)
  have hde : u32_add (u32_mul (u32_add (u32_mul (u32_add (u32_mul c H) y) W) x) F) f =
      ((c * H + y) * W + x) * F + f := u32_index_eq (by omega) (by omega) (by omega)
  have hg := hget y x c f hy hx hc hf
  simp only [hse, hde] at hg
  have hslen : ((y * W + x) * C + c) * F + f < values.length := by rw [hlen]; exact hs
  exact ⟨values.get ⟨_, hslen⟩, List.getElem?_eq_getElem hslen,
    by rw [hg]; exact List.getElem?_eq_getElem hslen⟩

/-- Witness of C10 (amended) on a `1 x 2` kernel with two input channels and three
output features. -/
theorem transpose_deconv_kernel_values_layout_witness :
    ∃ result, transpose_deconv_kernel_values
        [20, 21, 22, 23, 24, 25, 26, 27, 28, 29, 30, 31] 1 2 2 3 = some result ∧
      result.length = [20, 21, 22, 23, 24, 25, 26, 27, 28, 29, 30, 31].length ∧
      ∀ y x c f, y < 2 → x < 1 → c < 2 → f < 3 →
        ∃ v, [20, 21, 22, 23, 24, 25, 26, 27, 28, 29, 30, 31][((y * 1 + x) * 2 + c) * 3 + f]?
            = some v ∧
          result[((c * 2 + y) * 1 + x) * 3 + f]? = some v :=
  transpose_deconv_kernel_values_layout
    ([20, 21, 22, 23, 24, 25, 26, 27, 28, 29, 30, 31] : List Nat) 1 2 2 3 (by decide) (by decide)

/-- The reordering for transposed convolutions on a concrete `1 x 2` kernel. -/
theorem transpose_deconv_kernel_values_example : transpose_deconv_kernel_values
    ([20, 21, 22, 23, 24, 25, 26, 27, 28, 29, 30, 31] : List Nat) 1 2 2 3
    = some [20, 21, 22, 26, 27, 28, 23, 24, 25, 29, 30, 31] := by decide

/-- The reordering for convolutions on a concrete `2 x 1` kernel. -/
theorem transpose_kernel_values_example :
    transpose_kernel_values ([10, 11, 12, 13, 14, 15, 16, 17] : List Nat) 2 1 2 2
    = some [10, 12, 14, 16, 11, 13, 15, 17] := by decide

/-! ## The kernel reorder as a permutation -/

/-- Splitting a number into four mixed-radix digits and putting them together
again gives the number back. -/
theorem digits_encode (n B C D : Nat) :
    ((n / (D * C * B) * B + n / (D * C) % B) * C + n / D % C) * D + n % D = n := by
  rw [← Nat.div_div_eq_div_mul, ← Nat.div_div_eq_div_mul,
    Nat.div_add_mod', Nat.div_add_mod', Nat.div_add_mod']

/-- The digits of a number below `A*B*C*D` are below their radices. -/
theorem digits_lt {n A B C D : Nat} (h : n < A * B * C * D) :
    n / (D * C * B) < A ∧ n / (D * C) % B < B ∧ n / D % C < C ∧ n % D < D := by
  have hD : 0 < D := by
    rcases Nat.eq_zero_or_pos D with h0 | h0
    · subst h0; simp at h
    · exact h0
  have hC : 0 < C := by
    rcases Nat.eq_zero_or_pos C with h0 | h0
    · subst h0; simp at h
    · exact h0
  have hB : 0 < B := by
    rcases Nat.eq_zero_or_pos B with h0 | h0
    · subst h0; simp at h
    · exact h0
  refine ⟨?_, Nat.mod_lt _ hB, Nat.mod_lt _ hC, Nat.mod_lt _ hD⟩
  rw [Nat.div_lt_iff_lt_mul (by positivity)]
  have e : A * (D * C * B) = A * B * C * D := by ring
  rw [e]; exact h

/-- The digits of a number put together from four digits are those digits. -/
theorem digits_decode {a b c d B C D : Nat} (hb : b < B) (hc : c < C) (hd : d < D) :
    (((a * B + b) * C + c) * D + d) / (D * C * B) = a ∧
      (((a * B + b) * C + c) * D + d) / (D * C) % B = b ∧
      (((a * B + b) * C + c) * D + d) / D % C = c ∧
      (((a * B + b) * C + c) * D + d) % D = d := by
  have h1 : (((a * B + b) * C + c) * D + d) / D = (a * B + b) * C + c := by
    rw [Nat.add_comm, Nat.add_mul_div_right _ _ (by omega), Nat.div_eq_of_lt hd, Nat.zero_add]
  have h2 : ((a * B + b) * C + c) / C = a * B + b := by
    rw [Nat.add_comm, Nat.add_mul_div_right _ _ (by omega), Nat.div_eq_of_lt hc, Nat.zero_add]
  have h3 : (a * B + b) / B = a := by
    rw [Nat.add_comm, Nat.add_mul_div_right _ _ (by omega), Nat.div_eq_of_lt hb, Nat.zero_add]
  refine ⟨?_, ?_, ?_, ?_⟩
  · rw [← Nat.div_div_eq_div_mul, ← Nat.div_div_eq_div_mul, h1, h2, h3]
  · rw [← Nat.div_div_eq_div_mul, h1, h2, Nat.add_comm, Nat.add_mul_mod_self_right,
      Nat.mod_eq_of_lt hb]
  · rw [h1, Nat.add_comm, Nat.add_mul_mod_self_right, Nat.mod_eq_of_lt hc]
  · rw [Nat.add_comm, Nat.add_mul_mod_self_right, Nat.mod_eq_of_lt hd]

theorem kernel_dst_of_src_lt {W H C F i : Nat} (h : i < W * H * C * F) :
    kernel_dst_of_src W H C F i < W * H * C * F := by
  have h' : i < H * W * C * F := by rw [Nat.mul_comm H W]; exact h
  obtain ⟨hy, hx, hc, hf⟩ := digits_lt h'
  have := index_lt hf hy hx hc
  have e : F * H * W * C = W * H * C * F := by ring
  rw [e] at this
  exact this

theorem kernel_src_of_dst_of_src {W H C F i : Nat} (h : i < W * H * C * F) :
    kernel_src_of_dst W H C F (kernel_dst_of_src W H C F i) = i := by
  have h' : i < H * W * C * F := by rw [Nat.mul_comm H W]; exact h
  obtain ⟨hy, hx, hc, -⟩ := digits_lt h'
  obtain ⟨d1, d2, d3, d4⟩ := digits_decode (a := i % F) hy hx hc
  unfold kernel_src_of_dst kernel_dst_of_src
  rw [d1, d2, d3, d4]
  exact digits_encode i W C F

theorem kernel_src_of_dst_lt {W H C F j : Nat} (h : j < W * H * C * F) :
    kernel_src_of_dst W H C F j < W * H * C * F := by
  have h' : j < F * H * W * C := by
    have e : F * H * W * C = W * H * C * F := by ring
    rw [e]; exact h
  obtain ⟨hf, hy, hx, hc⟩ := digits_lt h'
  have := index_lt hy hx hc hf
  rw [Nat.mul_comm H W] at this
  exact this

theorem kernel_dst_of_src_of_dst {W H C F j : Nat} (h : j < W * H * C * F) :
    kernel_dst_of_src W H C F (kernel_src_of_dst W H C F j) = j := by
  have h' : j < F * H * W * C := by
    have e : F * H * W * C = W * H * C * F := by ring
    rw [e]; exact h
  obtain ⟨hf, hy, hx, hc⟩ := digits_lt h'
  obtain ⟨d1, d2, d3, d4⟩ := digits_decode (a := j / (C * W) % H) hx hc hf
  unfold kernel_dst_of_src kernel_src_of_dst
  rw [d1, d2, d3, d4]
  exact digits_encode j H W C

theorem deconv_dst_of_src_lt {W H C F i : Nat} (h : i < W * H * C * F) :
    deconv_dst_of_src W H C F i < W * H * C * F := by
  have h' : i < H * W * C * F := by rw [Nat.mul_comm H W]; exact h
  obtain ⟨hy, hx, hc, hf⟩ := digits_lt h'
  have := index_lt hc hy hx hf
  have e : C * H * W * F = W * H * C * F := by ring
  rw [e] at this
  exact this

theorem deconv_src_of_dst_of_src {W H C F i : Nat} (h : i < W * H * C * F) :
    deconv_src_of_dst W H C F (deconv_dst_of_src W H C F i) = i := by
  have h' : i < H * W * C * F := by rw [Nat.mul_comm H W]; exact h
  obtain ⟨hy, hx, -, hf⟩ := digits_lt h'
  obtain ⟨d1, d2, d3, d4⟩ := digits_decode (a := i / F % C) hy hx hf
  unfold deconv_src_of_dst deconv_dst_of_src
  rw [d1, d2, d3, d4]
  exact digits_encode i W C F

theorem deconv_src_of_dst_lt {W H C F j : Nat} (h : j < W * H * C * F) :
    deconv_src_of_dst W H C F j < W * H * C * F := by
  have h' : j < C * H * W * F := by
    have e : C * H * W * F = W * H * C * F := by ring
    rw [e]; exact h
  obtain ⟨hc, hy, hx, hf⟩ := digits_lt h'
  have := index_lt hy hx hc hf
  rw [Nat.mul_comm H W] at this
  exact this

theorem deconv_dst_of_src_of_dst {W H C F j : Nat} (h : j < W * H * C * F) :
    deconv_dst_of_src W H C F (deconv_src_of_dst W H C F j) = j := by
  have h' : j < C * H * W * F := by
    have e : C * H * W * F = W * H * C * F := by ring
    rw [e]; exact h
  obtain ⟨hc, hy, hx, hf⟩ := digits_lt h'
  obtain ⟨d1, d2, d3, d4⟩ := digits_decode (a := j / (F * W) % H) hx hc hf
  unfold deconv_dst_of_src deconv_src_of_dst
  rw [d1, d2, d3, d4]
  exact digits_encode j H W F

/-- Within the `int` range `transpose_kernel_values` returns an array of the
same length whose position `((f*H + y)*W + x)*C + c` reads the source position
`((y*W + x)*C + c)*F + f`. -/
theorem transpose_kernel_values_reads {α : Type} [Zero α] (values : List α) (W H C F : Nat)
    (hlen : values.length = W * H * C * F) (hfit : kernel_fits W H C F) :
    ∃ result, transpose_kernel_values values W H C F = some result ∧
      result.length = W * H * C * F ∧
      ∀ y x c f, y < H → x < W → c < C → f < F →
        result[((f * H + y) * W + x) * C + c]? = values[((y * W + x) * C + c) * F + f]? := by
  have ok := transpose_kernel_values_ok values W H C F hlen hfit
  obtain ⟨r, hr, hrlen, hget⟩ := remap_loops_spec ok (List.replicate values.length 0)
    (by rw [List.length_replicate, hlen])
  refine ⟨r, hr, hrlen, ?_⟩
  intro y x c f hy hx hc hf
  have h32 := int_range_lt_u32
  have hL := ok.hL
  have hs : ((y * W + x) * C + c) * F + f < W * H * C * F := by
    rw [Nat.mul_comm W H]; exact index_lt hy hx hc hf
  have hd : ((f * H + y) * W + x) * C + c < W * H * C * F := by
    have := index_lt hf hy hx hc
    have he : F * H * W * C = W * H * C * F := by ring
    rw [he] at this; exact this
  have hse : u32_add (u32_mul (u32_add (u32_mul (u32_add (u32_mul y W) x) C) c) F) f =
      ((y * W + x) * C + c) * F + f := u32_index_eq (by omega) (by omega) (by omega)
  have hde : u32_add (u32_mul (u32_add (u32_mul (u32_add (u32_mul f H) y) W) x) C) c =
      ((f * H + y) * W + x) * C + c := u32_index_eq (by omega) (by omega) (by omega)
  have hg := hget y x c f hy hx hc hf
  simp only [hse, hde] at hg
  exact hg

/-- Within the `int` range `transpose_deconv_kernel_values` returns an array of
the same length whose position `((c*H + y)*W + x)*F + f` reads the source
position `((y*W + x)*C + c)*F + f`. -/
theorem transpose_deconv_kernel_values_reads {α : Type} [Zero α] (values : List α)
    (W H C F : Nat) (hlen : values.length = W * H * C * F) (hfit : kernel_fits W H C F) :
    ∃ result, transpose_deconv_kernel_values values W H C F = some result ∧
      result.length = W * H * C * F ∧
      ∀ y x c f, y < H → x < W → c < C → f < F →
        result[((c * H + y) * W + x) * F + f]? = values[((y * W + x) * C + c) * F + f]? := by
  have ok := transpose_deconv_kernel_values_ok values W H C F hlen hfit
  obtain ⟨r, hr, hrlen, hget⟩ := remap_loops_spec ok (List.replicate values.length 0)
    (by rw [List.length_replicate, hlen])
  refine ⟨r, hr, hrlen, ?_⟩
  intro y x c f hy hx hc hf
  have h32 := int_range_lt_u32
  have hL := ok.hL
  have hs : ((y * W + x) * C + c) * F + f < W * H * C * F := by
    rw [Nat.mul_comm W H]; exact index_lt hy hx hc hf
  have hd : ((c * H + y) * W + x) * F + f < W * H * C * F := by
    have := index_lt hc hy hx hf
    have he : C * H * W * F = W * H * C * F := by ring
    rw [he] at this; exact this
  have hse : u32_add (u32_mul (u32_add (u32_mul (u32_add (u32_mul y W) x) C) c) F) f =
      ((y * W + x) * C + c) * F + f := u32_index_eq (by omega) (by omega) (by omega)
  have hde : u32_add (u32_mul (u32_add (u32_mul (u32_add (u32_mul c H) y) W) x) F) f =
      ((c * H + y) * W + x) * F + f := u32_index_eq (by omega) (by omega) (by omega)
  have hg := hget y x c f hy hx hc hf
  simp only [hse, hde] at hg
  exact hg

theorem transpose_kernel_values_deep {α : Type} [Zero α] (values : List α) :
    transpose_kernel_values values 1 1 2147483649 1 = none := by
  unfold transpose_kernel_values
  rw [for_int_one, for_int_one]
  exact for_int_none _ (by decide) _ _

theorem transpose_deconv_kernel_values_deep {α : Type} [Zero α] (values : List α) :
    transpose_deconv_kernel_values values 1 1 2147483649 1 = none := by
  unfold transpose_deconv_kernel_values
  rw [for_int_one, for_int_one]
  exact for_int_none _ (by decide) _ _

/-- C11 fails beyond the range of `int`: for a kernel with `2^31 + 1` input
channels (width, height and features 1) and an array of that length, the
counter `c` of `for (int c = 0; c < input_channels; c++)` cannot reach the
channel count; neither function has a result that could be read back. -/
theorem kernel_reorder_fails_beyond_int :
    (List.replicate 2147483649 (0 : ℚ)).length = 1 * 1 * 2147483649 * 1 ∧
      transpose_kernel_values (List.replicate 2147483649 (0 : ℚ)) 1 1 2147483649 1 = none ∧
      transpose_deconv_kernel_values (List.replicate 2147483649 (0 : ℚ)) 1 1 2147483649 1
        = none :=
  ⟨List.length_replicate _ _, transpose_kernel_values_deep _,
    transpose_deconv_kernel_values_deep _⟩

/-- C11 (amended). The kernel reorder is a bijection: for `W`, `H`, `C`, `F` and
`L = W*H*C*F` below `2^31` and every array of length `L`, for each of
`transpose_kernel_values` and `transpose_deconv_kernel_values` the
source-to-destination index map sends `{0, ..., L-1}` into itself with the
inverse index map as two-sided inverse (a permutation), the call returns an
array of length `L`, and reading the result at the destination of `i` gives
`values[i]` for every `i < L`; equivalently position `j` of the result holds
the element at the inverse image of `j`. -/
theorem kernel_reorder_bijection {α : Type} [Zero α] (values : List α) (W H C F : Nat)
    (hlen : values.length = W * H * C * F) (hfit : kernel_fits W H C F) :
    ((∀ i, i < W * H * C * F → kernel_dst_of_src W H C F i < W * H * C * F ∧
          kernel_src_of_dst W H C F (kernel_dst_of_src W H C F i) = i) ∧
      (∀ j, j < W * H * C * F → kernel_src_of_dst W H C F j < W * H * C * F ∧
          kernel_dst_of_src W H C F (kernel_src_of_dst W H C F j) = j) ∧
      ∃ result, transpose_kernel_values values W H C F = some result ∧
        result.length = W * H * C * F ∧
        (∀ i, i < W * H * C * F → result[kernel_dst_of_src W H C F i]? = values[i]?) ∧
        (∀ j, j < W * H * C * F → result[j]? = values[kernel_src_of_dst W H C F j]?)) ∧
    ((∀ i, i < W * H * C * F → deconv_dst_of_src W H C F i < W * H * C * F ∧
          deconv_src_of_dst W H C F (deconv_dst_of_src W H C F i) = i) ∧
      (∀ j, j < W * H * C * F → deconv_src_of_dst W H C F j < W * H * C * F ∧
          deconv_dst_of_src W H C F (deconv_src_of_dst W H C F j) = j) ∧
      ∃ result, transpose_deconv_kernel_values values W H C F = some result ∧
        result.length = W * H * C * F ∧
        (∀ i, i < W * H * C * F → result[deconv_dst_of_src W H C F i]? = values[i]?) ∧
        (∀ j, j < W * H * C * F → result[j]? = values[deconv_src_of_dst W H C F j]?)) := by
  constructor
  · obtain ⟨r, hr, hrlen, hget⟩ := transpose_kernel_values_reads values W H C F hlen hfit
    have hfwd : ∀ i, i < W * H * C * F → r[kernel_dst_of_src W H C F i]? = values[i]? := by
      intro i hi
      have h' : i < H * W * C * F := by rw [Nat.mul_comm H W]; exact hi
      obtain ⟨hy, hx, hc, hf⟩ := digits_lt h'
      have hg := hget _ _ _ _ hy hx hc hf
      rw [digits_encode i W C F] at hg
      exact hg
    refine ⟨fun i hi => ⟨kernel_dst_of_src_lt hi, kernel_src_of_dst_of_src hi⟩,
      fun j hj => ⟨kernel_src_of_dst_lt hj, kernel_dst_of_src_of_dst hj⟩, r, hr, hrlen, hfwd, ?_⟩
    intro j hj
    have := hfwd _ (kernel_src_of_dst_lt hj)
    rw [kernel_dst_of_src_of_dst hj] at this
    exact this
  · obtain ⟨r, hr, hrlen, hget⟩ := transpose_deconv_kernel_values_reads values W H C F hlen hfit
    have hfwd : ∀ i, i < W * H * C * F → r[deconv_dst_of_src W H C F i]? = values[i]? := by
      intro i hi
      have h' : i < H * W * C * F := by rw [Nat.mul_comm H W]; exact hi
      obtain ⟨hy, hx, hc, hf⟩ := digits_lt h'
      have hg := hget _ _ _ _ hy hx hc hf
      rw [digits_encode i W C F] at hg
      exact hg
    refine ⟨fun i hi => ⟨deconv_dst_of_src_lt hi, deconv_src_of_dst_of_src hi⟩,
      fun j hj => ⟨deconv_src_of_dst_lt hj, deconv_dst_of_src_of_dst hj⟩, r, hr, hrlen, hfwd, ?_⟩
    intro j hj
    have := hfwd _ (deconv_src_of_dst_lt hj)
    rw [deconv_dst_of_src_of_dst hj] at this
    exact this

/-- Witness of C11 (amended) on the array `0, 1, ..., 11` of sequential values
for a `2 x 1` kernel with three input channels and two output features:
reading the result of `transpose_kernel_values` at the destination of `i`
gives `i`. -/
theorem kernel_reorder_bijection_witness :
    ∃ result, transpose_kernel_values (List.range 12) 2 1 3 2 = some result ∧
      result.length = 2 * 1 * 3 * 2 ∧
      (∀ i, i < 2 * 1 * 3 * 2 → result[kernel_dst_of_src 2 1 3 2 i]? = (List.range 12)[i]?) ∧
      (∀ j, j < 2 * 1 * 3 * 2 → result[j]? = (List.range 12)[kernel_src_of_dst 2 1 3 2 j]?) :=
  (kernel_reorder_bijection (List.range 12) 2 1 3 2 (by decide) (by decide)).1.2.2

/-- The two reorders of the sequential array `0, 1, ..., 11`. -/
theorem kernel_reorder_sequential_example :
    transpose_kernel_values (List.range 12) 2 1 3 2
        = some [0, 2, 4, 6, 8, 10, 1, 3, 5, 7, 9, 11] ∧
      transpose_deconv_kernel_values (List.range 12) 2 1 3 2
        = some [0, 1, 6, 7, 2, 3, 8, 9, 4, 5, 10, 11] := by
  constructor <;> decide

/-! ## The importer: failures -/

theorem at_missing (tensors : TensorMap) (i : Int) (h : tensors.lookup i = none) :
    tensors.at i = Except.error (Fault.throws Exception.out_of_range) := by
  simp [TensorMap.at, h]

theorem at_present (tensors : TensorMap) (i : Int) (t : TensorRef)
    (h : tensors.lookup i = some t) : tensors.at i = Except.ok t := by
  simp [TensorMap.at, h]

theorem Get_some {α : Type} (vector : List α) (i : Nat) (a : α) (h : vector[i]? = some a) :
    Get vector i = Except.ok a := by
  simp [Get, h]

theorem conv_2d_arguments_missing (tensors : TensorMap) (model : Model) (subgraph : SubGraph)
    (op : Operator) (i : Int) (hi : op.inputs[0]? = some i) (h : tensors.lookup i = none) :
    conv_2d_arguments tensors model subgraph op
      = Except.error (Fault.throws Exception.out_of_range) := by
  unfold conv_2d_arguments
  rw [Get_some _ _ _ hi]
  simp only [bind, Except.bind, at_missing _ _ h]

theorem depthwise_conv_2d_arguments_missing (tensors : TensorMap) (model : Model)
    (subgraph : SubGraph) (op : Operator) (i : Int) (hi : op.inputs[0]? = some i)
    (h : tensors.lookup i = none) :
    depthwise_conv_2d_arguments tensors model subgraph op
      = Except.error (Fault.throws Exception.out_of_range) := by
  unfold depthwise_conv_2d_arguments
  rw [Get_some _ _ _ hi]
  simp only [bind, Except.bind, at_missing _ _ h]

theorem transpose_conv_2d_arguments_missing (tensors : TensorMap) (model : Model)
    (subgraph : SubGraph) (op : Operator) (i : Int) (hi : op.inputs[2]? = some i)
    (h : tensors.lookup i = none) :
    transpose_conv_2d_arguments tensors model subgraph op
      = Except.error (Fault.throws Exception.out_of_range) := by
  unfold transpose_conv_2d_arguments
  rw [Get_some _ _ _ hi]
  simp only [bind, Except.bind, at_missing _ _ h]

theorem parse_relu_missing (s : ImportState) (op : Operator) (i : Int)
    (hi : op.inputs[0]? = some i) (h : s.tensors.lookup i = none) :
    parse_relu s op = Outcome.throws Exception.out_of_range s := by
  unfold parse_relu
  rw [Get_some _ _ _ hi]
  simp only [bind, Except.bind, at_missing _ _ h]
  rfl

theorem add_arguments_missing (tensors : TensorMap) (op : Operator) (k : Nat) (i : Int)
    (hk : k < 2) (hi : op.inputs[k]? = some i) (h : tensors.lookup i = none) :
    add_arguments tensors op = Except.error (Fault.throws Exception.out_of_range) := by
  unfold add_arguments
  obtain ⟨i0, hi0⟩ : ∃ i0, op.inputs[0]? = some i0 := by
    have hlen : k < op.inputs.length := by
      by_contra hcon
      rw [List.getElem?_eq_none (by omega)] at hi
      cases hi
    exact ⟨op.inputs[0], List.getElem?_eq_getElem (by omega)⟩
  rw [Get_some _ _ _ hi0]
  cases h0 : tensors.lookup i0 with
  | none => simp only [bind, Except.bind, at_missing _ _ h0]
  | some t0 =>
    have hk1 : k = 1 := by
      rcases Nat.lt_succ_iff.mp hk with hk
      interval_cases k
      · rw [hi0] at hi
        cases hi
        rw [h] at h0
        cases h0
      · rfl
    subst hk1
    rw [Get_some _ _ _ hi]
    simp only [bind, Except.bind, at_present _ _ _ h0, at_missing _ _ h]


/-! ## The importer: what a handler appends -/

theorem fail_unchanged_ne_ok (fault : Fault) (s s' : ImportState) :
    fail_unchanged fault s ≠ Outcome.ok s' := by
  cases fault <;> simp [fail_unchanged]

theorem register_output_ok (net : ACLNetwork) (tensors : TensorMap) (op : Operator)
    (output : TensorRef) (s' : ImportState)
    (h : register_output net tensors op output = Outcome.ok s') :
    ∃ key, op.outputs[0]? = some key ∧ s' = ⟨net, tensors.assign key output⟩ := by
  unfold register_output at h
  cases hk : op.outputs[0]? with
  | none => rw [hk] at h; cases h
  | some key =>
    rw [hk] at h
    injection h with h
    exact ⟨key, rfl, h.symm⟩

theorem parse_conv_2d_ok (validate : IFunction → Option String) (s s' : ImportState)
    (model : Model) (subgraph : SubGraph) (op : Operator)
    (h : parse_conv_2d validate s model subgraph op = Outcome.ok s') :
    ∃ a key, conv_2d_arguments s.tensors model subgraph op = Except.ok a ∧
      op.outputs[0]? = some key ∧
      s' = ⟨(s.net.add_conv2d validate a.input a.kernel_width a.kernel_height a.output_features
          a.padding_front_x a.padding_back_x a.padding_front_y a.padding_back_y a.stride_x
          a.stride_y a.kernel_values a.bias_values a.activation_function a.dilation_x
          a.dilation_y).1,
        s.tensors.assign key (s.net.add_conv2d validate a.input a.kernel_width a.kernel_height
          a.output_features a.padding_front_x a.padding_back_x a.padding_front_y
          a.padding_back_y a.stride_x a.stride_y a.kernel_values a.bias_values
          a.activation_function a.dilation_x a.dilation_y).2⟩ := by
  unfold parse_conv_2d at h
  cases ha : conv_2d_arguments s.tensors model subgraph op with
  | error fault => rw [ha] at h; exact absurd h (fail_unchanged_ne_ok _ _ _)
  | ok a =>
    rw [ha] at h
    simp only at h
    split_ifs at h
    obtain ⟨key, hk, hs⟩ := register_output_ok _ _ _ _ _ h
    exact ⟨a, key, rfl, hk, hs⟩


theorem parse_depthwise_conv_2d_ok (validate : IFunction → Option String) (s s' : ImportState)
    (model : Model) (subgraph : SubGraph) (op : Operator)
    (h : parse_depthwise_conv_2d validate s model subgraph op = Outcome.ok s') :
    ∃ a key, depthwise_conv_2d_arguments s.tensors model subgraph op = Except.ok a ∧
      op.outputs[0]? = some key ∧
      s' = ⟨(s.net.add_depthwise_conv2d validate a.input a.kernel_width a.kernel_height
          a.padding_front_x a.padding_back_x a.padding_front_y a.padding_back_y a.stride_x
          a.stride_y a.kernel_values a.bias_values a.activation_function a.dilation_x
          a.dilation_y).1,
        s.tensors.assign key (s.net.add_depthwise_conv2d validate a.input a.kernel_width
          a.kernel_height a.padding_front_x a.padding_back_x a.padding_front_y
          a.padding_back_y a.stride_x a.stride_y a.kernel_values a.bias_values
          a.activation_function a.dilation_x a.dilation_y).2⟩ := by
  unfold parse_depthwise_conv_2d at h
  cases ha : depthwise_conv_2d_arguments s.tensors model subgraph op with
  | error fault => rw [ha] at h; exact absurd h (fail_unchanged_ne_ok _ _ _)
  | ok a =>
    rw [ha] at h
    simp only at h
    split_ifs at h
    obtain ⟨key, hk, hs⟩ := register_output_ok _ _ _ _ _ h
    exact ⟨a, key, rfl, hk, hs⟩

theorem parse_transpose_conv_2d_ok (validate : IFunction → Option String) (s s' : ImportState)
    (model : Model) (subgraph : SubGraph) (op : Operator)
    (h : parse_transpose_conv_2d validate s model subgraph op = Outcome.ok s') :
    ∃ a key, transpose_conv_2d_arguments s.tensors model subgraph op = Except.ok a ∧
      op.outputs[0]? = some key ∧
      s' = ⟨(s.net.add_conv2d_transpose validate a.input a.kernel_width a.kernel_height
          a.output_features a.padding_front_x a.padding_back_x a.padding_front_y
          a.padding_back_y a.stride_x a.stride_y a.kernel_values a.bias_values).1,
        s.tensors.assign key (s.net.add_conv2d_transpose validate a.input a.kernel_width
          a.kernel_height a.output_features a.padding_front_x a.padding_back_x
          a.padding_front_y a.padding_back_y a.stride_x a.stride_y a.kernel_values
          a.bias_values).2⟩ := by
  unfold parse_transpose_conv_2d at h
  cases ha : transpose_conv_2d_arguments s.tensors model subgraph op with
  | error fault => rw [ha] at h; exact absurd h (fail_unchanged_ne_ok _ _ _)
  | ok a =>
    rw [ha] at h
    simp only at h
    split_ifs at h
    obtain ⟨key, hk, hs⟩ := register_output_ok _ _ _ _ _ h
    exact ⟨a, key, rfl, hk, hs⟩

theorem parse_relu_ok (s s' : ImportState) (op : Operator)
    (h : parse_relu s op = Outcome.ok s') :
    ∃ input key, op.outputs[0]? = some key ∧
      s' = ⟨(s.net.add_activation input ActivationFunction.RELU 0 0).1,
        s.tensors.assign key (s.net.add_activation input ActivationFunction.RELU 0 0).2⟩ := by
  unfold parse_relu at h
  split at h
  · exact absurd h (fail_unchanged_ne_ok _ _ _)
  · rename_i input _
    obtain ⟨key, hk, hs⟩ := register_output_ok _ _ _ _ _ h
    exact ⟨input, key, hk, hs⟩

theorem parse_add_ok (s s' : ImportState) (op : Operator)
    (h : parse_add s op = Outcome.ok s') :
    ∃ input0 input1 activation key, op.outputs[0]? = some key ∧
      s' = ⟨(s.net.add_addition input0 input1 activation).1,
        s.tensors.assign key (s.net.add_addition input0 input1 activation).2⟩ := by
  unfold parse_add at h
  split at h
  · exact absurd h (fail_unchanged_ne_ok _ _ _)
  · rename_i input0 input1 activation _
    obtain ⟨key, hk, hs⟩ := register_output_ok _ _ _ _ _ h
    exact ⟨input0, input1, activation, key, hk, hs⟩

theorem add_conv2d_functions (validate : IFunction → Option String) (net : ACLNetwork)
    (input : TensorRef) (kernel_width kernel_height output_features : Nat)
    (pad_x_front pad_x_back pad_y_front pad_y_back stride_x stride_y : Nat)
    (kernel_values bias_values : List ℚ) (activation : ActivationFunction)
    (dilation_x dilation_y : Nat) :
    ∃ f, (net.add_conv2d validate input kernel_width kernel_height output_features pad_x_front
      pad_x_back pad_y_front pad_y_back stride_x stride_y kernel_values bias_values activation
      dilation_x dilation_y).1.functions = net.functions ++ [f] :=
  ⟨_, rfl⟩

theorem add_depthwise_conv2d_functions (validate : IFunction → Option String)
    (net : ACLNetwork) (input : TensorRef) (kernel_width kernel_height : Nat)
    (pad_x_front pad_x_back pad_y_front pad_y_back stride_x stride_y : Nat)
    (kernel_values bias_values : List ℚ) (activation : ActivationFunction)
    (dilation_x dilation_y : Nat) :
    ∃ f, (net.add_depthwise_conv2d validate input kernel_width kernel_height pad_x_front
      pad_x_back pad_y_front pad_y_back stride_x stride_y kernel_values bias_values activation
      dilation_x dilation_y).1.functions = net.functions ++ [f] :=
  ⟨_, rfl⟩

theorem add_conv2d_transpose_functions (validate : IFunction → Option String)
    (net : ACLNetwork) (input : TensorRef) (kernel_width kernel_height output_features : Nat)
    (pad_x_front pad_x_back pad_y_front pad_y_back stride_x stride_y : Nat)
    (kernel_values bias_values : List ℚ) :
    ∃ f, (net.add_conv2d_transpose validate input kernel_width kernel_height output_features
      pad_x_front pad_x_back pad_y_front pad_y_back stride_x stride_y kernel_values
      bias_values).1.functions = net.functions ++ [f] :=
  ⟨_, rfl⟩

theorem add_activation_functions (net : ACLNetwork) (input : TensorRef)
    (activation : ActivationFunction) (a b : ℚ) :
    (net.add_activation input activation a b).1.functions
      = net.functions ++ [IFunction.CLActivationLayer input
          (net.add_activation input activation a b).2 activation a b] :=
  rfl

theorem add_addition_functions (net : ACLNetwork) (input_a input_b : TensorRef)
    (activation : ActivationFunction) :
    (net.add_addition input_a input_b activation).1.functions
      = net.functions ++ [IFunction.CLArithmeticAddition input_a input_b
          (net.add_addition input_a input_b activation).2 activation] :=
  rfl

theorem import_operator_functions (validate : IFunction → Option String) (model : Model)
    (subgraph : SubGraph) (s s' : ImportState) (op : Operator)
    (h : import_operator validate model subgraph s op = Outcome.ok s') :
    ∃ f, s'.net.functions = s.net.functions ++ [f] := by
  unfold import_operator at h
  split at h
  · cases h
  · simp only at h
    split_ifs at h
    · obtain ⟨a, key, -, -, hs⟩ := parse_conv_2d_ok _ _ _ _ _ _ h
      rw [hs]
      exact add_conv2d_functions ..
    · obtain ⟨a, key, -, -, hs⟩ := parse_depthwise_conv_2d_ok _ _ _ _ _ _ h
      rw [hs]
      exact add_depthwise_conv2d_functions ..
    · obtain ⟨input, key, -, hs⟩ := parse_relu_ok _ _ _ h
      rw [hs]
      exact ⟨_, add_activation_functions ..⟩
    · obtain ⟨input0, input1, activation, key, -, hs⟩ := parse_add_ok _ _ _ h
      rw [hs]
      exact ⟨_, add_addition_functions ..⟩
    · obtain ⟨a, key, -, -, hs⟩ := parse_transpose_conv_2d_ok _ _ _ _ _ _ h
      rw [hs]
      exact add_conv2d_transpose_functions ..

theorem import_operators_functions (validate : IFunction → Option String) (model : Model)
    (subgraph : SubGraph) (ops : List Operator) (s s' : ImportState)
    (h : import_operators validate model subgraph ops s = Outcome.ok s') :
    ∃ fs, fs.length = ops.length ∧ s'.net.functions = s.net.functions ++ fs := by
  induction ops generalizing s with
  | nil =>
    simp only [import_operators] at h
    injection h with h
    exact ⟨[], rfl, by rw [h]; simp⟩
  | cons op ops ih =>
    simp only [import_operators] at h
    cases h1 : import_operator validate model subgraph s op with
    | ok s1 =>
      rw [h1] at h
      obtain ⟨f, hf⟩ := import_operator_functions _ _ _ _ _ _ h1
      obtain ⟨fs, hlen, hfs⟩ := ih s1 h
      exact ⟨f :: fs, by simp [hlen], by rw [hfs, hf]; simp⟩
    | throws e s1 => rw [h1] at h; cases h
    | undefined => rw [h1] at h; cases h


/-! ## The importer: the weights -/

theorem Get_ok {α : Type} (vector : List α) (i : Nat) (a : α) (h : Get vector i = Except.ok a) :
    vector[i]? = some a := by
  unfold Get at h
  split at h
  · injection h with h; subst h; assumption
  · cases h

theorem copy_to_vector_ok (buffer : Buffer) (values : List ℚ)
    (h : copy_to_vector buffer = Except.ok values) : buffer.data = some values := by
  unfold copy_to_vector at h
  split at h
  · injection h with h; subst h; assumption
  · cases h

theorem bind_ok {ε α β : Type} (x : Except ε α) (f : α → Except ε β) (b : β)
    (h : x >>= f = Except.ok b) : ∃ a, x = Except.ok a ∧ f a = Except.ok b := by
  cases x with
  | error e => cases h
  | ok a => exact ⟨a, rfl, h⟩

theorem conv_2d_arguments_weights (tensors : TensorMap) (model : Model) (subgraph : SubGraph)
    (op : Operator) (a : ConvArguments)
    (h : conv_2d_arguments tensors model subgraph op = Except.ok a) :
    ∃ i kernel_tensor kernel_buffer, op.inputs[1]? = some i ∧
      subgraph.tensors[int_to_u32 i]? = some kernel_tensor ∧
      model.buffers[kernel_tensor.buffer]? = some kernel_buffer ∧
      kernel_buffer.data = some a.kernel_values := by
  unfold conv_2d_arguments at h
  obtain ⟨i0, -, h⟩ := bind_ok _ _ _ h
  obtain ⟨input, -, h⟩ := bind_ok _ _ _ h
  obtain ⟨i, hi, h⟩ := bind_ok _ _ _ h
  obtain ⟨kernel_tensor, hkt, h⟩ := bind_ok _ _ _ h
  obtain ⟨kernel_buffer, hkb, h⟩ := bind_ok _ _ _ h
  obtain ⟨i2, -, h⟩ := bind_ok _ _ _ h
  obtain ⟨bias_tensor, -, h⟩ := bind_ok _ _ _ h
  obtain ⟨bias_buffer, -, h⟩ := bind_ok _ _ _ h
  obtain ⟨kernel_width, -, h⟩ := bind_ok _ _ _ h
  obtain ⟨kernel_height, -, h⟩ := bind_ok _ _ _ h
  obtain ⟨output_features, -, h⟩ := bind_ok _ _ _ h
  split at h
  · obtain ⟨padding_x, -, h⟩ := bind_ok _ _ _ h
    obtain ⟨padding_y, -, h⟩ := bind_ok _ _ _ h
    obtain ⟨activation, -, h⟩ := bind_ok _ _ _ h
    obtain ⟨kernel_values, hkv, h⟩ := bind_ok _ _ _ h
    obtain ⟨bias_values, -, h⟩ := bind_ok _ _ _ h
    injection h with h
    subst h
    exact ⟨i, kernel_tensor, kernel_buffer, Get_ok _ _ _ hi, Get_ok _ _ _ hkt,
      Get_ok _ _ _ hkb, copy_to_vector_ok _ _ hkv⟩
  · cases h

theorem transpose_conv_2d_arguments_weights (tensors : TensorMap) (model : Model)
    (subgraph : SubGraph) (op : Operator) (a : ConvArguments)
    (h : transpose_conv_2d_arguments tensors model subgraph op = Except.ok a) :
    ∃ i kernel_tensor kernel_buffer, op.inputs[1]? = some i ∧
      subgraph.tensors[int_to_u32 i]? = some kernel_tensor ∧
      model.buffers[kernel_tensor.buffer]? = some kernel_buffer ∧
      kernel_buffer.data = some a.kernel_values := by
  unfold transpose_conv_2d_arguments at h
  obtain ⟨i0, -, h⟩ := bind_ok _ _ _ h
  obtain ⟨input, -, h⟩ := bind_ok _ _ _ h
  obtain ⟨i, hi, h⟩ := bind_ok _ _ _ h
  obtain ⟨kernel_tensor, hkt, h⟩ := bind_ok _ _ _ h
  obtain ⟨kernel_buffer, hkb, h⟩ := bind_ok _ _ _ h
  obtain ⟨i2, -, h⟩ := bind_ok _ _ _ h
  obtain ⟨bias_tensor, -, h⟩ := bind_ok _ _ _ h
  obtain ⟨bias_buffer, -, h⟩ := bind_ok _ _ _ h
  obtain ⟨kernel_width, -, h⟩ := bind_ok _ _ _ h
  obtain ⟨kernel_height, -, h⟩ := bind_ok _ _ _ h
  obtain ⟨output_features, -, h⟩ := bind_ok _ _ _ h
  split at h
  · obtain ⟨padding_x, -, h⟩ := bind_ok _ _ _ h
    obtain ⟨padding_y, -, h⟩ := bind_ok _ _ _ h
    obtain ⟨kernel_values, hkv, h⟩ := bind_ok _ _ _ h
    obtain ⟨bias_values, -, h⟩ := bind_ok _ _ _ h
    injection h with h
    subst h
    exact ⟨i, kernel_tensor, kernel_buffer, Get_ok _ _ _ hi, Get_ok _ _ _ hkt,
      Get_ok _ _ _ hkb, copy_to_vector_ok _ _ hkv⟩
  · cases h


theorem parse_conv_2d_defined (validate : IFunction → Option String) (s s' : ImportState)
    (model : Model) (subgraph : SubGraph) (op : Operator) (a : ConvArguments)
    (ha : conv_2d_arguments s.tensors model subgraph op = Except.ok a)
    (h : parse_conv_2d validate s model subgraph op = Outcome.ok s') :
    ACLNetwork.add_conv2d_defined a.input a.kernel_width a.kernel_height a.output_features
      a.padding_front_x a.padding_back_x a.padding_front_y a.padding_back_y a.stride_x
      a.stride_y a.kernel_values a.bias_values a.dilation_x a.dilation_y := by
  unfold parse_conv_2d at h
  rw [ha] at h
  simp only at h
  by_contra hd
  rw [if_neg hd] at h
  cases h

theorem parse_transpose_conv_2d_defined (validate : IFunction → Option String)
    (s s' : ImportState) (model : Model) (subgraph : SubGraph) (op : Operator)
    (a : ConvArguments)
    (ha : transpose_conv_2d_arguments s.tensors model subgraph op = Except.ok a)
    (h : parse_transpose_conv_2d validate s model subgraph op = Outcome.ok s') :
    ACLNetwork.add_conv2d_transpose_defined a.input a.kernel_width a.kernel_height
      a.output_features a.kernel_values a.bias_values := by
  unfold parse_transpose_conv_2d at h
  rw [ha] at h
  simp only at h
  by_contra hd
  rw [if_neg hd] at h
  cases h

theorem parse_conv_2d_of_defined (validate : IFunction → Option String) (s : ImportState)
    (model : Model) (subgraph : SubGraph) (op : Operator) (a : ConvArguments) (key : Int)
    (ha : conv_2d_arguments s.tensors model subgraph op = Except.ok a)
    (hd : ACLNetwork.add_conv2d_defined a.input a.kernel_width a.kernel_height
      a.output_features a.padding_front_x a.padding_back_x a.padding_front_y a.padding_back_y
      a.stride_x a.stride_y a.kernel_values a.bias_values a.dilation_x a.dilation_y)
    (hk : op.outputs[0]? = some key) :
    parse_conv_2d validate s model subgraph op
      = Outcome.ok ⟨(s.net.add_conv2d validate a.input a.kernel_width a.kernel_height
          a.output_features a.padding_front_x a.padding_back_x a.padding_front_y
          a.padding_back_y a.stride_x a.stride_y a.kernel_values a.bias_values
          a.activation_function a.dilation_x a.dilation_y).1,
        s.tensors.assign key (s.net.add_conv2d validate a.input a.kernel_width a.kernel_height
          a.output_features a.padding_front_x a.padding_back_x a.padding_front_y
          a.padding_back_y a.stride_x a.stride_y a.kernel_values a.bias_values
          a.activation_function a.dilation_x a.dilation_y).2⟩ := by
  unfold parse_conv_2d
  rw [ha]
  simp only
  rw [if_pos hd]
  simp only [register_output, hk]

/-- The call of `add_conv2d` for `conv_operator` is defined. -/
theorem conv_operator_defined :
    ACLNetwork.add_conv2d_defined conv_input 1 1 2 0 0 0 0 1 1 [1, 2, 3, 4] [0, 0] 1 1 :=
  ⟨calculate_conv_output_size_defined_of_exact 4 1 0 1 1 (by decide) (by decide) (by decide)
      (by decide),
    calculate_conv_output_size_defined_of_exact 4 1 0 1 1 (by decide) (by decide) (by decide)
      (by decide), by decide, by decide⟩

theorem parse_conv_2d_conv_operator :
    parse_conv_2d accept_all conv_state conv_model conv_subgraph conv_operator
      = Outcome.ok conv_state_after :=
  parse_conv_2d_of_defined accept_all conv_state conv_model conv_subgraph conv_operator
    ⟨conv_input, 1, 1, 2, 0, 0, 0, 0, 1, 1, [1, 2, 3, 4], [0, 0], ActivationFunction.IDENTITY,
      1, 1⟩ 3 rfl conv_operator_defined rfl

theorem parse_transpose_conv_2d_deconv_operator :
    parse_transpose_conv_2d accept_all conv_state conv_model conv_subgraph deconv_operator
      = Outcome.ok deconv_state_after := rfl

/-- The kernel tensor receives as many floats as it has elements, whatever the
length of the weight buffer: of six stored weights the four-element kernel
tensor of `conv_operator` holds the first four, and with three stored weights
the copy reads behind the end of the array, so the import is undefined. -/
theorem parse_conv_2d_weight_buffer_lengths :
    (∃ s', parse_conv_2d accept_all conv_state conv_model_long_weights conv_subgraph
        conv_operator = Outcome.ok s' ∧
      s'.net.tensors[0]?.map CLTensor.values = some [1, 2, 3, 4]) ∧
    parse_conv_2d accept_all conv_state conv_model_short_weights conv_subgraph conv_operator
      = Outcome.undefined := by
  constructor
  · refine ⟨_, parse_conv_2d_of_defined accept_all conv_state conv_model_long_weights
      conv_subgraph conv_operator ⟨conv_input, 1, 1, 2, 0, 0, 0, 0, 1, 1, [1, 2, 3, 4, 5, 6],
        [0, 0], ActivationFunction.IDENTITY, 1, 1⟩ 3 rfl
      ⟨calculate_conv_output_size_defined_of_exact 4 1 0 1 1 (by decide) (by decide)
          (by decide) (by decide),
        calculate_conv_output_size_defined_of_exact 4 1 0 1 1 (by decide) (by decide)
          (by decide) (by decide), by decide, by decide⟩ rfl, ?_⟩
    decide
  · unfold parse_conv_2d
    have ha : conv_2d_arguments conv_state.tensors conv_model_short_weights conv_subgraph
        conv_operator = Except.ok ⟨conv_input, 1, 1, 2, 0, 0, 0, 0, 1, 1, [1, 2, 3], [0, 0],
          ActivationFunction.IDENTITY, 1, 1⟩ := rfl
    rw [ha]
    simp only
    rw [if_neg]
    intro h
    exact absurd h.2.2.1 (by decide)

/-- C12, counterexample: for a `CONV_2D` operator with a `1 x 1` kernel, two
input channels, two output features and the stored weights `1, 2, 3, 4`,
`parse_conv_2d` passes `1, 2, 3, 4` to `add_conv2d`, which loads them into the
kernel tensor; `transpose_kernel_values` would give `1, 3, 2, 4`. -/
theorem parse_conv_2d_weights_not_reordered :
    ∃ a s', conv_2d_arguments conv_state.tensors conv_model conv_subgraph conv_operator
        = Except.ok a ∧
      a.kernel_values = [1, 2, 3, 4] ∧
      parse_conv_2d accept_all conv_state conv_model conv_subgraph conv_operator
        = Outcome.ok s' ∧
      s'.net.tensors[0]?.map CLTensor.values = some [1, 2, 3, 4] ∧
      transpose_kernel_values a.kernel_values a.kernel_width a.kernel_height
        (to_u32 (a.input.info.dim 0)) a.output_features = some [1, 3, 2, 4] ∧
      some a.kernel_values ≠ transpose_kernel_values a.kernel_values a.kernel_width
        a.kernel_height (to_u32 (a.input.info.dim 0)) a.output_features :=
  ⟨_, _, rfl, rfl, parse_conv_2d_conv_operator, by decide, by decide, by decide⟩

/-- C12 (amended): the importer passes the learned weights on as the model
stores them.  When `parse_conv_2d` (and likewise `parse_transpose_conv_2d`)
returns, the kernel value array it has passed to `add_conv2d`
(`add_conv2d_transpose`) is the `float` array of the buffer of the operator's
weight tensor (input 1), unchanged.  The kernel tensor is loaded from the front
of that array: when it has fewer than `2^32` elements, the array holds at
least as many floats and the tensor holds the first that many, in the order of
the array. -/
theorem importer_passes_weights_unchanged (validate : IFunction → Option String)
    (s s' : ImportState) (model : Model) (subgraph : SubGraph) (op : Operator) :
    (parse_conv_2d validate s model subgraph op = Outcome.ok s' →
      ∃ a i kernel_tensor kernel_buffer,
        conv_2d_arguments s.tensors model subgraph op = Except.ok a ∧
        op.inputs[1]? = some i ∧ subgraph.tensors[int_to_u32 i]? = some kernel_tensor ∧
        model.buffers[kernel_tensor.buffer]? = some kernel_buffer ∧
        kernel_buffer.data = some a.kernel_values ∧
        s'.net = (s.net.add_conv2d validate a.input a.kernel_width a.kernel_height
          a.output_features a.padding_front_x a.padding_back_x a.padding_front_y
          a.padding_back_y a.stride_x a.stride_y a.kernel_values a.bias_values
          a.activation_function a.dilation_x a.dilation_y).1 ∧
        (to_u32 (a.input.info.dim 0) * a.kernel_width * a.kernel_height * a.output_features
            < 4294967296 →
          to_u32 (a.input.info.dim 0) * a.kernel_width * a.kernel_height * a.output_features
            ≤ a.kernel_values.length ∧
          s'.net.tensors[s.net.tensors.length]? = some ⟨⟨[to_u32 (a.input.info.dim 0),
            a.kernel_width, a.kernel_height, a.output_features], DataType.F32⟩, true,
            a.kernel_values.take (to_u32 (a.input.info.dim 0) * a.kernel_width
              * a.kernel_height * a.output_features)⟩)) ∧
    (parse_transpose_conv_2d validate s model subgraph op = Outcome.ok s' →
      ∃ a i kernel_tensor kernel_buffer,
        transpose_conv_2d_arguments s.tensors model subgraph op = Except.ok a ∧
        op.inputs[1]? = some i ∧ subgraph.tensors[int_to_u32 i]? = some kernel_tensor ∧
        model.buffers[kernel_tensor.buffer]? = some kernel_buffer ∧
        kernel_buffer.data = some a.kernel_values ∧
        s'.net = (s.net.add_conv2d_transpose validate a.input a.kernel_width a.kernel_height
          a.output_features a.padding_front_x a.padding_back_x a.padding_front_y
          a.padding_back_y a.stride_x a.stride_y a.kernel_values a.bias_values).1 ∧
        (to_u32 (a.input.info.dim 0) * a.kernel_width * a.kernel_height * a.output_features
            < 4294967296 →
          to_u32 (a.input.info.dim 0) * a.kernel_width * a.kernel_height * a.output_features
            ≤ a.kernel_values.length ∧
          s'.net.tensors[s.net.tensors.length]? = some ⟨⟨[to_u32 (a.input.info.dim 0),
            a.kernel_width, a.kernel_height, a.output_features], DataType.F32⟩, true,
            a.kernel_values.take (to_u32 (a.input.info.dim 0) * a.kernel_width
              * a.kernel_height * a.output_features)⟩)) := by
  constructor
  · intro h
    obtain ⟨a, key, ha, -, hs⟩ := parse_conv_2d_ok _ _ _ _ _ _ h
    obtain ⟨i, kernel_tensor, kernel_buffer, hi, hkt, hkb, hkv⟩ :=
      conv_2d_arguments_weights _ _ _ _ _ ha
    have hd := parse_conv_2d_defined _ _ _ _ _ _ _ ha h
    refine ⟨a, i, kernel_tensor, kernel_buffer, ha, hi, hkt, hkb, hkv, ?_, ?_⟩
    · rw [hs]
    · intro hN
      obtain ⟨hload, hdef⟩ := kernel_tensor_load _ _ _ _ a.kernel_values hN
      refine ⟨hdef.mp hd.2.2.1, ?_⟩
      rw [hs]
      simp only
      rw [add_conv2d_tensors, List.getElem?_append_right (le_refl _), hload]
      simp
  · intro h
    obtain ⟨a, key, ha, -, hs⟩ := parse_transpose_conv_2d_ok _ _ _ _ _ _ h
    obtain ⟨i, kernel_tensor, kernel_buffer, hi, hkt, hkb, hkv⟩ :=
      transpose_conv_2d_arguments_weights _ _ _ _ _ ha
    have hd := parse_transpose_conv_2d_defined _ _ _ _ _ _ _ ha h
    refine ⟨a, i, kernel_tensor, kernel_buffer, ha, hi, hkt, hkb, hkv, ?_, ?_⟩
    · rw [hs]
    · intro hN
      obtain ⟨hload, hdef⟩ := kernel_tensor_load _ _ _ _ a.kernel_values hN
      refine ⟨hdef.mp hd.1, ?_⟩
      rw [hs]
      simp only
      rw [add_conv2d_transpose_tensors, List.getElem?_append_right (le_refl _), hload]
      simp

/-- Witness of C12 (amended) on `conv_operator` and `deconv_operator`, whose
weight buffer holds `1, 2, 3, 4`. -/
theorem importer_passes_weights_unchanged_witness :
    (∃ a i kernel_tensor kernel_buffer,
        conv_2d_arguments conv_state.tensors conv_model conv_subgraph conv_operator
          = Except.ok a ∧
        conv_operator.inputs[1]? = some i ∧
        conv_subgraph.tensors[int_to_u32 i]? = some kernel_tensor ∧
        conv_model.buffers[kernel_tensor.buffer]? = some kernel_buffer ∧
        kernel_buffer.data = some a.kernel_values ∧
        conv_state_after.net = (conv_state.net.add_conv2d accept_all a.input a.kernel_width
          a.kernel_height a.output_features a.padding_front_x a.padding_back_x
          a.padding_front_y a.padding_back_y a.stride_x a.stride_y a.kernel_values
          a.bias_values a.activation_function a.dilation_x a.dilation_y).1 ∧
        (to_u32 (a.input.info.dim 0) * a.kernel_width * a.kernel_height * a.output_features
            < 4294967296 →
          to_u32 (a.input.info.dim 0) * a.kernel_width * a.kernel_height * a.output_features
            ≤ a.kernel_values.length ∧
          conv_state_after.net.tensors[conv_state.net.tensors.length]?
            = some ⟨⟨[to_u32 (a.input.info.dim 0), a.kernel_width, a.kernel_height,
              a.output_features], DataType.F32⟩, true,
              a.kernel_values.take (to_u32 (a.input.info.dim 0) * a.kernel_width
                * a.kernel_height * a.output_features)⟩)) ∧
    (∃ a i kernel_tensor kernel_buffer,
        transpose_conv_2d_arguments conv_state.tensors conv_model conv_subgraph deconv_operator
          = Except.ok a ∧
        deconv_operator.inputs[1]? = some i ∧
        conv_subgraph.tensors[int_to_u32 i]? = some kernel_tensor ∧
        conv_model.buffers[kernel_tensor.buffer]? = some kernel_buffer ∧
        kernel_buffer.data = some a.kernel_values ∧
        deconv_state_after.net = (conv_state.net.add_conv2d_transpose accept_all a.input
          a.kernel_width a.kernel_height a.output_features a.padding_front_x a.padding_back_x
          a.padding_front_y a.padding_back_y a.stride_x a.stride_y a.kernel_values
          a.bias_values).1 ∧
        (to_u32 (a.input.info.dim 0) * a.kernel_width * a.kernel_height * a.output_features
            < 4294967296 →
          to_u32 (a.input.info.dim 0) * a.kernel_width * a.kernel_height * a.output_features
            ≤ a.kernel_values.length ∧
          deconv_state_after.net.tensors[conv_state.net.tensors.length]?
            = some ⟨⟨[to_u32 (a.input.info.dim 0), a.kernel_width, a.kernel_height,
              a.output_features], DataType.F32⟩, true,
              a.kernel_values.take (to_u32 (a.input.info.dim 0) * a.kernel_width
                * a.kernel_height * a.output_features)⟩)) :=
  ⟨(importer_passes_weights_unchanged accept_all conv_state conv_state_after conv_model
      conv_subgraph conv_operator).1 parse_conv_2d_conv_operator,
    (importer_passes_weights_unchanged accept_all conv_state deconv_state_after conv_model
      conv_subgraph deconv_operator).2 rfl⟩

/-! ## The importer: the whole model -/

theorem parse_model_of_single_input (validate : IFunction → Option String) (model : Model)
    (input_output_tensor : TensorRef) (subgraph : SubGraph) (input_index : Int)
    (hsub : model.subgraphs[0]? = some subgraph) (hin : subgraph.inputs = [input_index])
    (hout : subgraph.outputs.length ≤ 1) :
    parse_model validate model input_output_tensor
      = match import_operators validate model subgraph subgraph.operators
            ⟨(prologue validate input_output_tensor).1,
              [(input_index, (prologue validate input_output_tensor).2)]⟩ with
        | Outcome.throws e s => Outcome.throws e s
        | Outcome.undefined => Outcome.undefined
        | Outcome.ok s =>
          match subgraph.outputs[0]? with
          | none => Outcome.undefined
          | some output_index =>
            match s.tensors.lookup output_index with
            | none => Outcome.undefined
            | some final =>
              Outcome.ok ⟨(s.net.add_srgb_to_linear validate final).1.add_quantization
                (s.net.add_srgb_to_linear validate final).2 input_output_tensor, s.tensors⟩ := by
  unfold parse_model
  rw [hsub]
  simp only [hin, List.length_singleton]
  rw [if_neg (by omega)]
  rfl

theorem import_operators_append (validate : IFunction → Option String) (model : Model)
    (subgraph : SubGraph) (before after : List Operator) (s s' : ImportState)
    (h : import_operators validate model subgraph before s = Outcome.ok s') :
    import_operators validate model subgraph (before ++ after) s
      = import_operators validate model subgraph after s' := by
  induction before generalizing s with
  | nil =>
    simp only [import_operators] at h
    injection h with h
    subst h
    rfl
  | cons op ops ih =>
    simp only [import_operators, List.cons_append] at h ⊢
    cases h1 : import_operator validate model subgraph s op with
    | ok s1 => rw [h1] at h; simp only []; exact ih s1 h
    | throws e s1 => rw [h1] at h; cases h
    | undefined => rw [h1] at h; cases h

theorem import_operator_unsupported (validate : IFunction → Option String) (model : Model)
    (subgraph : SubGraph) (s : ImportState) (op : Operator) (opcode : OperatorCode)
    (hcode : model.operator_codes[op.opcode_index]? = some opcode)
    (hunsupported : opcode.deprecated_builtin_code ∉ [BuiltinOperator_CONV_2D,
      BuiltinOperator_DEPTHWISE_CONV_2D, BuiltinOperator_RELU, BuiltinOperator_ADD,
      BuiltinOperator_TRANSPOSE_CONV]) :
    import_operator validate model subgraph s op
      = Outcome.throws (Exception.runtime_error
          (unsupported_message opcode.deprecated_builtin_code)) s := by
  unfold import_operator
  rw [hcode]
  simp only [List.mem_cons, List.mem_singleton, not_or, List.not_mem_nil, or_false] at hunsupported
  obtain ⟨h1, h2, h3, h4, h5⟩ := hunsupported
  simp only [h1, h2, h3, h4, h5, if_false]


/-- C13, at a model that declares no graph input: `parse_model` does not
report an error.  The guard only rejects more than one input or output, the
prologue runs, and `input_indices[0]` then reads the first element of an empty
vector, which is undefined behaviour. -/
theorem parse_model_without_inputs_undefined (validate : IFunction → Option String)
    (input_output_tensor : TensorRef) :
    parse_model validate model_without_inputs input_output_tensor = Outcome.undefined :=
  rfl

/-- C14: for every model whose sub-graph declares two or more graph inputs,
`parse_model` throws its `std::runtime_error` before any `add_*` method is
called: at the `throw` the container's operation list and tensor list (and the
Model Index Map) are empty. -/
theorem parse_model_rejects_several_inputs (validate : IFunction → Option String)
    (model : Model) (input_output_tensor : TensorRef) (subgraph : SubGraph)
    (hsub : model.subgraphs[0]? = some subgraph) (hin : 2 ≤ subgraph.inputs.length) :
    parse_model validate model input_output_tensor
      = Outcome.throws (Exception.runtime_error more_than_one_message) ⟨⟨[], [], []⟩, []⟩ := by
  unfold parse_model
  rw [hsub]
  simp only
  rw [if_pos (Or.inl (by omega))]

/-- Witness of C14 on a model with the graph inputs 0 and 1. -/
theorem parse_model_rejects_several_inputs_witness :
    parse_model accept_all model_with_two_inputs caller_tensor
      = Outcome.throws (Exception.runtime_error more_than_one_message) ⟨⟨[], [], []⟩, []⟩ :=
  parse_model_rejects_several_inputs accept_all model_with_two_inputs caller_tensor
    ⟨[], [0, 1], [2], []⟩ rfl (by decide)

/-- C15, counterexample: a model with one graph input and one graph output whose
second operator has the unsupported builtin code 1, and whose first operator,
a `RELU`, reads an index that nobody produced.  `parse_model` fails at the
`RELU` with `std::out_of_range`, in the state left by the prologue: the error
does not report the builtin code and the failure is not at the unsupported
operator. -/
theorem parse_model_fails_before_unsupported_operator :
    parse_model accept_all model_relu_of_missing_then_pool caller_tensor
      = Outcome.throws Exception.out_of_range
          ⟨(prologue accept_all caller_tensor).1, [(0, (prologue accept_all caller_tensor).2)]⟩ :=
  rfl

/-- C15 (amended): for every model with one graph input and one graph output
whose operator list contains an operator with a builtin code other than
`CONV_2D`, `DEPTHWISE_CONV_2D`, `RELU`, `ADD`, `TRANSPOSE_CONV`, and whose
earlier operators are all imported without failure, `parse_model` fails at that
operator with the `std::runtime_error` whose message reports that builtin code;
the container is left as the earlier operators left it, with the operations of
the prologue followed by one operation for each earlier operator. -/
theorem parse_model_unsupported_operator (validate : IFunction → Option String)
    (model : Model) (input_output_tensor : TensorRef) (subgraph : SubGraph)
    (input_index : Int) (before after : List Operator) (op : Operator) (opcode : OperatorCode)
    (s : ImportState)
    (hsub : model.subgraphs[0]? = some subgraph) (hin : subgraph.inputs = [input_index])
    (hout : subgraph.outputs.length = 1)
    (hops : subgraph.operators = before ++ op :: after)
    (hcode : model.operator_codes[op.opcode_index]? = some opcode)
    (hunsupported : opcode.deprecated_builtin_code ∉ [BuiltinOperator_CONV_2D,
      BuiltinOperator_DEPTHWISE_CONV_2D, BuiltinOperator_RELU, BuiltinOperator_ADD,
      BuiltinOperator_TRANSPOSE_CONV])
    (hbefore : import_operators validate model subgraph before
      ⟨(prologue validate input_output_tensor).1,
        [(input_index, (prologue validate input_output_tensor).2)]⟩ = Outcome.ok s) :
    parse_model validate model input_output_tensor
        = Outcome.throws (Exception.runtime_error ("Operation with builtin code "
            ++ toString opcode.deprecated_builtin_code
            ++ " is not supported by tflite importer.")) s ∧
      ∃ functions, functions.length = before.length ∧
        s.net.functions = (prologue validate input_output_tensor).1.functions ++ functions := by
  refine ⟨?_, import_operators_functions _ _ _ _ _ _ hbefore⟩
  rw [parse_model_of_single_input validate model input_output_tensor subgraph input_index hsub
    hin (by omega), hops, import_operators_append _ _ _ _ _ _ _ hbefore]
  simp only [import_operators]
  rw [import_operator_unsupported _ _ _ _ _ _ hcode hunsupported]
  rfl

/-- Witness of C15 (amended): a `RELU` on the graph input, then an operator with
the builtin code 1. -/
theorem parse_model_unsupported_operator_witness :
    parse_model accept_all model_relu_then_pool caller_tensor
        = Outcome.throws (Exception.runtime_error ("Operation with builtin code "
            ++ toString (1 : Int) ++ " is not supported by tflite importer."))
          relu_state_after ∧
      ∃ functions, functions.length = [relu_of_input].length ∧
        relu_state_after.net.functions
          = (prologue accept_all caller_tensor).1.functions ++ functions :=
  parse_model_unsupported_operator accept_all model_relu_then_pool caller_tensor
    ⟨[], [0], [2], [relu_of_input, pool_operator]⟩ 0 [relu_of_input] [] pool_operator ⟨1⟩
    relu_state_after rfl rfl rfl rfl rfl (by decide) rfl

/-- C16: each of the five operator handlers, called for an operator one of whose
activation-input indices (input 0; input 2 for `parse_transpose_conv_2d`;
input 0 or input 1 for `parse_add`) has no entry in the Model Index Map,
throws `std::out_of_range`; the container and the map are as they were before
the call, so no operation and no tensor has been appended. -/
theorem handlers_fail_on_missing_input (validate : IFunction → Option String)
    (s : ImportState) (model : Model) (subgraph : SubGraph) (op : Operator) :
    (∀ i, op.inputs[0]? = some i → s.tensors.lookup i = none →
      parse_conv_2d validate s model subgraph op = Outcome.throws Exception.out_of_range s) ∧
    (∀ i, op.inputs[0]? = some i → s.tensors.lookup i = none →
      parse_depthwise_conv_2d validate s model subgraph op
        = Outcome.throws Exception.out_of_range s) ∧
    (∀ i, op.inputs[2]? = some i → s.tensors.lookup i = none →
      parse_transpose_conv_2d validate s model subgraph op
        = Outcome.throws Exception.out_of_range s) ∧
    (∀ i, op.inputs[0]? = some i → s.tensors.lookup i = none →
      parse_relu s op = Outcome.throws Exception.out_of_range s) ∧
    (∀ k i, k < 2 → op.inputs[k]? = some i → s.tensors.lookup i = none →
      parse_add s op = Outcome.throws Exception.out_of_range s) := by
  refine ⟨fun i hi h => ?_, fun i hi h => ?_, fun i hi h => ?_, fun i hi h => ?_,
    fun k i hk hi h => ?_⟩
  · unfold parse_conv_2d
    rw [conv_2d_arguments_missing _ _ _ _ i hi h]
    rfl
  · unfold parse_depthwise_conv_2d
    rw [depthwise_conv_2d_arguments_missing _ _ _ _ i hi h]
    rfl
  · unfold parse_transpose_conv_2d
    rw [transpose_conv_2d_arguments_missing _ _ _ _ i hi h]
    rfl
  · exact parse_relu_missing s op i hi h
  · unfold parse_add
    rw [add_arguments_missing _ _ k i hk hi h]
    rfl

/-- Witness of C16: an operator with the inputs 5, 6, 7, 8 and an empty map. -/
theorem handlers_fail_on_missing_input_witness :
    parse_conv_2d accept_all empty_state conv_model conv_subgraph operator_of_missing
        = Outcome.throws Exception.out_of_range empty_state ∧
      parse_depthwise_conv_2d accept_all empty_state conv_model conv_subgraph
        operator_of_missing = Outcome.throws Exception.out_of_range empty_state ∧
      parse_transpose_conv_2d accept_all empty_state conv_model conv_subgraph
        operator_of_missing = Outcome.throws Exception.out_of_range empty_state ∧
      parse_relu empty_state operator_of_missing
        = Outcome.throws Exception.out_of_range empty_state ∧
      parse_add empty_state operator_of_missing
        = Outcome.throws Exception.out_of_range empty_state :=
  ⟨(handlers_fail_on_missing_input accept_all empty_state conv_model conv_subgraph
      operator_of_missing).1 5 rfl rfl,
    (handlers_fail_on_missing_input accept_all empty_state conv_model conv_subgraph
      operator_of_missing).2.1 5 rfl rfl,
    (handlers_fail_on_missing_input accept_all empty_state conv_model conv_subgraph
      operator_of_missing).2.2.1 7 rfl rfl,
    (handlers_fail_on_missing_input accept_all empty_state conv_model conv_subgraph
      operator_of_missing).2.2.2.1 5 rfl rfl,
    (handlers_fail_on_missing_input accept_all empty_state conv_model conv_subgraph
      operator_of_missing).2.2.2.2 1 6 (by decide) rfl rfl⟩

theorem prologue_functions (validate : IFunction → Option String)
    (input_output_tensor : TensorRef) :
    ∃ dequantized normalized multiplier,
      (prologue validate input_output_tensor).1.functions
        = [IFunction.CLDequantizationLayer input_output_tensor dequantized,
            IFunction.CLActivationLayer dequantized normalized ActivationFunction.LINEAR
              (1.0 / 255.0 * 1.7) 0.0,
            IFunction.CLElementwisePower normalized multiplier
              (prologue validate input_output_tensor).2 ActivationFunction.LINEAR
              269.025 (-14.025)] :=
  ⟨_, _, _, rfl⟩

theorem epilogue_functions (validate : IFunction → Option String) (net : ACLNetwork)
    (final input_output_tensor : TensorRef) :
    ∃ normalized divided multiplier,
      ((net.add_srgb_to_linear validate final).1.add_quantization
          (net.add_srgb_to_linear validate final).2 input_output_tensor).functions
        = net.functions ++
          [IFunction.CLActivationLayer final normalized ActivationFunction.LINEAR
              (1.0 / 255.0) 0.055,
            IFunction.CLActivationLayer final divided ActivationFunction.LINEAR
              (1.0 / 1.055) 0.0,
            IFunction.CLElementwisePower normalized multiplier
              (net.add_srgb_to_linear validate final).2 ActivationFunction.LINEAR 255.0 0,
            IFunction.CLQuantizationLayer (net.add_srgb_to_linear validate final).2
              input_output_tensor] := by
  obtain ⟨normalized, divided, multiplier, h⟩ : ∃ normalized divided multiplier,
      ((net.add_srgb_to_linear validate final).1.add_quantization
          (net.add_srgb_to_linear validate final).2 input_output_tensor).functions
        = net.functions ++
          [IFunction.CLActivationLayer final normalized ActivationFunction.LINEAR
              (1.0 / 255.0) 0.055] ++
          [IFunction.CLActivationLayer final divided ActivationFunction.LINEAR
              (1.0 / 1.055) 0.0] ++
          [IFunction.CLElementwisePower normalized multiplier
              (net.add_srgb_to_linear validate final).2 ActivationFunction.LINEAR 255.0 0] ++
          [IFunction.CLQuantizationLayer (net.add_srgb_to_linear validate final).2
              input_output_tensor] :=
    ⟨_, _, _, rfl⟩
  exact ⟨normalized, divided, multiplier, by rw [h]; simp⟩


/-- C17: for every model that `parse_model` imports successfully, the
container's operations are: the dequantization that reads the caller-supplied
tensor, the two operations of the linear-to-gamma conversion of its result
(whose output is the tensor registered under the graph's input index when the
operators are imported), one operation for each operator of the model, the
three operations of the gamma-to-linear conversion of the tensor registered
under the graph's output index, and last the quantization that reads the
result of that conversion and writes the caller-supplied tensor. -/
theorem parse_model_in_place (validate : IFunction → Option String) (model : Model)
    (input_output_tensor : TensorRef) (s : ImportState)
    (h : parse_model validate model input_output_tensor = Outcome.ok s) :
    ∃ subgraph input_index output_index imported final middle dequantized normalized
        multiplier final_normalized final_divided final_multiplier linear_output,
      model.subgraphs[0]? = some subgraph ∧
      subgraph.inputs[0]? = some input_index ∧
      subgraph.outputs[0]? = some output_index ∧
      (prologue validate input_output_tensor).1.functions
        = [IFunction.CLDequantizationLayer input_output_tensor dequantized,
            IFunction.CLActivationLayer dequantized normalized ActivationFunction.LINEAR
              (1.0 / 255.0 * 1.7) 0.0,
            IFunction.CLElementwisePower normalized multiplier
              (prologue validate input_output_tensor).2 ActivationFunction.LINEAR
              269.025 (-14.025)] ∧
      import_operators validate model subgraph subgraph.operators
        ⟨(prologue validate input_output_tensor).1,
          [(input_index, (prologue validate input_output_tensor).2)]⟩ = Outcome.ok imported ∧
      imported.tensors.lookup output_index = some final ∧
      middle.length = subgraph.operators.length ∧
      linear_output = (imported.net.add_srgb_to_linear validate final).2 ∧
      s.tensors = imported.tensors ∧
      s.net.functions = (prologue validate input_output_tensor).1.functions ++ middle ++
        [IFunction.CLActivationLayer final final_normalized ActivationFunction.LINEAR
            (1.0 / 255.0) 0.055,
          IFunction.CLActivationLayer final final_divided ActivationFunction.LINEAR
            (1.0 / 1.055) 0.0,
          IFunction.CLElementwisePower final_normalized final_multiplier linear_output
            ActivationFunction.LINEAR 255.0 0,
          IFunction.CLQuantizationLayer linear_output input_output_tensor] := by
  unfold parse_model at h
  split at h
  · cases h
  · rename_i subgraph hsub
    split_ifs at h
    simp only at h
    split at h
    · cases h
    · rename_i input_index hin
      split at h
      · cases h
      · cases h
      · rename_i imported himp
        split at h
        · cases h
        · rename_i output_index hout
          split at h
          · cases h
          · rename_i final hfinal
            injection h with h
            subst h
            obtain ⟨dequantized, normalized, multiplier, hpro⟩ :=
              prologue_functions validate input_output_tensor
            obtain ⟨final_normalized, final_divided, final_multiplier, hepi⟩ :=
              epilogue_functions validate imported.net final input_output_tensor
            obtain ⟨middle, hlen, hmid⟩ := import_operators_functions _ _ _ _ _ _ himp
            refine ⟨subgraph, input_index, output_index, imported, final, middle, dequantized,
              normalized, multiplier, final_normalized, final_divided, final_multiplier, _,
              hsub, hin, hout, hpro, himp, hfinal, hlen, rfl, rfl, ?_⟩
            rw [hepi, hmid]

/-- Witness of C17: the model with the single operator `RELU` from the graph
input 0 to the graph output 1. -/
theorem parse_model_in_place_witness :
    ∃ subgraph input_index output_index imported final middle dequantized normalized
        multiplier final_normalized final_divided final_multiplier linear_output,
      model_relu.subgraphs[0]? = some subgraph ∧
      subgraph.inputs[0]? = some input_index ∧
      subgraph.outputs[0]? = some output_index ∧
      (prologue accept_all caller_tensor).1.functions
        = [IFunction.CLDequantizationLayer caller_tensor dequantized,
            IFunction.CLActivationLayer dequantized normalized ActivationFunction.LINEAR
              (1.0 / 255.0 * 1.7) 0.0,
            IFunction.CLElementwisePower normalized multiplier
              (prologue accept_all caller_tensor).2 ActivationFunction.LINEAR
              269.025 (-14.025)] ∧
      import_operators accept_all model_relu subgraph subgraph.operators
        ⟨(prologue accept_all caller_tensor).1,
          [(input_index, (prologue accept_all caller_tensor).2)]⟩ = Outcome.ok imported ∧
      imported.tensors.lookup output_index = some final ∧
      middle.length = subgraph.operators.length ∧
      linear_output = (imported.net.add_srgb_to_linear accept_all final).2 ∧
      relu_model_imported.tensors = imported.tensors ∧
      relu_model_imported.net.functions
        = (prologue accept_all caller_tensor).1.functions ++ middle ++
        [IFunction.CLActivationLayer final final_normalized ActivationFunction.LINEAR
            (1.0 / 255.0) 0.055,
          IFunction.CLActivationLayer final final_divided ActivationFunction.LINEAR
            (1.0 / 1.055) 0.0,
          IFunction.CLElementwisePower final_normalized final_multiplier linear_output
            ActivationFunction.LINEAR 255.0 0,
          IFunction.CLQuantizationLayer linear_output caller_tensor] :=
  parse_model_in_place accept_all model_relu caller_tensor relu_model_imported rfl

/-! ## The colour conversions -/

theorem write_same {K : Type} (elements : Elements K) (id : TensorId) (v : Option K) :
    elements.write id v id = v := by
  simp [Elements.write]

theorem write_other {K : Type} (elements : Elements K) (id j : TensorId) (v : Option K)
    (h : j ≠ id) : elements.write id v j = elements j := by
  simp [Elements.write, h]

theorem add_linear_to_srgb_functions (validate : IFunction → Option String) (net : ACLNetwork)
    (input : TensorRef) :
    ∃ normalized multiplier,
      (net.add_linear_to_srgb validate input).1.functions = net.functions ++
        [IFunction.CLActivationLayer input normalized ActivationFunction.LINEAR (1.7 / 255) 0,
          IFunction.CLElementwisePower normalized multiplier
            (net.add_linear_to_srgb validate input).2 ActivationFunction.LINEAR
            269.025 (-14.025)] ∧
      (net.add_linear_to_srgb validate input).1.constant_value multiplier = some (1 / 2.4) := by
  refine ⟨⟨TensorId.owned net.tensors.length, ⟨[to_u32 (input.info.dim 0),
    to_u32 (input.info.dim 1), to_u32 (input.info.dim 2)], DataType.F32⟩⟩,
    ⟨TensorId.owned (net.tensors.length + 2), ⟨[1], DataType.F32⟩⟩, ?_, ?_⟩
  · simp [ACLNetwork.add_linear_to_srgb, ACLNetwork.push,
      ACLNetwork.add_activation, ACLNetwork.create_tensor, ACLNetwork.allocate,
      ACLNetwork.set_tensor_values, ACLNetwork.validate_and_push]
    norm_num
  · simp only [ACLNetwork.constant_value, add_linear_to_srgb_tensors, getElem?_append_add]
    norm_num


theorem add_linear_to_srgb_element (validate : IFunction → Option String) (net : ACLNetwork)
    (input : TensorRef) (elements : Elements ℝ) (x : ℝ) :
    run_elements Real.rpow (net.add_linear_to_srgb validate input).1
        ((net.add_linear_to_srgb validate input).1.functions.drop net.functions.length)
        (elements.write input.id (some x)) (net.add_linear_to_srgb validate input).2.id
      = some ((x * 1.7 / 255) ^ ((1 : ℝ) / 2.4) * 269.025 - 14.025) := by
  obtain ⟨normalized, multiplier, hf, hc⟩ := add_linear_to_srgb_functions validate net input
  rw [hf, List.drop_left]
  simp only [run_elements, List.foldl_cons, List.foldl_nil, IFunction.run_element, write_same,
    hc, Option.map_some', ActivationFunction.apply]
  congr 1
  have h1 : (((1.7 / 255 : ℚ) : ℝ)) * x + ((0 : ℚ) : ℝ) = x * 1.7 / 255 := by
    push_cast
    ring
  have h2 : (((1 / 2.4 : ℚ) : ℝ)) = (1 : ℝ) / 2.4 := by
    push_cast
    ring
  rw [h1, h2, Real.rpow_eq_pow]
  push_cast
  ring


theorem add_srgb_to_linear_functions (validate : IFunction → Option String) (net : ACLNetwork)
    (input : TensorRef) :
    ∃ normalized divided multiplier,
      (net.add_srgb_to_linear validate input).1.functions = net.functions ++
        [IFunction.CLActivationLayer input normalized ActivationFunction.LINEAR (1 / 255) 0.055,
          IFunction.CLActivationLayer input divided ActivationFunction.LINEAR (1 / 1.055) 0,
          IFunction.CLElementwisePower normalized multiplier
            (net.add_srgb_to_linear validate input).2 ActivationFunction.LINEAR 255 0] ∧
      (net.add_srgb_to_linear validate input).1.constant_value multiplier = some 2.4 ∧
      normalized.id ≠ divided.id := by
  refine ⟨⟨TensorId.owned (net.tensors.length + 1), ⟨[to_u32 (input.info.dim 0),
    to_u32 (input.info.dim 1), to_u32 (input.info.dim 2)], DataType.F32⟩⟩,
    ⟨TensorId.owned (net.tensors.length + 2), ⟨[to_u32 (input.info.dim 0),
    to_u32 (input.info.dim 1), to_u32 (input.info.dim 2)], DataType.F32⟩⟩,
    ⟨TensorId.owned (net.tensors.length + 3), ⟨[1], DataType.F32⟩⟩, ?_, ?_, ?_⟩
  · simp [ACLNetwork.add_srgb_to_linear, ACLNetwork.push,
      ACLNetwork.add_activation, ACLNetwork.create_tensor, ACLNetwork.allocate,
      ACLNetwork.set_tensor_values, ACLNetwork.validate_and_push]
    norm_num
  · simp only [ACLNetwork.constant_value, add_srgb_to_linear_tensors, getElem?_append_add]
    simp
  · simp

theorem add_srgb_to_linear_element (validate : IFunction → Option String) (net : ACLNetwork)
    (input : TensorRef) (elements : Elements ℝ) (v : ℝ) :
    run_elements Real.rpow (net.add_srgb_to_linear validate input).1
        ((net.add_srgb_to_linear validate input).1.functions.drop net.functions.length)
        (elements.write input.id (some v)) (net.add_srgb_to_linear validate input).2.id
      = some ((v / 255 + 0.055) ^ (2.4 : ℝ) * 255) := by
  obtain ⟨normalized, divided, multiplier, hf, hc, hne⟩ :=
    add_srgb_to_linear_functions validate net input
  rw [hf, List.drop_left]
  simp only [run_elements, List.foldl_cons, List.foldl_nil, IFunction.run_element, write_same,
    hc, Option.map_some', ActivationFunction.apply, write_other _ _ _ _ hne]
  congr 1
  have h1 : (((1 / 255 : ℚ) : ℝ)) * v + ((0.055 : ℚ) : ℝ) = v / 255 + 0.055 := by
    push_cast
    ring
  have h2 : (((2.4 : ℚ) : ℝ)) = (2.4 : ℝ) := by
    push_cast
    ring
  rw [h1, h2, Real.rpow_eq_pow]
  push_cast
  ring

theorem one_lt_gamma_factor : (1 : ℝ) < (1.055 : ℝ) ^ (2.4 : ℝ) :=
  Real.one_lt_rpow (by norm_num) (by norm_num)

/-- The round trip through the decode formula that the comment of
`add_srgb_to_linear` documents, `(((v / 255 + 0.055) / 1.055) ^ 2.4) * 255`, is
exact for every `x ≥ 0`. -/
theorem gamma_round_trip_of_documented_decode (x : ℝ) (hx : 0 ≤ x) :
    ((((x * 1.7 / 255) ^ ((1 : ℝ) / 2.4) * 269.025 - 14.025) / 255 + 0.055) / 1.055)
        ^ (2.4 : ℝ) * 255 / 1.7 = x := by
  have hy : (0 : ℝ) ≤ x * 1.7 / 255 := by positivity
  have hinner : (((x * 1.7 / 255) ^ ((1 : ℝ) / 2.4) * 269.025 - 14.025) / 255 + 0.055) / 1.055
      = (x * 1.7 / 255) ^ ((1 : ℝ) / 2.4) := by
    ring
  rw [hinner, ← Real.rpow_mul hy]
  have : (1 : ℝ) / 2.4 * 2.4 = 1 := by norm_num
  rw [this, Real.rpow_one]
  ring

/-- C18: the operations appended by `add_linear_to_srgb` are a `LINEAR`
activation of the input with scale `1.7 / 255` and offset `0`, then an
elementwise power that reads the activation's output, has the loaded constant
`1 / 2.4` as exponent and a fused `LINEAR` activation with scale `269.025` and
offset `-14.025`; run on an input element `x` they write
`((x * 1.7 / 255) ^ (1 / 2.4)) * 269.025 - 14.025` to the returned tensor. -/
theorem add_linear_to_srgb_computes (validate : IFunction → Option String) (net : ACLNetwork)
    (input : TensorRef) (elements : Elements ℝ) (x : ℝ) :
    (∃ normalized multiplier,
      (net.add_linear_to_srgb validate input).1.functions = net.functions ++
        [IFunction.CLActivationLayer input normalized ActivationFunction.LINEAR (1.7 / 255) 0,
          IFunction.CLElementwisePower normalized multiplier
            (net.add_linear_to_srgb validate input).2 ActivationFunction.LINEAR
            269.025 (-14.025)] ∧
      (net.add_linear_to_srgb validate input).1.constant_value multiplier = some (1 / 2.4)) ∧
    run_elements Real.rpow (net.add_linear_to_srgb validate input).1
        ((net.add_linear_to_srgb validate input).1.functions.drop net.functions.length)
        (elements.write input.id (some x)) (net.add_linear_to_srgb validate input).2.id
      = some ((x * 1.7 / 255) ^ ((1 : ℝ) / 2.4) * 269.025 - 14.025) :=
  ⟨add_linear_to_srgb_functions validate net input,
    add_linear_to_srgb_element validate net input elements x⟩

/-- C19, at the element `v = 255`: the operations appended by
`add_srgb_to_linear` write `1.055 ^ 2.4 * 255` (about `290`), not
`(((255 / 255 + 0.055) / 1.055) ^ 2.4) * 255 = 255`.  The power reads the
normalized, offset-corrected value itself; the division by `1.055` is
configured on the raw input as a separate activation whose output nothing
reads. -/
theorem add_srgb_to_linear_at_white (validate : IFunction → Option String) (net : ACLNetwork)
    (input : TensorRef) (elements : Elements ℝ) :
    (∃ normalized divided multiplier,
      (net.add_srgb_to_linear validate input).1.functions = net.functions ++
        [IFunction.CLActivationLayer input normalized ActivationFunction.LINEAR (1 / 255) 0.055,
          IFunction.CLActivationLayer input divided ActivationFunction.LINEAR (1 / 1.055) 0,
          IFunction.CLElementwisePower normalized multiplier
            (net.add_srgb_to_linear validate input).2 ActivationFunction.LINEAR 255 0] ∧
      (net.add_srgb_to_linear validate input).1.constant_value multiplier = some 2.4 ∧
      normalized.id ≠ divided.id) ∧
    run_elements Real.rpow (net.add_srgb_to_linear validate input).1
        ((net.add_srgb_to_linear validate input).1.functions.drop net.functions.length)
        (elements.write input.id (some 255)) (net.add_srgb_to_linear validate input).2.id
      = some ((1.055 : ℝ) ^ (2.4 : ℝ) * 255) ∧
    (1.055 : ℝ) ^ (2.4 : ℝ) * 255 ≠ (((255 : ℝ) / 255 + 0.055) / 1.055) ^ (2.4 : ℝ) * 255 := by
  refine ⟨add_srgb_to_linear_functions validate net input, ?_, ?_⟩
  · rw [add_srgb_to_linear_element]
    norm_num
  · have h := one_lt_gamma_factor
    have h1 : (((255 : ℝ) / 255 + 0.055) / 1.055) = 1 := by norm_num
    rw [h1, Real.one_rpow]
    intro hcon
    linarith

/-- C20, at `x = 150`: the element function configured by `add_linear_to_srgb`
maps `150` to `255`, the element function configured by `add_srgb_to_linear`
maps `255` to `1.055 ^ 2.4 * 255`, and that value divided by `1.7` is
`150 * 1.055 ^ 2.4` (about `170.6`), not `150`. -/
theorem gamma_round_trip_at_150 (validate : IFunction → Option String) (net : ACLNetwork)
    (input : TensorRef) (elements elements' : Elements ℝ) :
    run_elements Real.rpow (net.add_linear_to_srgb validate input).1
        ((net.add_linear_to_srgb validate input).1.functions.drop net.functions.length)
        (elements.write input.id (some 150)) (net.add_linear_to_srgb validate input).2.id
      = some 255 ∧
    run_elements Real.rpow
        ((net.add_linear_to_srgb validate input).1.add_srgb_to_linear validate
          (net.add_linear_to_srgb validate input).2).1
        (((net.add_linear_to_srgb validate input).1.add_srgb_to_linear validate
          (net.add_linear_to_srgb validate input).2).1.functions.drop
          (net.add_linear_to_srgb validate input).1.functions.length)
        (elements'.write (net.add_linear_to_srgb validate input).2.id (some 255))
        ((net.add_linear_to_srgb validate input).1.add_srgb_to_linear validate
          (net.add_linear_to_srgb validate input).2).2.id
      = some ((1.055 : ℝ) ^ (2.4 : ℝ) * 255) ∧
    (1.055 : ℝ) ^ (2.4 : ℝ) * 255 / 1.7 ≠ 150 := by
  refine ⟨?_, ?_, ?_⟩
  · rw [add_linear_to_srgb_element]
    have h1 : (150 : ℝ) * 1.7 / 255 = 1 := by norm_num
    rw [h1, Real.one_rpow]
    norm_num
  · rw [add_srgb_to_linear_element]
    norm_num
  · have h := one_lt_gamma_factor
    intro hcon
    have : (1.055 : ℝ) ^ (2.4 : ℝ) = 1 := by
      have h2 : (1.055 : ℝ) ^ (2.4 : ℝ) * 255 = 150 * 1.7 := by
        field_simp at hcon
        linarith
      linarith
    linarith

/-! ## Running the container -/

theorem run_calls_from (functions : List IFunction) (calls : List Call) :
    functions.foldl (fun calls function => calls ++ [Call.prepare function, Call.run function])
        calls
      = calls ++ functions.flatMap (fun function => [Call.prepare function, Call.run function]) := by
  induction functions generalizing calls with
  | nil => simp
  | cons f fs ih => simp [ih]

theorem flatMap_pair_getElem? {α β : Type} (p q : α → β) (l : List α) (k : Nat) (a : α)
    (h : l[k]? = some a) :
    (l.flatMap (fun x => [p x, q x]))[2 * k]? = some (p a) ∧
      (l.flatMap (fun x => [p x, q x]))[2 * k + 1]? = some (q a) := by
  induction l generalizing k with
  | nil => simp at h
  | cons x xs ih =>
    cases k with
    | zero =>
      simp only [List.getElem?_cons_zero, Option.some.injEq] at h
      subst h
      simp
    | succ k =>
      simp only [List.getElem?_cons_succ] at h
      have := ih k h
      have e1 : 2 * (k + 1) = (2 * k) + 1 + 1 := by ring
      rw [e1]
      simpa using this

/-- C21: one call of `ACLNetwork::run` on a container with the operation list
`[f1, ..., fn]` issues exactly the calls `prepare(f1), run(f1), ...,
prepare(fn), run(fn)`: there are `2 * n` calls, call `2 * k` is the `prepare`
and call `2 * k + 1` the `run` of the `k`-th operation, and the container,
with its operation list, is unchanged. -/
theorem run_prepares_then_runs_each_once (net : ACLNetwork) :
    net.run.2 = net.functions.flatMap (fun function => [Call.prepare function, Call.run function]) ∧
      net.run.2.length = 2 * net.functions.length ∧
      (∀ k function, net.functions[k]? = some function →
        net.run.2[2 * k]? = some (Call.prepare function) ∧
        net.run.2[2 * k + 1]? = some (Call.run function)) ∧
      net.run.1 = net := by
  have h : net.run.2
      = net.functions.flatMap (fun function => [Call.prepare function, Call.run function]) := by
    simp [ACLNetwork.run, run_calls_from]
  refine ⟨h, ?_, ?_, rfl⟩
  · rw [h]
    generalize net.functions = l
    induction l with
    | nil => rfl
    | cons x xs ih => simp [ih]; ring
  · intro k function hk
    rw [h]
    exact flatMap_pair_getElem? _ _ _ _ _ hk

/-- Witness of C21 on a container with two operations. -/
theorem run_prepares_then_runs_each_once_witness :
    two_operation_net.run.2[2 * 1]?
        = some (Call.prepare (IFunction.CLQuantizationLayer conv_input caller_tensor)) ∧
      two_operation_net.run.2[2 * 1 + 1]?
        = some (Call.run (IFunction.CLQuantizationLayer conv_input caller_tensor)) :=
  (run_prepares_then_runs_each_once two_operation_net).2.2.1 1
    (IFunction.CLQuantizationLayer conv_input caller_tensor) rfl

/-! ## Frame of the `add_*` methods -/
/-- C26, counterexample: for an input tensor of shape `[2^32 + 2, 4, 4]`, a
`1 x 1` kernel and arrays of the lengths the call reads (two kernel values, one
bias value), the call of `add_conv2d` is defined and the kernel tensor it
creates has the shape `[2, 1, 1, 1]`, not `[2^32 + 2, 1, 1, 1]`: the channel
count is stored in a `uint32_t`.  And not every parameter set gives a call
whose behaviour is defined: with empty value arrays for a kernel tensor of four
elements the copy reads behind the end of the array, and with the stride `0`
the output size is the conversion of an infinite quotient. -/
theorem add_conv2d_kernel_shape_wraps :
    wide_input.info.shape = [4294967298, 4, 4] ∧
      ACLNetwork.add_conv2d_defined wide_input 1 1 1 0 0 0 0 1 1 [1, 2] [0] 1 1 ∧
      ((empty_state.net.add_conv2d accept_all wide_input 1 1 1 0 0 0 0 1 1 [1, 2] [0]
        ActivationFunction.IDENTITY 1 1).1.tensors[0]?).map (fun tensor => tensor.info.shape)
        = some [2, 1, 1, 1] ∧
      ¬ ACLNetwork.add_conv2d_defined conv_input 1 1 2 0 0 0 0 1 1 [] [] 1 1 ∧
      ¬ ACLNetwork.add_conv2d_defined conv_input 1 1 2 0 0 0 0 0 1 [1, 2, 3, 4] [0, 0] 1 1 := by
  refine ⟨rfl, ⟨calculate_conv_output_size_defined_of_exact 4 1 0 1 1 (by decide) (by decide)
      (by decide) (by decide),
    calculate_conv_output_size_defined_of_exact 4 1 0 1 1 (by decide) (by decide) (by decide)
      (by decide), by decide, by decide⟩, ?_, ?_, ?_⟩
  · rw [add_conv2d_tensors]
    decide
  · intro h
    exact absurd h.2.2.1 (by decide)
  · intro h
    exact h.1.1 rfl

/-- C26 (amended): for every input tensor of shape `[C, W, H]` with `C` below
`2^32` and every parameter set for which the behaviour of the call is defined
(the strides are not zero, the output sizes are below `2^32`, the value arrays
hold what is copied out of them), `add_conv2d` leaves the existing tensors and
operations as they are and appends exactly three tensors and one operation: the
kernel tensor of shape `[C, kernel_width, kernel_height, output_features]`, the
bias tensor of shape `[output_features]`, and the returned output tensor of
shape `[output_features, out_w, out_h]` with
`out_w = calculate_conv_output_size(W, kernel_width, max(pad_x_front, pad_x_back), stride_x, dilation_x)`
and `out_h` likewise for the `y` axis.  A kernel tensor of fewer than `2^32`
elements holds the first that many of `kernel_values`, and a bias tensor of
fewer than `2^32` elements the first that many of `bias_values`. -/
theorem add_conv2d_frame (validate : IFunction → Option String) (net : ACLNetwork)
    (input : TensorRef) (C W H : Nat) (kernel_width kernel_height output_features : Nat)
    (pad_x_front pad_x_back pad_y_front pad_y_back stride_x stride_y : Nat)
    (kernel_values bias_values : List ℚ) (activation : ActivationFunction)
    (dilation_x dilation_y : Nat)
    (hshape : input.info.shape = [C, W, H]) (hC : C < 4294967296)
    (hdefined : ACLNetwork.add_conv2d_defined input kernel_width kernel_height output_features
      pad_x_front pad_x_back pad_y_front pad_y_back stride_x stride_y kernel_values bias_values
      dilation_x dilation_y) :
    (∃ kernel bias : List ℚ,
      (net.add_conv2d validate input kernel_width kernel_height output_features pad_x_front
        pad_x_back pad_y_front pad_y_back stride_x stride_y kernel_values bias_values activation
        dilation_x dilation_y).1.tensors
        = net.tensors ++
          [⟨⟨[C, kernel_width, kernel_height, output_features], DataType.F32⟩, true, kernel⟩,
            ⟨⟨[output_features], DataType.F32⟩, true, bias⟩,
            ⟨⟨[output_features,
                calculate_conv_output_size W kernel_width (max pad_x_front pad_x_back) stride_x
                  dilation_x,
                calculate_conv_output_size H kernel_height (max pad_y_front pad_y_back) stride_y
                  dilation_y], DataType.F32⟩, true, []⟩] ∧
      (C * kernel_width * kernel_height * output_features < 4294967296 →
        C * kernel_width * kernel_height * output_features ≤ kernel_values.length ∧
        kernel = kernel_values.take (C * kernel_width * kernel_height * output_features)) ∧
      (output_features < 4294967296 →
        output_features ≤ bias_values.length ∧ bias = bias_values.take output_features)) ∧
    (∃ function, (net.add_conv2d validate input kernel_width kernel_height output_features
      pad_x_front pad_x_back pad_y_front pad_y_back stride_x stride_y kernel_values bias_values
      activation dilation_x dilation_y).1.functions = net.functions ++ [function]) ∧
    (net.add_conv2d validate input kernel_width kernel_height output_features pad_x_front
      pad_x_back pad_y_front pad_y_back stride_x stride_y kernel_values bias_values activation
      dilation_x dilation_y).2
      = ⟨TensorId.owned (net.tensors.length + 2), ⟨[output_features,
          calculate_conv_output_size W kernel_width (max pad_x_front pad_x_back) stride_x
            dilation_x,
          calculate_conv_output_size H kernel_height (max pad_y_front pad_y_back) stride_y
            dilation_y], DataType.F32⟩⟩ := by
  have d0 : to_u32 (input.info.dim 0) = C := by
    simp only [TensorInfo.dim, hshape, to_u32, U32]
    exact Nat.mod_eq_of_lt hC
  have d1 : input.info.dim 1 = W := by simp [TensorInfo.dim, hshape]
  have d2 : input.info.dim 2 = H := by simp [TensorInfo.dim, hshape]
  obtain ⟨-, -, hkernel, hbias⟩ := hdefined
  rw [d0] at hkernel
  refine ⟨⟨((⟨[C, kernel_width, kernel_height, output_features], DataType.F32⟩ :
      TensorInfo).copy_data_to_tensor kernel_values).1,
    ((⟨[output_features], DataType.F32⟩ : TensorInfo).copy_data_to_tensor bias_values).1,
    ?_, ?_, ?_⟩, add_conv2d_functions .., ?_⟩
  · rw [add_conv2d_tensors, d0, d1, d2, calculate_conv_output_size_to_u32,
      calculate_conv_output_size_to_u32]
  · intro hN
    obtain ⟨hload, hdef⟩ := kernel_tensor_load C kernel_width kernel_height output_features
      kernel_values hN
    exact ⟨hdef.mp hkernel, hload⟩
  · intro hN
    obtain ⟨hload, hdef⟩ := bias_tensor_load output_features bias_values hN
    exact ⟨hdef.mp hbias, hload⟩
  · rw [add_conv2d_output, d1, d2, calculate_conv_output_size_to_u32,
      calculate_conv_output_size_to_u32]

/-- Witness of C26 (amended) on `conv_input`, of shape `[2, 4, 4]`, with a
kernel value array of six floats for a kernel tensor of four elements. -/
theorem add_conv2d_frame_witness :
    ∃ kernel bias : List ℚ,
      (empty_state.net.add_conv2d accept_all conv_input 1 1 2 0 0 0 0 1 1 [1, 2, 3, 4, 5, 6]
        [0, 0] ActivationFunction.IDENTITY 1 1).1.tensors
        = empty_state.net.tensors ++
          [⟨⟨[2, 1, 1, 2], DataType.F32⟩, true, kernel⟩,
            ⟨⟨[2], DataType.F32⟩, true, bias⟩,
            ⟨⟨[2, calculate_conv_output_size 4 1 (max 0 0) 1 1,
                calculate_conv_output_size 4 1 (max 0 0) 1 1], DataType.F32⟩, true, []⟩] ∧
      (2 * 1 * 1 * 2 < 4294967296 →
        2 * 1 * 1 * 2 ≤ [(1 : ℚ), 2, 3, 4, 5, 6].length ∧
        kernel = [(1 : ℚ), 2, 3, 4, 5, 6].take (2 * 1 * 1 * 2)) ∧
      (2 < 4294967296 → 2 ≤ [(0 : ℚ), 0].length ∧ bias = [(0 : ℚ), 0].take 2) :=
  (add_conv2d_frame accept_all empty_state.net conv_input 2 4 4 1 1 2 0 0 0 0 1 1
    [1, 2, 3, 4, 5, 6] [0, 0] ActivationFunction.IDENTITY 1 1 rfl (by decide)
    ⟨calculate_conv_output_size_defined_of_exact 4 1 0 1 1 (by decide) (by decide) (by decide)
        (by decide),
      calculate_conv_output_size_defined_of_exact 4 1 0 1 1 (by decide) (by decide) (by decide)
        (by decide), by decide, by decide⟩).1

/-- C22: validation is advisory.  For `add_conv2d`, `add_depthwise_conv2d`,
`add_conv2d_transpose`, `add_linear_to_srgb` and `add_srgb_to_linear`, for every
input and any two verdicts `validate`, `validate'` of the external runtime
(one that accepts, one that rejects), the tensors of the container, its
operation list and the returned tensor are the same, and the operation list is
the old one with the configured operation appended. -/
theorem validation_is_advisory (validate validate' : IFunction → Option String)
    (net : ACLNetwork) (input : TensorRef) (kernel_width kernel_height output_features : Nat)
    (pad_x_front pad_x_back pad_y_front pad_y_back stride_x stride_y : Nat)
    (kernel_values bias_values : List ℚ) (activation : ActivationFunction)
    (dilation_x dilation_y : Nat) :
    ((net.add_conv2d validate input kernel_width kernel_height output_features pad_x_front
        pad_x_back pad_y_front pad_y_back stride_x stride_y kernel_values bias_values
        activation dilation_x dilation_y).1.tensors
      = (net.add_conv2d validate' input kernel_width kernel_height output_features pad_x_front
        pad_x_back pad_y_front pad_y_back stride_x stride_y kernel_values bias_values
        activation dilation_x dilation_y).1.tensors ∧
      (net.add_conv2d validate input kernel_width kernel_height output_features pad_x_front
        pad_x_back pad_y_front pad_y_back stride_x stride_y kernel_values bias_values
        activation dilation_x dilation_y).1.functions
      = (net.add_conv2d validate' input kernel_width kernel_height output_features pad_x_front
        pad_x_back pad_y_front pad_y_back stride_x stride_y kernel_values bias_values
        activation dilation_x dilation_y).1.functions ∧
      (net.add_conv2d validate input kernel_width kernel_height output_features pad_x_front
        pad_x_back pad_y_front pad_y_back stride_x stride_y kernel_values bias_values
        activation dilation_x dilation_y).2
      = (net.add_conv2d validate' input kernel_width kernel_height output_features pad_x_front
        pad_x_back pad_y_front pad_y_back stride_x stride_y kernel_values bias_values
        activation dilation_x dilation_y).2 ∧
      ∃ function, (net.add_conv2d validate input kernel_width kernel_height output_features
        pad_x_front pad_x_back pad_y_front pad_y_back stride_x stride_y kernel_values
        bias_values activation dilation_x dilation_y).1.functions
        = net.functions ++ [function]) ∧
    ((net.add_depthwise_conv2d validate input kernel_width kernel_height pad_x_front
        pad_x_back pad_y_front pad_y_back stride_x stride_y kernel_values bias_values
        activation dilation_x dilation_y).1.tensors
      = (net.add_depthwise_conv2d validate' input kernel_width kernel_height pad_x_front
        pad_x_back pad_y_front pad_y_back stride_x stride_y kernel_values bias_values
        activation dilation_x dilation_y).1.tensors ∧
      (net.add_depthwise_conv2d validate input kernel_width kernel_height pad_x_front
        pad_x_back pad_y_front pad_y_back stride_x stride_y kernel_values bias_values
        activation dilation_x dilation_y).1.functions
      = (net.add_depthwise_conv2d validate' input kernel_width kernel_height pad_x_front
        pad_x_back pad_y_front pad_y_back stride_x stride_y kernel_values bias_values
        activation dilation_x dilation_y).1.functions ∧
      (net.add_depthwise_conv2d validate input kernel_width kernel_height pad_x_front
        pad_x_back pad_y_front pad_y_back stride_x stride_y kernel_values bias_values
        activation dilation_x dilation_y).2
      = (net.add_depthwise_conv2d validate' input kernel_width kernel_height pad_x_front
        pad_x_back pad_y_front pad_y_back stride_x stride_y kernel_values bias_values
        activation dilation_x dilation_y).2 ∧
      ∃ function, (net.add_depthwise_conv2d validate input kernel_width kernel_height
        pad_x_front pad_x_back pad_y_front pad_y_back stride_x stride_y kernel_values
        bias_values activation dilation_x dilation_y).1.functions
        = net.functions ++ [function]) ∧
    ((net.add_conv2d_transpose validate input kernel_width kernel_height output_features
        pad_x_front pad_x_back pad_y_front pad_y_back stride_x stride_y kernel_values
        bias_values).1.tensors
      = (net.add_conv2d_transpose validate' input kernel_width kernel_height output_features
        pad_x_front pad_x_back pad_y_front pad_y_back stride_x stride_y kernel_values
        bias_values).1.tensors ∧
      (net.add_conv2d_transpose validate input kernel_width kernel_height output_features
        pad_x_front pad_x_back pad_y_front pad_y_back stride_x stride_y kernel_values
        bias_values).1.functions
      = (net.add_conv2d_transpose validate' input kernel_width kernel_height output_features
        pad_x_front pad_x_back pad_y_front pad_y_back stride_x stride_y kernel_values
        bias_values).1.functions ∧
      (net.add_conv2d_transpose validate input kernel_width kernel_height output_features
        pad_x_front pad_x_back pad_y_front pad_y_back stride_x stride_y kernel_values
        bias_values).2
      = (net.add_conv2d_transpose validate' input kernel_width kernel_height output_features
        pad_x_front pad_x_back pad_y_front pad_y_back stride_x stride_y kernel_values
        bias_values).2 ∧
      ∃ function, (net.add_conv2d_transpose validate input kernel_width kernel_height
        output_features pad_x_front pad_x_back pad_y_front pad_y_back stride_x stride_y
        kernel_values bias_values).1.functions = net.functions ++ [function]) ∧
    ((net.add_linear_to_srgb validate input).1.tensors
        = (net.add_linear_to_srgb validate' input).1.tensors ∧
      (net.add_linear_to_srgb validate input).1.functions
        = (net.add_linear_to_srgb validate' input).1.functions ∧
      (net.add_linear_to_srgb validate input).2 = (net.add_linear_to_srgb validate' input).2 ∧
      ∃ activation power, (net.add_linear_to_srgb validate input).1.functions
        = net.functions ++ [activation, power]) ∧
    ((net.add_srgb_to_linear validate input).1.tensors
        = (net.add_srgb_to_linear validate' input).1.tensors ∧
      (net.add_srgb_to_linear validate input).1.functions
        = (net.add_srgb_to_linear validate' input).1.functions ∧
      (net.add_srgb_to_linear validate input).2 = (net.add_srgb_to_linear validate' input).2 ∧
      ∃ activation activation' power, (net.add_srgb_to_linear validate input).1.functions
        = net.functions ++ [activation, activation', power]) := by
  refine ⟨⟨rfl, rfl, rfl, add_conv2d_functions ..⟩, ⟨rfl, rfl, rfl, add_depthwise_conv2d_functions ..⟩,
    ⟨rfl, rfl, rfl, add_conv2d_transpose_functions ..⟩, ⟨rfl, rfl, rfl, ?_⟩, ⟨rfl, rfl, rfl, ?_⟩⟩
  · obtain ⟨normalized, multiplier, h, -⟩ := add_linear_to_srgb_functions validate net input
    exact ⟨_, _, h⟩
  · obtain ⟨normalized, divided, multiplier, h, -, -⟩ :=
      add_srgb_to_linear_functions validate net input
    exact ⟨_, _, _, h⟩

/-- C23, counterexample: `add_quantization` on the empty container leaves the
number of owned tensors at `0`: it creates no tensor. -/
theorem add_quantization_creates_no_tensor :
    ¬ ((empty_state.net.add_quantization conv_input caller_tensor).tensors.length
      > empty_state.net.tensors.length) := by
  decide

/-- C23 (amended): every public `add_*` method other than `add_quantization`
strictly increases the number of tensors owned by the container, by one
(`add_pad`, `add_addition`, `add_activation`, `add_dequantization`), by three
(`add_conv2d`, `add_depthwise_conv2d`, `add_conv2d_transpose`,
`add_linear_to_srgb`) or by four (`add_srgb_to_linear`); `add_quantization`
leaves the tensors as they are and appends one operation. -/
theorem add_methods_allocate (validate : IFunction → Option String) (net : ACLNetwork)
    (input input' : TensorRef) (pad_x pad_y : Nat) (activation : ActivationFunction) (a b : ℚ)
    (kernel_width kernel_height output_features : Nat)
    (pad_x_front pad_x_back pad_y_front pad_y_back stride_x stride_y : Nat)
    (kernel_values bias_values : List ℚ) (dilation_x dilation_y : Nat) :
    (net.add_pad input pad_x pad_y).1.tensors.length = net.tensors.length + 1 ∧
    (net.add_addition input input' activation).1.tensors.length = net.tensors.length + 1 ∧
    (net.add_activation input activation a b).1.tensors.length = net.tensors.length + 1 ∧
    (net.add_conv2d validate input kernel_width kernel_height output_features pad_x_front
      pad_x_back pad_y_front pad_y_back stride_x stride_y kernel_values bias_values activation
      dilation_x dilation_y).1.tensors.length = net.tensors.length + 3 ∧
    (net.add_depthwise_conv2d validate input kernel_width kernel_height pad_x_front
      pad_x_back pad_y_front pad_y_back stride_x stride_y kernel_values bias_values activation
      dilation_x dilation_y).1.tensors.length = net.tensors.length + 3 ∧
    (net.add_conv2d_transpose validate input kernel_width kernel_height output_features
      pad_x_front pad_x_back pad_y_front pad_y_back stride_x stride_y kernel_values
      bias_values).1.tensors.length = net.tensors.length + 3 ∧
    (net.add_linear_to_srgb validate input).1.tensors.length = net.tensors.length + 3 ∧
    (net.add_srgb_to_linear validate input).1.tensors.length = net.tensors.length + 4 ∧
    (net.add_dequantization input).1.tensors.length = net.tensors.length + 1 ∧
    (net.add_quantization input input').tensors = net.tensors ∧
    (net.add_quantization input input').functions.length = net.functions.length + 1 := by
  refine ⟨?_, ?_, ?_, ?_, ?_, ?_, ?_, ?_, ?_, rfl, ?_⟩ <;>
    simp [ACLNetwork.add_pad, ACLNetwork.add_addition, ACLNetwork.add_activation,
      ACLNetwork.add_conv2d, ACLNetwork.add_depthwise_conv2d, ACLNetwork.add_conv2d_transpose,
      ACLNetwork.add_linear_to_srgb, ACLNetwork.add_srgb_to_linear,
      ACLNetwork.add_dequantization, ACLNetwork.add_quantization, ACLNetwork.push,
      ACLNetwork.create_tensor, ACLNetwork.allocate, ACLNetwork.set_tensor_values,
      ACLNetwork.validate_and_push]

theorem add_srgb_to_linear_structure (validate : IFunction → Option String) (net : ACLNetwork)
    (input : TensorRef) :
    ∃ normalized divided multiplier,
      (net.add_srgb_to_linear validate input).1.functions = net.functions ++
        [IFunction.CLActivationLayer input normalized ActivationFunction.LINEAR (1 / 255) 0.055,
          IFunction.CLActivationLayer input divided ActivationFunction.LINEAR (1 / 1.055) 0,
          IFunction.CLElementwisePower normalized multiplier
            (net.add_srgb_to_linear validate input).2 ActivationFunction.LINEAR 255 0] ∧
      (net.add_srgb_to_linear validate input).1.constant_value multiplier = some 2.4 ∧
      normalized.id = TensorId.owned (net.tensors.length + 1) ∧
      divided.id = TensorId.owned (net.tensors.length + 2) ∧
      multiplier.id = TensorId.owned (net.tensors.length + 3) ∧
      (net.add_srgb_to_linear validate input).2.id = TensorId.owned net.tensors.length := by
  refine ⟨⟨TensorId.owned (net.tensors.length + 1), ⟨[to_u32 (input.info.dim 0),
    to_u32 (input.info.dim 1), to_u32 (input.info.dim 2)], DataType.F32⟩⟩,
    ⟨TensorId.owned (net.tensors.length + 2), ⟨[to_u32 (input.info.dim 0),
    to_u32 (input.info.dim 1), to_u32 (input.info.dim 2)], DataType.F32⟩⟩,
    ⟨TensorId.owned (net.tensors.length + 3), ⟨[1], DataType.F32⟩⟩, ?_, ?_, rfl, rfl, rfl, ?_⟩
  · simp [ACLNetwork.add_srgb_to_linear, ACLNetwork.push,
      ACLNetwork.add_activation, ACLNetwork.create_tensor, ACLNetwork.allocate,
      ACLNetwork.set_tensor_values, ACLNetwork.validate_and_push]
    norm_num
  · simp only [ACLNetwork.constant_value, add_srgb_to_linear_tensors, getElem?_append_add]
    simp
  · simp [ACLNetwork.add_srgb_to_linear, ACLNetwork.create_tensor]

theorem run_without_second_activation (net : ACLNetwork) (input normalized divided multiplier
    output : TensorRef) (a b : ℚ) (elements : Elements ℝ) (v : ℝ)
    (hc : net.constant_value multiplier = some 2.4) (hne : normalized.id ≠ divided.id) :
    run_elements Real.rpow net
        [IFunction.CLActivationLayer input normalized ActivationFunction.LINEAR (1 / 255) 0.055,
          IFunction.CLActivationLayer input divided ActivationFunction.LINEAR a b,
          IFunction.CLElementwisePower normalized multiplier output ActivationFunction.LINEAR
            255 0]
        (elements.write input.id (some v)) output.id
      = some ((v / 255 + 0.055) ^ (2.4 : ℝ) * 255) := by
  simp only [run_elements, List.foldl_cons, List.foldl_nil, IFunction.run_element, write_same,
    hc, Option.map_some', ActivationFunction.apply, write_other _ _ _ _ hne]
  congr 1
  have h1 : (((1 / 255 : ℚ) : ℝ)) * v + ((0.055 : ℚ) : ℝ) = v / 255 + 0.055 := by
    push_cast
    ring
  have h2 : (((2.4 : ℚ) : ℝ)) = (2.4 : ℝ) := by
    push_cast
    ring
  rw [h1, h2, Real.rpow_eq_pow]
  push_cast
  ring

/-- C29: `add_srgb_to_linear`, called with a tensor of the caller or of the
container, appends exactly three operations: two `LINEAR` activations that
both read the function's input (scale `1/255`, offset `0.055`; scale
`1/1.055`, offset `0`), then an elementwise power.  No appended operation reads
the output of the second activation; the power reads the first activation's
output and the constant; and the element written to the returned tensor is
`(v / 255 + 0.055) ^ 2.4 * 255` whatever scale and offset the second
activation has. -/
theorem add_srgb_to_linear_ignores_division (validate : IFunction → Option String)
    (net : ACLNetwork) (input : TensorRef) (hinput : net.has_tensor input) :
    ∃ normalized divided multiplier,
      (net.add_srgb_to_linear validate input).1.functions = net.functions ++
        [IFunction.CLActivationLayer input normalized ActivationFunction.LINEAR (1 / 255) 0.055,
          IFunction.CLActivationLayer input divided ActivationFunction.LINEAR (1 / 1.055) 0,
          IFunction.CLElementwisePower normalized multiplier
            (net.add_srgb_to_linear validate input).2 ActivationFunction.LINEAR 255 0] ∧
      (∀ function ∈ (net.add_srgb_to_linear validate input).1.functions.drop
          net.functions.length, divided.id ∉ function.inputs) ∧
      (IFunction.CLElementwisePower normalized multiplier
          (net.add_srgb_to_linear validate input).2 ActivationFunction.LINEAR 255 0).inputs
        = [normalized.id, multiplier.id] ∧
      (net.add_srgb_to_linear validate input).2.id ≠ divided.id ∧
      ∀ (a b : ℚ) (elements : Elements ℝ) (v : ℝ),
        run_elements Real.rpow (net.add_srgb_to_linear validate input).1
          [IFunction.CLActivationLayer input normalized ActivationFunction.LINEAR (1 / 255)
              0.055,
            IFunction.CLActivationLayer input divided ActivationFunction.LINEAR a b,
            IFunction.CLElementwisePower normalized multiplier
              (net.add_srgb_to_linear validate input).2 ActivationFunction.LINEAR 255 0]
          (elements.write input.id (some v)) (net.add_srgb_to_linear validate input).2.id
        = some ((v / 255 + 0.055) ^ (2.4 : ℝ) * 255) := by
  obtain ⟨normalized, divided, multiplier, hf, hc, hn, hd, hm, ho⟩ :=
    add_srgb_to_linear_structure validate net input
  have hne : normalized.id ≠ divided.id := by rw [hn, hd]; simp
  have hin : input.id ≠ divided.id := by
    rw [hd]
    intro hcon
    unfold ACLNetwork.has_tensor at hinput
    rw [hcon] at hinput
    simp at hinput
  refine ⟨normalized, divided, multiplier, hf, ?_, rfl, ?_, ?_⟩
  · rw [hf, List.drop_left]
    intro function hmem
    simp only [List.mem_cons, List.mem_singleton, List.not_mem_nil, or_false] at hmem
    rcases hmem with h | h | h <;> subst h <;>
      simp only [IFunction.inputs, List.mem_cons, List.mem_singleton, List.not_mem_nil,
        or_false, not_or]
    · exact fun h => hin h.symm
    · exact fun h => hin h.symm
    · refine ⟨fun h => hne h.symm, ?_⟩
      rw [hm, hd]
      simp
  · rw [ho, hd]
    simp
  · intro a b elements v
    exact run_without_second_activation _ _ _ _ _ _ a b elements v hc hne

/-- Witness of C29 on the empty container and the caller's tensor. -/
theorem add_srgb_to_linear_ignores_division_witness :
    ∃ normalized divided multiplier,
      (empty_state.net.add_srgb_to_linear accept_all caller_tensor).1.functions
        = empty_state.net.functions ++
        [IFunction.CLActivationLayer caller_tensor normalized ActivationFunction.LINEAR
            (1 / 255) 0.055,
          IFunction.CLActivationLayer caller_tensor divided ActivationFunction.LINEAR
            (1 / 1.055) 0,
          IFunction.CLElementwisePower normalized multiplier
            (empty_state.net.add_srgb_to_linear accept_all caller_tensor).2
            ActivationFunction.LINEAR 255 0] :=
  let ⟨normalized, divided, multiplier, h, _⟩ :=
    add_srgb_to_linear_ignores_division accept_all empty_state.net caller_tensor (by decide)
  ⟨normalized, divided, multiplier, h⟩

/-- C27: for `I, K, S, D ≥ 1` whose intermediate values fit in 32 bits, the SAME
padding computed by `calculate_padding` satisfies
`pad_front ≤ pad_back ≤ pad_front + 1`, and `pad_front = pad_back` exactly when
the total padding is even. -/
theorem same_padding_never_front_heavy (I K S D : Nat) (hI : 1 ≤ I) (hK : 1 ≤ K) (hS : 1 ≤ S)
    (hD : 1 ≤ D) (hfit : padding_fits I K S D) :
    (calculate_padding I K S D Padding.SAME).1 ≤ (calculate_padding I K S D Padding.SAME).2 ∧
      (calculate_padding I K S D Padding.SAME).2
        ≤ (calculate_padding I K S D Padding.SAME).1 + 1 ∧
      ((calculate_padding I K S D Padding.SAME).1 = (calculate_padding I K S D Padding.SAME).2
        ↔ ((calculate_padding I K S D Padding.SAME).1
          + (calculate_padding I K S D Padding.SAME).2) % 2 = 0) := by
  rw [calculate_padding_same_eq I K S D hI hK hS hD hfit]
  generalize (I + S - 1) / S * S - S + (K + (D - 1) * (K - 1)) = needed
  by_cases h : needed > I
  · simp only [h, if_true]
    omega
  · simp [h]

/-- Witness of C27 at `I = 4`, `K = 2`, `S = 1`, `D = 1`, where the padding is
`(0, 1)`. -/
theorem same_padding_never_front_heavy_witness :
    (calculate_padding 4 2 1 1 Padding.SAME).1 ≤ (calculate_padding 4 2 1 1 Padding.SAME).2 ∧
      (calculate_padding 4 2 1 1 Padding.SAME).2
        ≤ (calculate_padding 4 2 1 1 Padding.SAME).1 + 1 ∧
      ((calculate_padding 4 2 1 1 Padding.SAME).1 = (calculate_padding 4 2 1 1 Padding.SAME).2
        ↔ ((calculate_padding 4 2 1 1 Padding.SAME).1
          + (calculate_padding 4 2 1 1 Padding.SAME).2) % 2 = 0) :=
  same_padding_never_front_heavy 4 2 1 1 (by decide) (by decide) (by decide) (by decide)
    (by decide)

/-! ## The importer: the order of the operations -/

theorem parse_model_ok (validate : IFunction → Option String) (model : Model)
    (input_output_tensor : TensorRef) (s : ImportState)
    (h : parse_model validate model input_output_tensor = Outcome.ok s) :
    ∃ subgraph input_index output_index imported final,
      model.subgraphs[0]? = some subgraph ∧ subgraph.inputs = [input_index] ∧
      subgraph.outputs = [output_index] ∧
      import_operators validate model subgraph subgraph.operators
        ⟨(prologue validate input_output_tensor).1,
          [(input_index, (prologue validate input_output_tensor).2)]⟩ = Outcome.ok imported ∧
      imported.tensors.lookup output_index = some final ∧
      s = ⟨(imported.net.add_srgb_to_linear validate final).1.add_quantization
        (imported.net.add_srgb_to_linear validate final).2 input_output_tensor,
        imported.tensors⟩ := by
  unfold parse_model at h
  split at h
  · cases h
  · rename_i subgraph hsub
    split_ifs at h with hguard
    simp only at h
    split at h
    · cases h
    · rename_i input_index hin
      split at h
      · cases h
      · cases h
      · rename_i imported himp
        split at h
        · cases h
        · rename_i output_index hout
          split at h
          · cases h
          · rename_i final hfinal
            injection h with h
            have hin1 : subgraph.inputs = [input_index] := by
              cases hl : subgraph.inputs with
              | nil => rw [hl] at hin; cases hin
              | cons a t =>
                rw [hl] at hin hguard
                cases t with
                | nil => simp at hin; rw [hin]
                | cons b t => simp at hguard
            have hout1 : subgraph.outputs = [output_index] := by
              cases hl : subgraph.outputs with
              | nil => rw [hl] at hout; cases hout
              | cons a t =>
                rw [hl] at hout hguard
                cases t with
                | nil => simp at hout; rw [hout]
                | cons b t => simp at hguard
            exact ⟨subgraph, input_index, output_index, imported, final, hsub, hin1, hout1,
              himp, hfinal, h.symm⟩

theorem import_operators_positions (validate : IFunction → Option String) (model : Model)
    (subgraph : SubGraph) (ops : List Operator) (s s' : ImportState)
    (h : import_operators validate model subgraph ops s = Outcome.ok s') (k : Nat)
    (hk : k < ops.length) :
    ∃ op before after function, ops[k]? = some op ∧
      import_operators validate model subgraph (ops.take k) s = Outcome.ok before ∧
      import_operator validate model subgraph before op = Outcome.ok after ∧
      after.net.functions = before.net.functions ++ [function] ∧
      s'.net.functions[s.net.functions.length + k]? = some function := by
  induction ops generalizing s k with
  | nil => simp at hk
  | cons op ops ih =>
    simp only [import_operators] at h
    cases h1 : import_operator validate model subgraph s op with
    | throws e s1 => rw [h1] at h; cases h
    | undefined => rw [h1] at h; cases h
    | ok s1 =>
      rw [h1] at h
      simp only at h
      obtain ⟨f, hf⟩ := import_operator_functions _ _ _ _ _ _ h1
      obtain ⟨fs, -, hfs⟩ := import_operators_functions _ _ _ _ _ _ h
      cases k with
      | zero =>
        refine ⟨op, s, s1, f, by simp, rfl, h1, hf, ?_⟩
        rw [hfs, hf, List.append_assoc, Nat.add_zero,
          List.getElem?_append_right (le_refl _)]
        simp
      | succ k =>
        obtain ⟨op', before, after, function, hop, hbefore, hafter, hfun, hpos⟩ :=
          ih s1 h k (by simpa using hk)
        refine ⟨op', before, after, function, by simpa using hop, ?_, hafter, hfun, ?_⟩
        · simp only [List.take_succ_cons, import_operators, h1]
          exact hbefore
        · rw [hf] at hpos
          have e : s.net.functions.length + (k + 1) = (s.net.functions ++ [f]).length + k := by
            simp; ring
          rw [e]
          exact hpos


/-- C25: for every model that `parse_model` imports successfully (it then has
one graph input and one graph output, and its `n` operators are all imported),
the returned container holds exactly `n + 7` operations: the three operations
of the prologue (dequantization, `LINEAR` activation, power), then at position
`3 + k` the single operation that the handler of the `k`-th serialized
operator appends, called in the state left by the operators before it, and
last the four operations of the epilogue (two `LINEAR` activations, power,
quantization). -/
theorem parse_model_operation_order (validate : IFunction → Option String) (model : Model)
    (input_output_tensor : TensorRef) (s : ImportState)
    (h : parse_model validate model input_output_tensor = Outcome.ok s) :
    ∃ subgraph input_index output_index,
      model.subgraphs[0]? = some subgraph ∧ subgraph.inputs = [input_index] ∧
      subgraph.outputs = [output_index] ∧
      s.net.functions.length = subgraph.operators.length + 7 ∧
      (∃ dequantized normalized multiplier, s.net.functions.take 3
        = [IFunction.CLDequantizationLayer input_output_tensor dequantized,
            IFunction.CLActivationLayer dequantized normalized ActivationFunction.LINEAR
              (1.0 / 255.0 * 1.7) 0.0,
            IFunction.CLElementwisePower normalized multiplier
              (prologue validate input_output_tensor).2 ActivationFunction.LINEAR
              269.025 (-14.025)]) ∧
      (∀ k, k < subgraph.operators.length →
        ∃ op before after function, subgraph.operators[k]? = some op ∧
          import_operators validate model subgraph (subgraph.operators.take k)
            ⟨(prologue validate input_output_tensor).1,
              [(input_index, (prologue validate input_output_tensor).2)]⟩
            = Outcome.ok before ∧
          import_operator validate model subgraph before op = Outcome.ok after ∧
          after.net.functions = before.net.functions ++ [function] ∧
          s.net.functions[3 + k]? = some function) ∧
      (∃ final normalized divided multiplier linear_output,
        s.net.functions.drop (3 + subgraph.operators.length)
        = [IFunction.CLActivationLayer final normalized ActivationFunction.LINEAR
              (1.0 / 255.0) 0.055,
            IFunction.CLActivationLayer final divided ActivationFunction.LINEAR
              (1.0 / 1.055) 0.0,
            IFunction.CLElementwisePower normalized multiplier linear_output
              ActivationFunction.LINEAR 255.0 0,
            IFunction.CLQuantizationLayer linear_output input_output_tensor]) := by
  obtain ⟨subgraph, input_index, output_index, imported, final, hsub, hin, hout, himp, -, hs⟩ :=
    parse_model_ok validate model input_output_tensor s h
  obtain ⟨dequantized, normalized, multiplier, hpro⟩ :=
    prologue_functions validate input_output_tensor
  obtain ⟨final_normalized, final_divided, final_multiplier, hepi⟩ :=
    epilogue_functions validate imported.net final input_output_tensor
  obtain ⟨middle, hlen, hmid⟩ := import_operators_functions _ _ _ _ _ _ himp
  have hfun : s.net.functions = (prologue validate input_output_tensor).1.functions ++
      (middle ++
        [IFunction.CLActivationLayer final final_normalized ActivationFunction.LINEAR
            (1.0 / 255.0) 0.055,
          IFunction.CLActivationLayer final final_divided ActivationFunction.LINEAR
            (1.0 / 1.055) 0.0,
          IFunction.CLElementwisePower final_normalized final_multiplier
            (imported.net.add_srgb_to_linear validate final).2 ActivationFunction.LINEAR
            255.0 0,
          IFunction.CLQuantizationLayer (imported.net.add_srgb_to_linear validate final).2
            input_output_tensor]) := by
    rw [hs]
    simp only
    rw [hepi, hmid, List.append_assoc]
  have hplen : (prologue validate input_output_tensor).1.functions.length = 3 := by
    rw [hpro]; rfl
  refine ⟨subgraph, input_index, output_index, hsub, hin, hout, ?_, ?_, ?_, ?_⟩
  · rw [hfun, List.length_append, hplen, List.length_append, hlen]
    simp
    omega
  · refine ⟨dequantized, normalized, multiplier, ?_⟩
    rw [hfun, ← hplen, List.take_left, hpro]
  · intro k hk
    obtain ⟨op, before, after, function, hop, hbefore, hafter, hf, hpos⟩ :=
      import_operators_positions _ _ _ _ _ _ himp k hk
    refine ⟨op, before, after, function, hop, hbefore, hafter, hf, ?_⟩
    simp only at hpos
    rw [hplen] at hpos
    have hlt : 3 + k < imported.net.functions.length := by
      rw [hmid, List.length_append, hplen, hlen]; omega
    have e : s.net.functions = imported.net.functions ++
        [IFunction.CLActivationLayer final final_normalized ActivationFunction.LINEAR
            (1.0 / 255.0) 0.055,
          IFunction.CLActivationLayer final final_divided ActivationFunction.LINEAR
            (1.0 / 1.055) 0.0,
          IFunction.CLElementwisePower final_normalized final_multiplier
            (imported.net.add_srgb_to_linear validate final).2 ActivationFunction.LINEAR
            255.0 0,
          IFunction.CLQuantizationLayer (imported.net.add_srgb_to_linear validate final).2
            input_output_tensor] := by
      rw [hs]
      simp only
      rw [hepi]
    rw [e, List.getElem?_append_left hlt]
    exact hpos
  · refine ⟨final, final_normalized, final_divided, final_multiplier,
      (imported.net.add_srgb_to_linear validate final).2, ?_⟩
    rw [hfun, ← List.append_assoc]
    have hl : 3 + subgraph.operators.length
        = ((prologue validate input_output_tensor).1.functions ++ middle).length := by
      rw [List.length_append, hplen, hlen]
    rw [hl, List.drop_left]

/-- Witness of C25: the model with the single operator `RELU`. -/
theorem parse_model_operation_order_witness :
    ∃ subgraph input_index output_index,
      model_relu.subgraphs[0]? = some subgraph ∧ subgraph.inputs = [input_index] ∧
      subgraph.outputs = [output_index] ∧
      relu_model_imported.net.functions.length = subgraph.operators.length + 7 :=
  let ⟨subgraph, input_index, output_index, h1, h2, h3, h4, _⟩ :=
    parse_model_operation_order accept_all model_relu caller_tensor relu_model_imported rfl
  ⟨subgraph, input_index, output_index, h1, h2, h3, h4⟩

/-! ## The importer: fused activations -/

theorem Get_error {α : Type} (vector : List α) (i : Nat) (e : Fault)
    (h : Get vector i = Except.error e) : e = Fault.undefined := by
  unfold Get at h
  split at h
  · cases h
  · injection h with h; exact h.symm

theorem at_error (tensors : TensorMap) (i : Int) (e : Fault)
    (h : tensors.at i = Except.error e) : e = Fault.throws Exception.out_of_range := by
  unfold TensorMap.at at h
  split at h
  · cases h
  · injection h with h; exact h.symm

theorem calculate_padding_call_error (input_size kernel_size stride dilation : Nat)
    (padding : Padding) (e : Fault)
    (h : calculate_padding_call input_size kernel_size stride dilation padding
      = Except.error e) : e = Fault.undefined := by
  unfold calculate_padding_call at h
  split at h
  · injection h with h; exact h.symm
  · cases h

theorem activation_at_other (code : Int) (h0 : code ≠ ActivationFunctionType_NONE)
    (h1 : code ≠ ActivationFunctionType_RELU) :
    activation_at code = Except.error (Fault.throws Exception.out_of_range) := by
  have e0 : (code == ActivationFunctionType_NONE) = false := by simpa using h0
  have e1 : (code == ActivationFunctionType_RELU) = false := by simpa using h1
  simp [activation_at, TFLITE_TO_ACL_ACTIVATION, List.lookup, e0, e1]

theorem conv_2d_arguments_other_activation (tensors : TensorMap) (model : Model)
    (subgraph : SubGraph) (op : Operator) (padding : Padding)
    (stride_w stride_h fused dilation_w_factor dilation_h_factor : Int)
    (hop : op.builtin_options = BuiltinOptions.Conv2DOptions padding stride_w stride_h fused
      dilation_w_factor dilation_h_factor)
    (h0 : fused ≠ ActivationFunctionType_NONE) (h1 : fused ≠ ActivationFunctionType_RELU) :
    conv_2d_arguments tensors model subgraph op
        = Except.error (Fault.throws Exception.out_of_range) ∨
      conv_2d_arguments tensors model subgraph op = Except.error Fault.undefined := by
  unfold conv_2d_arguments
  simp only [bind, Except.bind, hop, activation_at_other fused h0 h1]
  repeat' split
  all_goals first
    | (rename_i e hx; rw [Get_error _ _ e hx]; right; rfl)
    | (rename_i e hx; rw [at_error _ _ e hx]; left; rfl)
    | (rename_i e hx; rw [calculate_padding_call_error _ _ _ _ _ e hx]; right; rfl)
    | (left; rfl)


theorem depthwise_conv_2d_arguments_other_activation (tensors : TensorMap) (model : Model)
    (subgraph : SubGraph) (op : Operator) (padding : Padding)
    (stride_w stride_h fused dilation_w_factor dilation_h_factor : Int)
    (hop : op.builtin_options = BuiltinOptions.DepthwiseConv2DOptions padding stride_w
      stride_h fused dilation_w_factor dilation_h_factor)
    (h0 : fused ≠ ActivationFunctionType_NONE) (h1 : fused ≠ ActivationFunctionType_RELU) :
    depthwise_conv_2d_arguments tensors model subgraph op
        = Except.error (Fault.throws Exception.out_of_range) ∨
      depthwise_conv_2d_arguments tensors model subgraph op = Except.error Fault.undefined := by
  unfold depthwise_conv_2d_arguments
  simp only [bind, Except.bind, hop, activation_at_other fused h0 h1]
  repeat' split
  all_goals first
    | (rename_i e hx; rw [Get_error _ _ e hx]; right; rfl)
    | (rename_i e hx; rw [at_error _ _ e hx]; left; rfl)
    | (rename_i e hx; rw [calculate_padding_call_error _ _ _ _ _ e hx]; right; rfl)
    | (left; rfl)

theorem add_arguments_other_activation (tensors : TensorMap) (op : Operator) (fused : Int)
    (hop : op.builtin_options = BuiltinOptions.AddOptions fused)
    (h0 : fused ≠ ActivationFunctionType_NONE) (h1 : fused ≠ ActivationFunctionType_RELU) :
    add_arguments tensors op = Except.error (Fault.throws Exception.out_of_range) ∨
      add_arguments tensors op = Except.error Fault.undefined := by
  unfold add_arguments
  simp only [bind, Except.bind, hop, activation_at_other fused h0 h1]
  repeat' split
  all_goals first
    | (rename_i e hx; rw [Get_error _ _ e hx]; right; rfl)
    | (rename_i e hx; rw [at_error _ _ e hx]; left; rfl)
    | (left; rfl)

/-- C28, counterexample: a `CONV_2D` operator with the fused activation `RELU6`
(code 3) whose input list holds only the activation input.  The handler reads
`input_indices.Get(1)` outside the vector before it reaches the activation
table: its behaviour is undefined, it does not fail with an error.  The same
holds of a `CONV_2D` operator with `RELU6`, the padding policy SAME and the
stride `0`, all of whose reads are inside the vectors: `calculate_padding`
divides by the stride before the activation table is reached. -/
theorem parse_conv_2d_relu6_without_weights :
    parse_conv_2d accept_all conv_state conv_model conv_subgraph relu6_conv_without_weights
        = Outcome.undefined ∧
      parse_conv_2d accept_all conv_state conv_model conv_subgraph relu6_conv_zero_stride
        = Outcome.undefined :=
  ⟨rfl, rfl⟩

/-- C28 (amended): for every `CONV_2D`, `DEPTHWISE_CONV_2D` or `ADD` operator
whose fused activation function is neither `NONE` nor `RELU`, the handler,
whenever its behaviour is defined (the reads that precede the lookup in the
activation table stay inside the operator's and the model's vectors, and with
the padding policy SAME neither stride is zero, so that `calculate_padding`
does not divide by zero), throws `std::out_of_range` with the container and
the map as they were, so before any operation is appended; `NONE` maps to
`IDENTITY` and `RELU` to `RELU`. -/
theorem handlers_reject_other_activations (validate : IFunction → Option String)
    (s : ImportState) (model : Model) (subgraph : SubGraph) (op : Operator) :
    (∀ padding stride_w stride_h fused dilation_w_factor dilation_h_factor,
      op.builtin_options = BuiltinOptions.Conv2DOptions padding stride_w stride_h fused
        dilation_w_factor dilation_h_factor →
      fused ≠ ActivationFunctionType_NONE → fused ≠ ActivationFunctionType_RELU →
      parse_conv_2d validate s model subgraph op ≠ Outcome.undefined →
      parse_conv_2d validate s model subgraph op = Outcome.throws Exception.out_of_range s) ∧
    (∀ padding stride_w stride_h fused dilation_w_factor dilation_h_factor,
      op.builtin_options = BuiltinOptions.DepthwiseConv2DOptions padding stride_w stride_h
        fused dilation_w_factor dilation_h_factor →
      fused ≠ ActivationFunctionType_NONE → fused ≠ ActivationFunctionType_RELU →
      parse_depthwise_conv_2d validate s model subgraph op ≠ Outcome.undefined →
      parse_depthwise_conv_2d validate s model subgraph op
        = Outcome.throws Exception.out_of_range s) ∧
    (∀ fused, op.builtin_options = BuiltinOptions.AddOptions fused →
      fused ≠ ActivationFunctionType_NONE → fused ≠ ActivationFunctionType_RELU →
      parse_add s op ≠ Outcome.undefined →
      parse_add s op = Outcome.throws Exception.out_of_range s) ∧
    activation_at ActivationFunctionType_NONE = Except.ok ActivationFunction.IDENTITY ∧
    activation_at ActivationFunctionType_RELU = Except.ok ActivationFunction.RELU := by
  refine ⟨?_, ?_, ?_, rfl, rfl⟩
  · intro padding stride_w stride_h fused dilation_w_factor dilation_h_factor hop h0 h1 hdef
    unfold parse_conv_2d at hdef ⊢
    rcases conv_2d_arguments_other_activation s.tensors model subgraph op padding stride_w
      stride_h fused dilation_w_factor dilation_h_factor hop h0 h1 with h | h
    · rw [h]; rfl
    · rw [h] at hdef; exact absurd rfl hdef
  · intro padding stride_w stride_h fused dilation_w_factor dilation_h_factor hop h0 h1 hdef
    unfold parse_depthwise_conv_2d at hdef ⊢
    rcases depthwise_conv_2d_arguments_other_activation s.tensors model subgraph op padding
      stride_w stride_h fused dilation_w_factor dilation_h_factor hop h0 h1 with h | h
    · rw [h]; rfl
    · rw [h] at hdef; exact absurd rfl hdef
  · intro fused hop h0 h1 hdef
    unfold parse_add at hdef ⊢
    rcases add_arguments_other_activation s.tensors op fused hop h0 h1 with h | h
    · rw [h]; rfl
    · rw [h] at hdef; exact absurd rfl hdef

/-- Witness of C28 (amended): a `CONV_2D`, a `DEPTHWISE_CONV_2D` and an `ADD`
operator with the fused activation `RELU6` (code 3) on `conv_state`. -/
theorem handlers_reject_other_activations_witness :
    parse_conv_2d accept_all conv_state conv_model conv_subgraph relu6_conv_operator
        = Outcome.throws Exception.out_of_range conv_state ∧
      parse_depthwise_conv_2d accept_all conv_state conv_model conv_subgraph
        relu6_depthwise_operator = Outcome.throws Exception.out_of_range conv_state ∧
      parse_add conv_state relu6_add_operator
        = Outcome.throws Exception.out_of_range conv_state :=
  ⟨(handlers_reject_other_activations accept_all conv_state conv_model conv_subgraph
      relu6_conv_operator).1 Padding.VALID 1 1 3 1 1 rfl (by decide) (by decide) (by decide),
    (handlers_reject_other_activations accept_all conv_state conv_model conv_subgraph
      relu6_depthwise_operator).2.1 Padding.VALID 1 1 3 1 1 rfl (by decide) (by decide)
      (by decide),
    (handlers_reject_other_activations accept_all conv_state conv_model conv_subgraph
      relu6_add_operator).2.2.1 3 rfl (by decide) (by decide) (by decide)⟩

/-! ## The input/output tensor of the pipeline -/

theorem tensor_info_offset (width height c x y : Nat) (hfit : 4 * width * height < 4294967296)
    (hh : 1 ≤ height) :
    (ACLPipeline.tensor_info width height 4).offset_element_in_bytes [c, x, y]
      = c + 4 * x + 4 * (width * y) := by
  have hw : width * 4 < 4294967296 := by nlinarith
  simp only [ACLPipeline.tensor_info, StridedTensorInfo.offset_element_in_bytes,
    List.zipWith_cons_cons, List.zipWith_nil_right, List.sum_cons, List.sum_nil, u32_mul, U32,
    Nat.mod_eq_of_lt hw]
  ring

theorem tensor_info_total_size (width height : Nat) (hfit : 4 * width * height < 4294967296) :
    (ACLPipeline.tensor_info width height 4).total_size = 4 * width * height := by
  have h1 : width * height < 4294967296 := by nlinarith
  have h2 : width * height * 4 < 4294967296 := by nlinarith
  simp only [ACLPipeline.tensor_info, u32_mul, U32, Nat.mod_eq_of_lt h1, Nat.mod_eq_of_lt h2]
  ring

/-- C30, counterexample: for `width = 2^30`, `height = 2` and `channels = 4` the
`uint32_t` products wrap: the row stride and the total size are `0`, so the
element `(0, 0, 0)` at offset `0` is not inside the buffer, and the element
`(0, 0, 1)` is at offset `0` as well, not at `4 * width`. -/
theorem pipeline_tensor_wraps :
    (ACLPipeline.tensor_info 1073741824 2 4).strides_in_bytes = [1, 4, 0] ∧
      (ACLPipeline.tensor_info 1073741824 2 4).total_size = 0 ∧
      (ACLPipeline.tensor_info 1073741824 2 4).offset_element_in_bytes [0, 0, 0] = 0 ∧
      (ACLPipeline.tensor_info 1073741824 2 4).offset_element_in_bytes [0, 0, 1] = 0 ∧
      ¬ ((ACLPipeline.tensor_info 1073741824 2 4).offset_element_in_bytes [0, 0, 0]
        < (ACLPipeline.tensor_info 1073741824 2 4).total_size) := by
  decide

/-- C30 (amended): for the input/output tensor that `ACLPipeline` builds with
`channels = 4`, for every `width, height ≥ 1` with `4 * width * height` below
`2^32`, the strides are `1, 4, 4 * width`, the total size is
`4 * width * height`, and the byte offsets of the elements `(c, x, y)` with
`c < 3`, `x < width`, `y < height` are exactly the offsets `o` below the total
size with `o mod 4 ≠ 3`: every access is inside the buffer and the fourth byte
of a pixel is never addressed. -/
theorem pipeline_tensor_offsets (width height : Nat) (hw : 1 ≤ width) (hh : 1 ≤ height)
    (hfit : 4 * width * height < 4294967296) :
    (ACLPipeline.tensor_info width height 4).shape = [3, width, height] ∧
      (ACLPipeline.tensor_info width height 4).strides_in_bytes = [1, 4, 4 * width] ∧
      (ACLPipeline.tensor_info width height 4).total_size = 4 * width * height ∧
      ∀ o, (∃ c x y, c < 3 ∧ x < width ∧ y < height ∧
          (ACLPipeline.tensor_info width height 4).offset_element_in_bytes [c, x, y] = o)
        ↔ (o < (ACLPipeline.tensor_info width height 4).total_size ∧ o % 4 ≠ 3) := by
  have hw4 : width * 4 < 4294967296 := by nlinarith
  refine ⟨rfl, ?_, tensor_info_total_size width height hfit, ?_⟩
  · simp only [ACLPipeline.tensor_info, u32_mul, U32, Nat.mod_eq_of_lt hw4, Nat.mul_comm]
  · intro o
    rw [tensor_info_total_size width height hfit]
    constructor
    · rintro ⟨c, x, y, hc, hx, hy, ho⟩
      rw [tensor_info_offset width height c x y hfit hh] at ho
      have hrow : width * y + width ≤ width * height := by
        have := Nat.mul_le_mul_left width (Nat.succ_le_of_lt hy)
        rw [Nat.mul_succ] at this
        exact this
      have e : 4 * width * height = 4 * (width * height) := by ring
      rw [e]
      generalize width * y = m at ho hrow
      generalize width * height = n at hrow
      omega
    · rintro ⟨ho, hmod⟩
      have e : 4 * width * height = 4 * (width * height) := by ring
      rw [e] at ho
      have hq : o / 4 < width * height := by omega
      refine ⟨o % 4, o / 4 % width, o / 4 / width, by omega, Nat.mod_lt _ (by omega),
        Nat.div_lt_of_lt_mul hq, ?_⟩
      rw [tensor_info_offset width height _ _ _ hfit hh]
      have hd := Nat.div_add_mod (o / 4) width
      generalize width * (o / 4 / width) = m at hd
      omega

/-- Witness of C30 (amended) for a `2 x 2` image. -/
theorem pipeline_tensor_offsets_witness :
    (ACLPipeline.tensor_info 2 2 4).total_size = 4 * 2 * 2 :=
  (pipeline_tensor_offsets 2 2 (by decide) (by decide) (by decide)).2.2.1

/-! ## Copying between a flat array and a tensor -/

/-- After the rows of a list have been copied to pairwise disjoint ranges, each
range holds the bytes of its row. -/
theorem foldl_memcpy_writes {β ρ : Type} (dst_offset src_offset : ρ → Nat) (n : Nat)
    (src : Nat → β) (l : List ρ)
    (hdis : ∀ r ∈ l, ∀ r' ∈ l, r ≠ r' →
      dst_offset r + n ≤ dst_offset r' ∨ dst_offset r' + n ≤ dst_offset r)
    (dst : Nat → β) (r : ρ) (hr : r ∈ l) (i : Nat) (hi : i < n) :
    (l.foldl (fun dst r => memcpy dst (dst_offset r) src (src_offset r) n) dst)
        (dst_offset r + i) = src (src_offset r + i) := by
  classical
  induction l using List.reverseRecOn with
  | nil => simp at hr
  | append_singleton l r' ih =>
    rw [List.foldl_append, List.foldl_cons, List.foldl_nil]
    by_cases hrr : r = r'
    · subst hrr
      simp only [memcpy]
      rw [if_pos ⟨by omega, by omega⟩]
      congr 1
      omega
    · have hrl : r ∈ l := by
        rcases List.mem_append.mp hr with h | h
        · exact h
        · simp at h; exact absurd h hrr
      have hd := hdis r (List.mem_append_left _ hrl) r' (by simp) hrr
      simp only [memcpy]
      rw [if_neg (by omega)]
      exact ih (fun a ha b hb => hdis a (List.mem_append_left _ ha) b (List.mem_append_left _ hb))
        hrl

/-- When every copied range of the source holds the bytes `g` of its
destination range, every destination byte inside one of the ranges is the byte
of `g`. -/
theorem foldl_memcpy_reads {β ρ : Type} (dst_offset src_offset : ρ → Nat) (n : Nat)
    (src g : Nat → β) (l : List ρ)
    (hsrc : ∀ r ∈ l, ∀ i < n, src (src_offset r + i) = g (dst_offset r + i))
    (dst : Nat → β) (k : Nat)
    (hk : ∃ r ∈ l, dst_offset r ≤ k ∧ k < dst_offset r + n) :
    (l.foldl (fun dst r => memcpy dst (dst_offset r) src (src_offset r) n) dst) k = g k := by
  induction l using List.reverseRecOn with
  | nil => obtain ⟨r, hr, -⟩ := hk; simp at hr
  | append_singleton l r' ih =>
    rw [List.foldl_append, List.foldl_cons, List.foldl_nil]
    simp only [memcpy]
    by_cases hin : dst_offset r' ≤ k ∧ k < dst_offset r' + n
    · rw [if_pos hin, hsrc r' (by simp) (k - dst_offset r') (by omega)]
      congr 1
      omega
    · rw [if_neg hin]
      apply ih (fun r hr => hsrc r (List.mem_append_left _ hr))
      obtain ⟨r, hr, hrk⟩ := hk
      rcases List.mem_append.mp hr with h | h
      · exact ⟨r, h, hrk⟩
      · simp at h; subst h; exact absurd hrk hin

/-- The linear offset of a row, without wrap-around. -/
theorem get_linear_buffer_offset_row {β : Type} (tensor : ITensor β)
    (hN : tensor.dim 0 * tensor.dim 1 * tensor.dim 2 * tensor.dim 3 * tensor.dim 4 < U32)
    (hpos : 0 < tensor.dim 0 * tensor.dim 1 * tensor.dim 2 * tensor.dim 3 * tensor.dim 4)
    (d b c y : Nat) (hd : d < tensor.dim 4) (hb : b < tensor.dim 3) (hc : c < tensor.dim 2)
    (hy : y < tensor.dim 1) :
    get_linear_buffer_offset tensor d b c y 0
      = (((d * tensor.dim 3 + b) * tensor.dim 2 + c) * tensor.dim 1 + y) * tensor.dim 0 := by
  obtain ⟨hw0, hh0, hc0, hb0, hd0⟩ := pos_of_mul5_pos hpos
  obtain ⟨hw, hh, hcc, hbb, hdd⟩ := le_mul5 hpos
  have hidx := index_lt hd hb hc hy
  have hrow : ((((d * tensor.dim 3 + b) * tensor.dim 2 + c) * tensor.dim 1 + y) + 1)
      * tensor.dim 0 ≤ tensor.dim 4 * tensor.dim 3 * tensor.dim 2 * tensor.dim 1 * tensor.dim 0 :=
    Nat.mul_le_mul_right _ hidx
  have hperm : tensor.dim 4 * tensor.dim 3 * tensor.dim 2 * tensor.dim 1 * tensor.dim 0
      = tensor.dim 0 * tensor.dim 1 * tensor.dim 2 * tensor.dim 3 * tensor.dim 4 := by ring
  rw [hperm, Nat.add_mul, Nat.one_mul] at hrow
  have hlt : (((d * tensor.dim 3 + b) * tensor.dim 2 + c) * tensor.dim 1 + y) * tensor.dim 0 + 0
      < U32 := by omega
  unfold get_linear_buffer_offset
  simp only [to_u32]
  rw [Nat.mod_eq_of_lt (by omega : tensor.dim 0 < U32),
    Nat.mod_eq_of_lt (by omega : tensor.dim 1 < U32),
    Nat.mod_eq_of_lt (by omega : tensor.dim 2 < U32),
    Nat.mod_eq_of_lt (by omega : tensor.dim 3 < U32)]
  have h4 : ((d * tensor.dim 3 + b) * tensor.dim 2 + c) * tensor.dim 1 + y
      ≤ (((d * tensor.dim 3 + b) * tensor.dim 2 + c) * tensor.dim 1 + y) * tensor.dim 0 :=
    Nat.le_mul_of_pos_right _ hw0
  rw [u32_index_eq hc0 hh0 (by omega), u32_mul_of_lt (by omega), u32_add_of_lt (by omega)]
  rfl

/-- Every byte of the flat array lies in the range of one row. -/
theorem row_covers (w h c b d k : Nat) (hk : k < 4 * (w * h * c * b * d)) :
    ∃ r ∈ rows d b c h,
      4 * ((((r.1 * b + r.2.1) * c + r.2.2.1) * h + r.2.2.2) * w) ≤ k ∧
        k < 4 * ((((r.1 * b + r.2.1) * c + r.2.2.1) * h + r.2.2.2) * w) + w * 4 := by
  have hpos : 0 < w * h * c * b * d := by omega
  obtain ⟨hw0, -, -, -, -⟩ := pos_of_mul5_pos hpos
  have hj : k / 4 < w * h * c * b * d := by omega
  have hrow : k / 4 / w < d * b * c * h := by
    apply Nat.div_lt_of_lt_mul
    calc k / 4 < w * h * c * b * d := hj
      _ = w * (d * b * c * h) := by ring
  obtain ⟨h1, h2, h3, h4⟩ := digits_lt hrow
  refine ⟨(k / 4 / w / (h * c * b), k / 4 / w / (h * c) % b, k / 4 / w / h % c, k / 4 / w % h),
    (mem_rows _ _ _ _ _).mpr ⟨h1, h2, h3, h4⟩, ?_⟩
  simp only
  rw [digits_encode (k / 4 / w) b c h]
  have hdm := Nat.div_add_mod (k / 4) w
  have hml : k / 4 % w < w := Nat.mod_lt _ hw0
  have e : k / 4 / w * w = w * (k / 4 / w) := Nat.mul_comm _ _
  rw [e]
  generalize w * (k / 4 / w) = m at hdm
  omega


theorem copy_data_to_tensor_buffer {β : Type} (tensor : ITensor β) (data : Nat → β)
    (hN : tensor.dim 0 * tensor.dim 1 * tensor.dim 2 * tensor.dim 3 * tensor.dim 4 < U32)
    (hpos : 0 < tensor.dim 0 * tensor.dim 1 * tensor.dim 2 * tensor.dim 3 * tensor.dim 4) :
    (copy_data_to_tensor tensor data).buffer
      = (rows (tensor.dim 4) (tensor.dim 3) (tensor.dim 2) (tensor.dim 1)).foldl
          (fun dst r => memcpy dst (get_tensor_offset tensor r.1 r.2.1 r.2.2.1 r.2.2.2 0) data
            (sizeof_float * get_linear_buffer_offset tensor r.1 r.2.1 r.2.2.1 r.2.2.2 0)
            (tensor.dim 0 * sizeof_float)) tensor.buffer := by
  obtain ⟨hw, hh, hcc, hbb, hdd⟩ := le_mul5 hpos
  unfold copy_data_to_tensor
  simp only [to_u32]
  rw [Nat.mod_eq_of_lt (by omega : tensor.dim 0 < U32),
    Nat.mod_eq_of_lt (by omega : tensor.dim 1 < U32),
    Nat.mod_eq_of_lt (by omega : tensor.dim 2 < U32),
    Nat.mod_eq_of_lt (by omega : tensor.dim 3 < U32),
    Nat.mod_eq_of_lt (by omega : tensor.dim 4 < U32)]
  exact for_unsigned_rows _ _ _ _
    (fun d b c y buffer => memcpy buffer (get_tensor_offset tensor d b c y 0) data
      (sizeof_float * get_linear_buffer_offset tensor d b c y 0) (tensor.dim 0 * sizeof_float)) _

theorem copy_data_from_tensor_eq {β : Type} (tensor : ITensor β) (data : Nat → β)
    (hN : tensor.dim 0 * tensor.dim 1 * tensor.dim 2 * tensor.dim 3 * tensor.dim 4 < U32)
    (hpos : 0 < tensor.dim 0 * tensor.dim 1 * tensor.dim 2 * tensor.dim 3 * tensor.dim 4) :
    copy_data_from_tensor tensor data
      = (rows (tensor.dim 4) (tensor.dim 3) (tensor.dim 2) (tensor.dim 1)).foldl
          (fun dst r => memcpy dst
            (sizeof_float * get_linear_buffer_offset tensor r.1 r.2.1 r.2.2.1 r.2.2.2 0)
            tensor.buffer (get_tensor_offset tensor r.1 r.2.1 r.2.2.1 r.2.2.2 0)
            (tensor.dim 0 * sizeof_float)) data := by
  obtain ⟨hw, hh, hcc, hbb, hdd⟩ := le_mul5 hpos
  unfold copy_data_from_tensor
  simp only [to_u32]
  rw [Nat.mod_eq_of_lt (by omega : tensor.dim 0 < U32),
    Nat.mod_eq_of_lt (by omega : tensor.dim 1 < U32),
    Nat.mod_eq_of_lt (by omega : tensor.dim 2 < U32),
    Nat.mod_eq_of_lt (by omega : tensor.dim 3 < U32),
    Nat.mod_eq_of_lt (by omega : tensor.dim 4 < U32)]
  exact for_unsigned_rows _ _ _ _
    (fun d b c y data => memcpy data (sizeof_float * get_linear_buffer_offset tensor d b c y 0)
      tensor.buffer (get_tensor_offset tensor d b c y 0) (tensor.dim 0 * sizeof_float)) _

theorem round_trip_byte {β : Type} (tensor : ITensor β) (data zeros : Nat → β)
    (hN : tensor.dim 0 * tensor.dim 1 * tensor.dim 2 * tensor.dim 3 * tensor.dim 4 < U32)
    (hdis : rows_disjoint tensor) (k : Nat)
    (hk : k < 4 * (tensor.dim 0 * tensor.dim 1 * tensor.dim 2 * tensor.dim 3 * tensor.dim 4)) :
    copy_data_from_tensor (copy_data_to_tensor tensor data) zeros k = data k := by
  have hpos : 0 < tensor.dim 0 * tensor.dim 1 * tensor.dim 2 * tensor.dim 3 * tensor.dim 4 := by
    omega
  have hshape : ∀ i, (copy_data_to_tensor tensor data).dim i = tensor.dim i := fun _ => rfl
  have hoff : ∀ d b c y x, get_tensor_offset (copy_data_to_tensor tensor data) d b c y x
      = get_tensor_offset tensor d b c y x := fun _ _ _ _ _ => rfl
  have hlin : ∀ d b c y x, get_linear_buffer_offset (copy_data_to_tensor tensor data) d b c y x
      = get_linear_buffer_offset tensor d b c y x := fun _ _ _ _ _ => rfl
  rw [copy_data_from_tensor_eq _ _ (by simpa only [hshape] using hN)
    (by simpa only [hshape] using hpos)]
  simp only [hshape, hoff, hlin]
  apply foldl_memcpy_reads
    (fun r : Nat × Nat × Nat × Nat =>
      sizeof_float * get_linear_buffer_offset tensor r.1 r.2.1 r.2.2.1 r.2.2.2 0)
    (fun r : Nat × Nat × Nat × Nat => get_tensor_offset tensor r.1 r.2.1 r.2.2.1 r.2.2.2 0)
    (tensor.dim 0 * sizeof_float) (copy_data_to_tensor tensor data).buffer data
  · intro r hr i hi
    rw [copy_data_to_tensor_buffer tensor data hN hpos]
    apply foldl_memcpy_writes
      (fun r : Nat × Nat × Nat × Nat => get_tensor_offset tensor r.1 r.2.1 r.2.2.1 r.2.2.2 0)
      (fun r : Nat × Nat × Nat × Nat =>
        sizeof_float * get_linear_buffer_offset tensor r.1 r.2.1 r.2.2.1 r.2.2.2 0)
      (tensor.dim 0 * sizeof_float) data _ _ tensor.buffer r hr i hi
    intro a ha a' ha' hne
    obtain ⟨h1, h2, h3, h4⟩ := (mem_rows _ _ _ _ a).mp ha
    obtain ⟨h1', h2', h3', h4'⟩ := (mem_rows _ _ _ _ a').mp ha'
    exact hdis a.1 h1 a.2.1 h2 a.2.2.1 h3 a.2.2.2 h4 a'.1 h1' a'.2.1 h2' a'.2.2.1 h3'
      a'.2.2.2 h4' hne
  · obtain ⟨r, hr, hlo, hhi⟩ := row_covers (tensor.dim 0) (tensor.dim 1) (tensor.dim 2)
      (tensor.dim 3) (tensor.dim 4) k hk
    obtain ⟨h1, h2, h3, h4⟩ := (mem_rows _ _ _ _ r).mp hr
    refine ⟨r, hr, ?_⟩
    simp only [sizeof_float]
    rw [get_linear_buffer_offset_row tensor hN hpos r.1 r.2.1 r.2.2.1 r.2.2.2 h1 h2 h3 h4]
    exact ⟨hlo, hhi⟩


theorem memcpy_zero {β : Type} (dst src : Nat → β) (dst_offset src_offset : Nat) :
    memcpy dst dst_offset src src_offset 0 = dst := by
  funext address
  simp only [memcpy, Nat.add_zero]
  rw [if_neg (by omega)]

theorem for_unsigned_id {σ : Type} (n : Nat) (s : σ) : for_unsigned n (fun _ s => s) s = s := by
  unfold for_unsigned
  induction n with
  | zero => rfl
  | succ n ih => rw [List.range_succ, List.foldl_append, ih]; rfl

theorem copy_data_from_tensor_of_width_zero {β : Type} (tensor : ITensor β) (data : Nat → β)
    (h : to_u32 (tensor.dim 0) = 0) : copy_data_from_tensor tensor data = data := by
  unfold copy_data_from_tensor
  simp only [h, Nat.zero_mul, memcpy_zero, for_unsigned_id]

theorem wide_tensor_copies_nothing (values : List Nat) (zeros : Nat → Nat) :
    copy_data_from_tensor (set_tensor_values wide_tensor values) zeros = zeros :=
  copy_data_from_tensor_of_width_zero _ _ (show to_u32 (wide_tensor.dim 0) = 0 by decide)

theorem dense_tensor_rows_disjoint : rows_disjoint dense_tensor := by
  intro d hd b hb c hc y hy d' hd' b' hb' c' hc' y' hy' hne
  have h4 : dense_tensor.dim 4 = 1 := rfl
  have h3 : dense_tensor.dim 3 = 1 := rfl
  have h2 : dense_tensor.dim 2 = 1 := rfl
  have h1 : dense_tensor.dim 1 = 2 := rfl
  rw [h4] at hd hd'
  rw [h3] at hb hb'
  rw [h2] at hc hc'
  rw [h1] at hy hy'
  obtain rfl : d = 0 := by omega
  obtain rfl : d' = 0 := by omega
  obtain rfl : b = 0 := by omega
  obtain rfl : b' = 0 := by omega
  obtain rfl : c = 0 := by omega
  obtain rfl : c' = 0 := by omega
  interval_cases y <;> interval_cases y' <;> first | exact absurd rfl hne | decide

theorem rows_disjoint_of_single_row {β : Type} (tensor : ITensor β)
    (h1 : tensor.dim 1 = 1) (h2 : tensor.dim 2 = 1) (h3 : tensor.dim 3 = 1)
    (h4 : tensor.dim 4 = 1) : rows_disjoint tensor := by
  intro d hd b hb c hc y hy d' hd' b' hb' c' hc' y' hy' hne
  exfalso
  apply hne
  rw [h4] at hd hd'
  rw [h3] at hb hb'
  rw [h2] at hc hc'
  rw [h1] at hy hy'
  have e1 : d = d' := by omega
  have e2 : b = b' := by omega
  have e3 : c = c' := by omega
  have e4 : y = y' := by omega
  rw [e1, e2, e3, e4]

/-- C24, counterexamples.  A tensor with one row of `2^32` elements: its width
is `0` as a `uint32_t`, nothing is copied either way, and the array that is
read back starts with a zero byte where the array `1, 1, ...` that was copied
in starts with `1`.  A tensor with six dimensions `[1, 1, 1, 1, 1, 2]`: the
loops cover five dimensions, so of the eight bytes `1, ..., 8` only the first
element comes back. -/
theorem marshalling_round_trip_fails :
    (wide_values.length = 4 * wide_tensor.total_size ∧ rows_disjoint wide_tensor ∧
      (get_tensor_values (set_tensor_values wide_tensor wide_values))[0]? = some 0 ∧
      wide_values[0]? = some 1) ∧
    ([1, 2, 3, 4, 5, 6, 7, 8].length = 4 * deep_tensor.total_size ∧ rows_disjoint deep_tensor ∧
      get_tensor_values (set_tensor_values deep_tensor [1, 2, 3, 4, 5, 6, 7, 8])
        = [1, 2, 3, 4, 0, 0, 0, 0]) := by
  refine ⟨⟨?_, rows_disjoint_of_single_row _ rfl rfl rfl rfl, ?_, ?_⟩,
    ⟨rfl, rows_disjoint_of_single_row _ rfl rfl rfl rfl, by decide⟩⟩
  · unfold wide_values
    rw [List.length_replicate]
    rfl
  · unfold get_tensor_values
    rw [List.getElem?_map, wide_tensor_copies_nothing, List.getElem?_range (by decide)]
    rfl
  · unfold wide_values
    rw [List.getElem?_replicate]
    rfl

/-- C24 (amended): for every tensor of at most five dimensions and fewer than
`2^32` elements whose rows (one for each depth, batch, channel and `y` index)
occupy pairwise disjoint ranges of `width * 4` bytes, and every flat `float`
array whose length is the tensor's element count (four bytes per element),
copying the array into the tensor with `set_tensor_values` and reading it out
with `get_tensor_values` returns exactly the array. -/
theorem marshalling_round_trip {β : Type} [Zero β] (tensor : ITensor β) (values : List β)
    (hrank : tensor.shape.length ≤ 5) (hN : tensor.total_size < 4294967296)
    (hlen : values.length = 4 * tensor.total_size) (hdis : rows_disjoint tensor) :
    get_tensor_values (set_tensor_values tensor values) = values := by
  have hprod : tensor.total_size
      = tensor.dim 0 * tensor.dim 1 * tensor.dim 2 * tensor.dim 3 * tensor.dim 4 :=
    shape_prod_of_length_le tensor.shape hrank
  have htotal : (set_tensor_values tensor values).total_size = tensor.total_size := rfl
  apply List.ext_getElem
  · simp only [get_tensor_values, List.length_map, List.length_range, htotal, sizeof_float, hlen]
  · intro k h1 h2
    simp only [get_tensor_values, List.getElem_map, List.getElem_range]
    unfold set_tensor_values
    rw [round_trip_byte tensor _ _ (by rw [← hprod]; exact hN) hdis k
      (by rw [← hprod, ← hlen]; exact h2)]
    simp only [List.getD_eq_getElem?_getD, List.getElem?_eq_getElem h2, Option.getD_some]

/-- Witness of C24 (amended): a dense tensor of two rows of two elements and
the sixteen bytes `0, ..., 15`. -/
theorem marshalling_round_trip_witness :
    get_tensor_values (set_tensor_values dense_tensor (List.range 16)) = List.range 16 :=
  marshalling_round_trip dense_tensor (List.range 16) (by decide) (by decide) (by decide)
    dense_tensor_rows_disjoint

end StyleTransfer
